import Mathlib

/-!
Verification of the go-tpm2 core against its specification.

This file gives a shallow embedding of the parts of the library that the
claims C1-C10 are about:

* the reflection-driven wire codec (`src/unnamed/part_000`), embedded as a
  schema-directed codec over a deep type algebra `TpmType` and an untyped
  value universe `Value`;
* the response-code decoder (`src/errors.go`);
* the handle-context registry: serialization, restore and the consistency
  checks (`src/resources.go`);
* the registry mutation performed by `Clear` (`src/cmds_hierarchy.go`);
* `CreateResourceContextFromTPM` and its error mapping (`src/resources.go`).

Machine integers are modelled as `Nat` with explicit reduction modulo
`2 ^ w` where the Go code truncates.  Fallible code returns `Except`.
Cryptographic digests (an external collaborator of the library, provided by
Go's `crypto` package) are modelled by executable implementations of
SHA-1 / SHA-256 / SHA-384 / SHA-512 following FIPS 180-4.
-/

set_option maxRecDepth 100000

/-! ## Byte-level helpers

Big-endian fixed-width integer encoding, as produced and consumed by Go's
`binary.Write` / `binary.Read` with `binary.BigEndian`.  `encBE w n` emits
exactly `w` bytes holding `n` reduced modulo `2 ^ (8 * w)` (Go's integer
conversions truncate). -/

def encBE : Nat → Nat → List Nat
  | 0, _ => []
  | w + 1, n => encBE w (n / 256) ++ [n % 256]

def decBEgo : Nat → Nat → List Nat → Option (Nat × List Nat)
  | 0, acc, bs => some (acc, bs)
  | _ + 1, _, [] => none
  | w + 1, acc, b :: bs => decBEgo w (acc * 256 + b) bs

def decBE (w : Nat) (bs : List Nat) : Option (Nat × List Nat) := decBEgo w 0 bs

def readBytes (n : Nat) (bs : List Nat) : Option (List Nat × List Nat) :=
  if n ≤ bs.length then some (bs.take n, bs.drop n) else none

def beUint32 (bs : List Nat) : Nat :=
  match bs with
  | [b0, b1, b2, b3] => ((b0 % 256) <<< 24) ||| ((b1 % 256) <<< 16) ||| ((b2 % 256) <<< 8) ||| (b3 % 256)
  | _ => 0

/-! ## Digest algorithms (external crypto capability, FIPS 180-4) -/

def w32 (n : Nat) : Nat := n % 4294967296
def rotr32 (k x : Nat) : Nat := w32 ((x >>> k) ||| (x <<< (32 - k)))
def rotl32 (k x : Nat) : Nat := w32 ((x <<< k) ||| (x >>> (32 - k)))
def w64 (n : Nat) : Nat := n % 18446744073709551616
def rotr64 (k x : Nat) : Nat := w64 ((x >>> k) ||| (x <<< (64 - k)))

def bytesToWordsBE : List Nat → List Nat
  | b0 :: b1 :: b2 :: b3 :: rest =>
    (((b0 % 256) <<< 24) ||| ((b1 % 256) <<< 16) ||| ((b2 % 256) <<< 8) ||| (b3 % 256)) ::
      bytesToWordsBE rest
  | _ => []

def wordsToBytesBE : List Nat → List Nat
  | [] => []
  | w :: ws => (w >>> 24 % 256) :: (w >>> 16 % 256) :: (w >>> 8 % 256) :: (w % 256) :: wordsToBytesBE ws

def mdPad64 (msg : List Nat) : List Nat :=
  let l := msg.length
  let z := (119 - l % 64) % 64
  msg ++ [0x80] ++ List.replicate z 0 ++
    [8 * l >>> 56 % 256, 8 * l >>> 48 % 256, 8 * l >>> 40 % 256, 8 * l >>> 32 % 256,
     8 * l >>> 24 % 256, 8 * l >>> 16 % 256, 8 * l >>> 8 % 256, 8 * l % 256]

structure Sha1St where
  a : Nat
  b : Nat
  c : Nat
  d : Nat
  e : Nat

def sha1F (t b c d : Nat) : Nat :=
  if t < 20 then (b &&& c) ||| ((b ^^^ 0xFFFFFFFF) &&& d)
  else if t < 40 then b ^^^ c ^^^ d
  else if t < 60 then (b &&& c) ||| (b &&& d) ||| (c &&& d)
  else b ^^^ c ^^^ d

def sha1K (t : Nat) : Nat :=
  if t < 20 then 0x5A827999
  else if t < 40 then 0x6ED9EBA1
  else if t < 60 then 0x8F1BBCDC
  else 0xCA62C1D6

def sha1Round (t : Nat) (st : Sha1St) (w : Nat) : Sha1St :=
  let tmp := w32 (rotl32 5 st.a + sha1F t st.b st.c st.d + st.e + sha1K t + w)
  ⟨tmp, st.a, rotl32 30 st.b, st.c, st.d⟩

def sha1Rounds : Nat → List Nat → Sha1St → Sha1St
  | _, [], st => st
  | t, w :: ws, st => sha1Rounds (t + 1) ws (sha1Round t st w)

def sha1ExtendFrom (w3 w8 w14 w16 : Nat) : Nat := rotl32 1 (w3 ^^^ w8 ^^^ w14 ^^^ w16)

def sha1Extend : Nat → List Nat → List Nat
  | 0, acc => acc.reverse
  | n + 1, acc =>
    sha1Extend n (sha1ExtendFrom (acc.getD 2 0) (acc.getD 7 0) (acc.getD 13 0) (acc.getD 15 0) :: acc)

def sha1Block (h : List Nat) (blockBytes : List Nat) : List Nat :=
  let ws := sha1Extend 64 (bytesToWordsBE blockBytes).reverse
  match h with
  | [h0, h1, h2, h3, h4] =>
    let st := sha1Rounds 0 ws ⟨h0, h1, h2, h3, h4⟩
    [w32 (h0 + st.a), w32 (h1 + st.b), w32 (h2 + st.c), w32 (h3 + st.d), w32 (h4 + st.e)]
  | _ => h

def sha1ChunksGo : Nat → List Nat → List Nat → List Nat
  | 0, h, _ => h
  | _, h, [] => h
  | fuel + 1, h, b :: rest =>
    sha1ChunksGo fuel (sha1Block h ((b :: rest).take 64)) ((b :: rest).drop 64)

def sha1IV : List Nat := [0x67452301, 0xEFCDAB89, 0x98BADCFE, 0x10325476, 0xC3D2E1F0]

def sha1 (msg : List Nat) : List Nat :=
  let padded := mdPad64 msg
  wordsToBytesBE (sha1ChunksGo padded.length sha1IV padded)

def sha256KTab : List Nat :=
  [0x428A2F98, 0x71374491, 0xB5C0FBCF, 0xE9B5DBA5, 0x3956C25B, 0x59F111F1, 0x923F82A4, 0xAB1C5ED5,
   0xD807AA98, 0x12835B01, 0x243185BE, 0x550C7DC3, 0x72BE5D74, 0x80DEB1FE, 0x9BDC06A7, 0xC19BF174,
   0xE49B69C1, 0xEFBE4786, 0x0FC19DC6, 0x240CA1CC, 0x2DE92C6F, 0x4A7484AA, 0x5CB0A9DC, 0x76F988DA,
   0x983E5152, 0xA831C66D, 0xB00327C8, 0xBF597FC7, 0xC6E00BF3, 0xD5A79147, 0x06CA6351, 0x14292967,
   0x27B70A85, 0x2E1B2138, 0x4D2C6DFC, 0x53380D13, 0x650A7354, 0x766A0ABB, 0x81C2C92E, 0x92722C85,
   0xA2BFE8A1, 0xA81A664B, 0xC24B8B70, 0xC76C51A3, 0xD192E819, 0xD6990624, 0xF40E3585, 0x106AA070,
   0x19A4C116, 0x1E376C08, 0x2748774C, 0x34B0BCB5, 0x391C0CB3, 0x4ED8AA4A, 0x5B9CCA4F, 0x682E6FF3,
   0x748F82EE, 0x78A5636F, 0x84C87814, 0x8CC70208, 0x90BEFFFA, 0xA4506CEB, 0xBEF9A3F7, 0xC67178F2]

structure Sha256St where
  a : Nat
  b : Nat
  c : Nat
  d : Nat
  e : Nat
  f : Nat
  g : Nat
  h : Nat

def sha256Round (st : Sha256St) (k w : Nat) : Sha256St :=
  let s1 := rotr32 6 st.e ^^^ rotr32 11 st.e ^^^ rotr32 25 st.e
  let ch := (st.e &&& st.f) ^^^ ((st.e ^^^ 0xFFFFFFFF) &&& st.g)
  let t1 := w32 (st.h + s1 + ch + k + w)
  let s0 := rotr32 2 st.a ^^^ rotr32 13 st.a ^^^ rotr32 22 st.a
  let mj := (st.a &&& st.b) ^^^ (st.a &&& st.c) ^^^ (st.b &&& st.c)
  let t2 := w32 (s0 + mj)
  ⟨w32 (t1 + t2), st.a, st.b, st.c, w32 (st.d + t1), st.e, st.f, st.g⟩

def sha256Rounds : List Nat → List Nat → Sha256St → Sha256St
  | k :: ks, w :: ws, st => sha256Rounds ks ws (sha256Round st k w)
  | _, _, st => st

def sha256ExtendFrom (w2 w7 w15 w16 : Nat) : Nat :=
  let s0 := rotr32 7 w15 ^^^ rotr32 18 w15 ^^^ (w15 >>> 3)
  let s1 := rotr32 17 w2 ^^^ rotr32 19 w2 ^^^ (w2 >>> 10)
  w32 (w16 + s0 + w7 + s1)

def sha256Extend : Nat → List Nat → List Nat
  | 0, acc => acc.reverse
  | n + 1, acc =>
    sha256Extend n
      (sha256ExtendFrom (acc.getD 1 0) (acc.getD 6 0) (acc.getD 14 0) (acc.getD 15 0) :: acc)

def sha256Block (h : List Nat) (blockBytes : List Nat) : List Nat :=
  let ws := sha256Extend 48 (bytesToWordsBE blockBytes).reverse
  match h with
  | [h0, h1, h2, h3, h4, h5, h6, h7] =>
    let st := sha256Rounds sha256KTab ws ⟨h0, h1, h2, h3, h4, h5, h6, h7⟩
    [w32 (h0 + st.a), w32 (h1 + st.b), w32 (h2 + st.c), w32 (h3 + st.d),
     w32 (h4 + st.e), w32 (h5 + st.f), w32 (h6 + st.g), w32 (h7 + st.h)]
  | _ => h

def sha256ChunksGo : Nat → List Nat → List Nat → List Nat
  | 0, h, _ => h
  | _, h, [] => h
  | fuel + 1, h, b :: rest =>
    sha256ChunksGo fuel (sha256Block h ((b :: rest).take 64)) ((b :: rest).drop 64)

def sha256IV : List Nat :=
  [0x6A09E667, 0xBB67AE85, 0x3C6EF372, 0xA54FF53A, 0x510E527F, 0x9B05688C, 0x1F83D9AB, 0x5BE0CD19]

def sha256 (msg : List Nat) : List Nat :=
  let padded := mdPad64 msg
  wordsToBytesBE (sha256ChunksGo padded.length sha256IV padded)

def sha512KTab : List Nat :=
  [0x428A2F98D728AE22, 0x7137449123EF65CD, 0xB5C0FBCFEC4D3B2F, 0xE9B5DBA58189DBBC,
   0x3956C25BF348B538, 0x59F111F1B605D019, 0x923F82A4AF194F9B, 0xAB1C5ED5DA6D8118,
   0xD807AA98A3030242, 0x12835B0145706FBE, 0x243185BE4EE4B28C, 0x550C7DC3D5FFB4E2,
   0x72BE5D74F27B896F, 0x80DEB1FE3B1696B1, 0x9BDC06A725C71235, 0xC19BF174CF692694,
   0xE49B69C19EF14AD2, 0xEFBE4786384F25E3, 0x0FC19DC68B8CD5B5, 0x240CA1CC77AC9C65,
   0x2DE92C6F592B0275, 0x4A7484AA6EA6E483, 0x5CB0A9DCBD41FBD4, 0x76F988DA831153B5,
   0x983E5152EE66DFAB, 0xA831C66D2DB43210, 0xB00327C898FB213F, 0xBF597FC7BEEF0EE4,
   0xC6E00BF33DA88FC2, 0xD5A79147930AA725, 0x06CA6351E003826F, 0x142929670A0E6E70,
   0x27B70A8546D22FFC, 0x2E1B21385C26C926, 0x4D2C6DFC5AC42AED, 0x53380D139D95B3DF,
   0x650A73548BAF63DE, 0x766A0ABB3C77B2A8, 0x81C2C92E47EDAEE6, 0x92722C851482353B,
   0xA2BFE8A14CF10364, 0xA81A664BBC423001, 0xC24B8B70D0F89791, 0xC76C51A30654BE30,
   0xD192E819D6EF5218, 0xD69906245565A910, 0xF40E35855771202A, 0x106AA07032BBD1B8,
   0x19A4C116B8D2D0C8, 0x1E376C085141AB53, 0x2748774CDF8EEB99, 0x34B0BCB5E19B48A8,
   0x391C0CB3C5C95A63, 0x4ED8AA4AE3418ACB, 0x5B9CCA4F7763E373, 0x682E6FF3D6B2B8A3,
   0x748F82EE5DEFB2FC, 0x78A5636F43172F60, 0x84C87814A1F0AB72, 0x8CC702081A6439EC,
   0x90BEFFFA23631E28, 0xA4506CEBDE82BDE9, 0xBEF9A3F7B2C67915, 0xC67178F2E372532B,
   0xCA273ECEEA26619C, 0xD186B8C721C0C207, 0xEADA7DD6CDE0EB1E, 0xF57D4F7FEE6ED178,
   0x06F067AA72176FBA, 0x0A637DC5A2C898A6, 0x113F9804BEF90DAE, 0x1B710B35131C471B,
   0x28DB77F523047D84, 0x32CAAB7B40C72493, 0x3C9EBE0A15C9BEBC, 0x431D67C49C100D4C,
   0x4CC5D4BECB3E42B6, 0x597F299CFC657E2A, 0x5FCB6FAB3AD6FAEC, 0x6C44198C4A475817]

def sha512Round (st : Sha256St) (k w : Nat) : Sha256St :=
  let s1 := rotr64 14 st.e ^^^ rotr64 18 st.e ^^^ rotr64 41 st.e
  let ch := (st.e &&& st.f) ^^^ ((st.e ^^^ 0xFFFFFFFFFFFFFFFF) &&& st.g)
  let t1 := w64 (st.h + s1 + ch + k + w)
  let s0 := rotr64 28 st.a ^^^ rotr64 34 st.a ^^^ rotr64 39 st.a
  let mj := (st.a &&& st.b) ^^^ (st.a &&& st.c) ^^^ (st.b &&& st.c)
  let t2 := w64 (s0 + mj)
  ⟨w64 (t1 + t2), st.a, st.b, st.c, w64 (st.d + t1), st.e, st.f, st.g⟩

def sha512Rounds : List Nat → List Nat → Sha256St → Sha256St
  | k :: ks, w :: ws, st => sha512Rounds ks ws (sha512Round st k w)
  | _, _, st => st

def sha512ExtendFrom (w2 w7 w15 w16 : Nat) : Nat :=
  let s0 := rotr64 1 w15 ^^^ rotr64 8 w15 ^^^ (w15 >>> 7)
  let s1 := rotr64 19 w2 ^^^ rotr64 61 w2 ^^^ (w2 >>> 6)
  w64 (w16 + s0 + w7 + s1)

def sha512Extend : Nat → List Nat → List Nat
  | 0, acc => acc.reverse
  | n + 1, acc =>
    sha512Extend n
      (sha512ExtendFrom (acc.getD 1 0) (acc.getD 6 0) (acc.getD 14 0) (acc.getD 15 0) :: acc)

def bytesToWords64BE : List Nat → List Nat
  | b0 :: b1 :: b2 :: b3 :: b4 :: b5 :: b6 :: b7 :: rest =>
    (((b0 % 256) <<< 56) ||| ((b1 % 256) <<< 48) ||| ((b2 % 256) <<< 40) ||| ((b3 % 256) <<< 32) |||
     ((b4 % 256) <<< 24) ||| ((b5 % 256) <<< 16) ||| ((b6 % 256) <<< 8) ||| (b7 % 256)) ::
      bytesToWords64BE rest
  | _ => []

def sha512Block (h : List Nat) (blockBytes : List Nat) : List Nat :=
  let ws := sha512Extend 64 (bytesToWords64BE blockBytes).reverse
  match h with
  | [h0, h1, h2, h3, h4, h5, h6, h7] =>
    let st := sha512Rounds sha512KTab ws ⟨h0, h1, h2, h3, h4, h5, h6, h7⟩
    [w64 (h0 + st.a), w64 (h1 + st.b), w64 (h2 + st.c), w64 (h3 + st.d),
     w64 (h4 + st.e), w64 (h5 + st.f), w64 (h6 + st.g), w64 (h7 + st.h)]
  | _ => h

def sha512ChunksGo : Nat → List Nat → List Nat → List Nat
  | 0, h, _ => h
  | _, h, [] => h
  | fuel + 1, h, b :: rest =>
    sha512ChunksGo fuel (sha512Block h ((b :: rest).take 128)) ((b :: rest).drop 128)

def mdPad128 (msg : List Nat) : List Nat :=
  let l := msg.length
  let z := (239 - l % 128) % 128
  msg ++ [0x80] ++ List.replicate z 0 ++
    [8 * l >>> 120 % 256, 8 * l >>> 112 % 256, 8 * l >>> 104 % 256, 8 * l >>> 96 % 256,
     8 * l >>> 88 % 256, 8 * l >>> 80 % 256, 8 * l >>> 72 % 256, 8 * l >>> 64 % 256,
     8 * l >>> 56 % 256, 8 * l >>> 48 % 256, 8 * l >>> 40 % 256, 8 * l >>> 32 % 256,
     8 * l >>> 24 % 256, 8 * l >>> 16 % 256, 8 * l >>> 8 % 256, 8 * l % 256]

def wordsToBytes64BE : List Nat → List Nat
  | [] => []
  | w :: ws =>
    (w >>> 56 % 256) :: (w >>> 48 % 256) :: (w >>> 40 % 256) :: (w >>> 32 % 256) ::
    (w >>> 24 % 256) :: (w >>> 16 % 256) :: (w >>> 8 % 256) :: (w % 256) :: wordsToBytes64BE ws

def sha512IV : List Nat :=
  [0x6A09E667F3BCC908, 0xBB67AE8584CAA73B, 0x3C6EF372FE94F82B, 0xA54FF53A5F1D36F1,
   0x510E527FADE682D1, 0x9B05688C2B3E6C1F, 0x1F83D9ABFB41BD6B, 0x5BE0CD19137E2179]

def sha384IV : List Nat :=
  [0xCBBB9D5DC1059ED8, 0x629A292A367CD507, 0x9159015A3070DD17, 0x152FECD8F70E5939,
   0x67332667FFC00B31, 0x8EB44A8768581511, 0xDB0C2E0D64F98FA7, 0x47B5481DBEFA4FA4]

def sha512 (msg : List Nat) : List Nat :=
  let padded := mdPad128 msg
  wordsToBytes64BE (sha512ChunksGo padded.length sha512IV padded)

def sha384 (msg : List Nat) : List Nat :=
  let padded := mdPad128 msg
  (wordsToBytes64BE (sha512ChunksGo padded.length sha384IV padded)).take 48

/-! ## Digest algorithm registry

Modelled from the spec: supported digest algorithms are SHA-1, SHA-256,
SHA-384 and SHA-512 (spec section 6, crypto capability interface); the
algorithm identifiers are the TCG values (the spec's end-to-end scenario 1
fixes SHA-256 as `0x000B`). -/

def HashAlgorithmSHA1 : Nat := 0x0004
def HashAlgorithmSHA256 : Nat := 0x000B
def HashAlgorithmSHA384 : Nat := 0x000C
def HashAlgorithmSHA512 : Nat := 0x000D

/-- Modelled from the spec: `HashAlgorithmId.Supported` — whether the host
has a digest implementation for this algorithm id (spec section 6). -/
def hashAlgSupported (alg : Nat) : Bool :=
  alg = HashAlgorithmSHA1 ∨ alg = HashAlgorithmSHA256 ∨
    alg = HashAlgorithmSHA384 ∨ alg = HashAlgorithmSHA512

/-- Modelled from the spec: `HashAlgorithmId.Size` — the digest size in
bytes of a supported algorithm. -/
def hashAlgSize (alg : Nat) : Nat :=
  if alg = HashAlgorithmSHA1 then 20
  else if alg = HashAlgorithmSHA256 then 32
  else if alg = HashAlgorithmSHA384 then 48
  else if alg = HashAlgorithmSHA512 then 64
  else 0

/-- Modelled from the spec: `HashAlgorithmId.NewHash` followed by
`Write`/`Sum` — the digest of a message under a supported algorithm. -/
def digestOf (alg : Nat) (msg : List Nat) : List Nat :=
  if alg = HashAlgorithmSHA1 then sha1 msg
  else if alg = HashAlgorithmSHA256 then sha256 msg
  else if alg = HashAlgorithmSHA384 then sha384 msg
  else if alg = HashAlgorithmSHA512 then sha512 msg
  else []

/-! ## Wire codec (src/unnamed/part_000)

The Go codec is reflection-driven: it walks arbitrary Go values guided by
their runtime types and the `tpm2:"..."` struct tags.  The embedding makes
the schema explicit: `TpmType` is the type algebra the codec interprets
(fixed-width big-endian integers, sized byte buffers, lists with a 32-bit
count, pointers, structures with per-field options, and discriminated
unions whose variant is chosen by a sibling selector field), `FieldOpts`
is the information carried by a struct tag (`selector:<field>` becomes the
index of the sibling field, plus the `sized` and `raw` flags), and `Value`
is the untyped universe of runtime values.  Union variants are modelled by
an association list from selector values to a body type or to no body
(`mu.NilUnionValue`); a selector value that is not listed is an invalid
selector, matching the `Select` methods of the library's union types.

Go distinguishes a nil slice from an empty one and a nil pointer from a
pointer to a zero value; the embedding keeps the pointer distinction
(`ptrN` vs `ptrV`) — which the wire format depends on for sized fields —
and conflates nil and empty slices, whose encodings coincide. -/

structure FieldOpts where
  selector : Option Nat
  sized : Bool
  raw : Bool
deriving DecidableEq, Repr

mutual
inductive TpmType where
  | prim (width : Nat)
  | buffer
  | list (elem : TpmType)
  | ptr (elem : TpmType)
  | struct (fields : Fields)
  | union (variants : Variants)

inductive Fields where
  | fnil
  | fcons (opts : FieldOpts) (t : TpmType) (rest : Fields)

inductive Variants where
  | vnil
  | vcons (sel : Nat) (body : TpmType) (rest : Variants)
  | vnone (sel : Nat) (rest : Variants)
end

mutual
inductive Value where
  | num (n : Nat)
  | bytes (bs : List Nat)
  | listV (vs : Values)
  | ptrN
  | ptrV (v : Value)
  | structV (vs : Values)
  | unionN
  | unionV (v : Value)
deriving DecidableEq, Repr

inductive Values where
  | nil
  | cons (v : Value) (rest : Values)
deriving DecidableEq, Repr
end

def Values.getD : Values → Nat → Value → Value
  | .nil, _, d => d
  | .cons v _, 0, _ => v
  | .cons _ rest, n + 1, d => rest.getD n d

def Values.length : Values → Nat
  | .nil => 0
  | .cons _ rest => rest.length + 1

def Values.append : Values → Values → Values
  | .nil, ws => ws
  | .cons v rest, ws => .cons v (rest.append ws)

/- The zero value of a schema type — what `reflect.Zero` / `reflect.New`
produce for the corresponding Go type. -/
mutual
def zeroValue : TpmType → Value
  | .prim _ => .num 0
  | .buffer => .bytes []
  | .list _ => .listV .nil
  | .ptr _ => .ptrN
  | .struct fs => .structV (zeroFields fs)
  | .union _ => .unionN
termination_by structural t => t

def zeroFields : Fields → Values
  | .fnil => .nil
  | .fcons _ t rest => .cons (zeroValue t) (zeroFields rest)
termination_by structural fs => fs
end

inductive MuErr where
  | shortRead
  | notPtr
  | notStruct
  | preallocSized
  | invalidSelector
  | noContainer
  | noSelectorMember
  | wrongValueKind
deriving DecidableEq, Repr

deriving instance DecidableEq for Except

def optsNone : FieldOpts := ⟨none, false, false⟩

/-- Resolve the selector of a union field from the enclosing container
(`ctx.container.FieldByName(ctx.options.selector)` in the source). -/
def getSelector (container : Option Values) (opts : FieldOpts) : Except MuErr Nat :=
  match container with
  | none => throw .noContainer
  | some vs =>
    match opts.selector with
    | none => throw .noSelectorMember
    | some idx =>
      match vs.getD idx (.num 0) with
      | .num n => pure n
      | _ => throw .noSelectorMember

def mapElemsGo (f : Value → Except MuErr (List Nat)) : Values → Except MuErr (List Nat)
  | .nil => pure []
  | .cons v rest => do
    let out ← f v
    let outs ← mapElemsGo f rest
    pure (out ++ outs)

def readElemsGo (f : List Nat → Except MuErr (Value × List Nat)) :
    Nat → List Nat → Except MuErr (Values × List Nat)
  | 0, inp => pure (.nil, inp)
  | n + 1, inp => do
    let (v, inp') ← f inp
    let (vs, inp'') ← readElemsGo f n inp'
    pure (.cons v vs, inp'')

/- `marshalValue` (src/unnamed/part_000:289-341).  The `opts.sized` branch
embeds `marshalSized` (part_000:151-175): the value must be a pointer to a
struct; a nil pointer emits a zero `u16`; otherwise the body is marshalled
first and prefixed with its `u16` byte length (`uint16(tmpBuf.Len())`, a
truncating Go conversion, which `encBE 2` reproduces).  The `ptr` case is
`marshalPtr` (part_000:177-187): a nil pointer marshals the zero value of
the pointed-to type, preserving the field options and container.  The
`struct`/`union` cases are `marshalStruct`/`marshalUnion` with the variant
lookup of the union's `Select` method inlined, and the `buffer`/`list`
cases are `marshalSlice` (part_000:255-287). -/
mutual
def marshalValue (t : TpmType) (v : Value) (container : Option Values) (opts : FieldOpts) :
    Except MuErr (List Nat) :=
  match t with
  | .ptr elem =>
    if opts.sized then
      -- marshalSized: the pointer must point to a struct; a nil pointer
      -- emits a zero u16; otherwise the body is buffered first and emitted
      -- behind its u16 byte length (a truncating uint16 conversion)
      match elem with
      | .struct _ =>
        match v with
        | .ptrN => pure (encBE 2 0)
        | .ptrV x => do
          let body ← marshalValue elem x container ⟨opts.selector, false, opts.raw⟩
          pure (encBE 2 body.length ++ body)
        | _ => throw .wrongValueKind
      | _ => throw .notStruct
    else
      -- marshalPtr: nil marshals the zero value of the pointed-to type
      match v with
      | .ptrN => marshalValue elem (zeroValue elem) container opts
      | .ptrV x => marshalValue elem x container opts
      | _ => throw .wrongValueKind
  | .struct fs =>
    if opts.sized then throw .notPtr
    else
      match v with
      | .structV vs => marshalFields fs vs vs
      | _ => throw .wrongValueKind
  | .union vars =>
    if opts.sized then throw .notPtr
    else do
      let sel ← getSelector container opts
      marshalUnion vars sel v
  | .buffer =>
    if opts.sized then throw .notPtr
    else
      match v with
      | .bytes bs => if opts.raw then pure bs else pure (encBE 2 bs.length ++ bs)
      | _ => throw .wrongValueKind
  | .list elem =>
    if opts.sized then throw .notPtr
    else
      match v with
      | .listV vs => do
        let pre := if opts.raw then [] else encBE 4 vs.length
        let body ← mapElemsGo (fun x => marshalValue elem x none optsNone) vs
        pure (pre ++ body)
      | _ => throw .wrongValueKind
  | .prim w =>
    if opts.sized then throw .notPtr
    else
      match v with
      | .num n => pure (encBE w n)
      | _ => throw .wrongValueKind
termination_by structural t

def marshalFields (fs : Fields) (vs : Values) (all : Values) : Except MuErr (List Nat) :=
  match fs, vs with
  | .fnil, _ => pure []
  | .fcons o t rest, .cons v vr => do
    let out ← marshalValue t v (some all) o
    let outs ← marshalFields rest vr all
    pure (out ++ outs)
  | .fcons _ _ _, .nil => throw .wrongValueKind
termination_by structural fs

def marshalUnion (vars : Variants) (sel : Nat) (v : Value) : Except MuErr (List Nat) :=
  match vars with
  | .vnil => throw .invalidSelector
  | .vnone s rest => if sel = s then pure [] else marshalUnion rest sel v
  | .vcons s bodyT rest =>
    if sel = s then
      let payload := match v with
        | .unionV x => x
        | _ => zeroValue bodyT
      marshalValue bodyT payload none optsNone
    else marshalUnion rest sel v
termination_by structural vars
end

/- `unmarshalValue` (src/unnamed/part_000:503-562), threading the current
destination value (the reflect destination the Go code writes into).  The
`opts.sized` branch embeds `unmarshalSized` (part_000:343-371): a zero
length prefix with a pre-allocated (non-nil) destination is an error, a
zero length with a nil destination leaves it nil, and otherwise the body
is read through an `io.LimitReader` of the prefixed length, modelled by
parsing from `take size` of the remaining input and dropping the consumed
prefix afterwards.  The `ptr` case is `unmarshalPtr` (part_000:373-381):
a nil destination is allocated as the zero value.  `buffer`/`list` follow
`unmarshalSlice` (part_000:453-501): a raw destination keeps its
pre-allocated length, a nil list destination is allocated with the
prefixed count. -/
mutual
def unmarshalValue (t : TpmType) (dest : Value) (container : Option Values) (opts : FieldOpts)
    (input : List Nat) : Except MuErr (Value × List Nat) :=
  match t with
  | .ptr elem =>
    if opts.sized then
      -- unmarshalSized: read the u16 length; a zero length with a
      -- pre-allocated destination is an error, with a nil destination it
      -- leaves the destination nil; otherwise read the body through a
      -- LimitReader of the prefixed length
      match elem with
      | .struct _ =>
        match decBE 2 input with
        | none => throw .shortRead
        | some (size, rest) =>
          if size = 0 then
            match dest with
            | .ptrN => pure (.ptrN, rest)
            | _ => throw .preallocSized
          else
            let inner := match dest with
              | .ptrV x => x
              | _ => zeroValue elem
            do
              let (v, leftover) ←
                unmarshalValue elem inner container ⟨opts.selector, false, opts.raw⟩
                  (rest.take size)
              pure (.ptrV v, rest.drop (size - leftover.length))
      | _ => throw .notStruct
    else
      -- unmarshalPtr: a nil destination is allocated as the zero value
      let inner := match dest with
        | .ptrV x => x
        | _ => zeroValue elem
      do
        let (v, rest) ← unmarshalValue elem inner container opts input
        pure (.ptrV v, rest)
  | .struct fs =>
    if opts.sized then throw .notPtr
    else
      match dest with
      | .structV dvs => do
        let (vs, rest) ← unmarshalFields fs dvs .nil input
        pure (.structV vs, rest)
      | _ => throw .wrongValueKind
  | .union vars =>
    if opts.sized then throw .notPtr
    else do
      let sel ← getSelector container opts
      unmarshalUnion vars sel dest input
  | .buffer =>
    if opts.sized then throw .notPtr
    else
      match dest with
      | .bytes ds =>
        if opts.raw then
          match readBytes ds.length input with
          | none => throw .shortRead
          | some (bs, rest) => pure (.bytes bs, rest)
        else
          match decBE 2 input with
          | none => throw .shortRead
          | some (l, rest) =>
            match readBytes l rest with
            | none => throw .shortRead
            | some (bs, rest') => pure (.bytes bs, rest')
      | _ => throw .wrongValueKind
  | .list elem =>
    if opts.sized then throw .notPtr
    else
      match dest with
      | .listV ds => do
        let (count, rest) ←
          if opts.raw then pure (ds.length, input)
          else
            match decBE 4 input with
            | none => throw .shortRead
            | some (l, rest) => pure (if ds.length = 0 then l else ds.length, rest)
        let (vs, rest') ←
          readElemsGo (fun inp => unmarshalValue elem (zeroValue elem) none optsNone inp)
            count rest
        pure (.listV vs, rest')
      | _ => throw .wrongValueKind
  | .prim w =>
    if opts.sized then throw .notPtr
    else
      match decBE w input with
      | none => throw .shortRead
      | some (n, rest) => pure (.num n, rest)
termination_by structural t

def unmarshalFields (fs : Fields) (dests : Values) (acc : Values) (input : List Nat) :
    Except MuErr (Values × List Nat) :=
  match fs, dests with
  | .fnil, _ => pure (.nil, input)
  | .fcons o t rest, .cons d dr => do
    let (v, rest') ← unmarshalValue t d (some (acc.append (.cons d dr))) o input
    let (vs, rest'') ← unmarshalFields rest dr (acc.append (.cons v .nil)) rest'
    pure (.cons v vs, rest'')
  | .fcons _ _ _, .nil => throw .wrongValueKind
termination_by structural fs

def unmarshalUnion (vars : Variants) (sel : Nat) (dest : Value) (input : List Nat) :
    Except MuErr (Value × List Nat) :=
  match vars with
  | .vnil => throw .invalidSelector
  | .vnone s rest => if sel = s then pure (dest, input) else unmarshalUnion rest sel dest input
  | .vcons s bodyT rest =>
    if sel = s then
      let d := match dest with
        | .unionV x => x
        | _ => zeroValue bodyT
      do
        let (v, rest') ← unmarshalValue bodyT d none optsNone input
        pure (.unionV v, rest')
    else unmarshalUnion rest sel dest input
termination_by structural vars
end

/-- `MarshalToWriter` / `MarshalToBytes` (src/unnamed/part_000:570-591):
marshal a sequence of top-level values with an empty context. -/
def MarshalToBytes : List (TpmType × Value) → Except MuErr (List Nat)
  | [] => pure []
  | (t, v) :: rest => do
    let out ← marshalValue t v none optsNone
    let outs ← MarshalToBytes rest
    pure (out ++ outs)

/-- `UnmarshalFromReader` (src/unnamed/part_000:600-616): unmarshal a
sequence of top-level destinations with an empty context, returning the
decoded values and whatever input remains. -/
def UnmarshalFromReader : List (TpmType × Value) → List Nat → Except MuErr (List Value × List Nat)
  | [], input => pure ([], input)
  | (t, d) :: rest, input => do
    let (v, input') ← unmarshalValue t d none optsNone input
    let (vs, input'') ← UnmarshalFromReader rest input'
    pure (v :: vs, input'')

/-- `UnmarshalFromBytes` (src/unnamed/part_000:626-632): unmarshal from a
byte slice and return the number of bytes consumed (`len(b) - buf.Len()`)
together with the decoded values. -/
def UnmarshalFromBytes (dests : List (TpmType × Value)) (b : List Nat) :
    Except MuErr (Nat × List Value) :=
  match UnmarshalFromReader dests b with
  | .error e => .error e
  | .ok (vs, rest) => .ok (b.length - rest.length, vs)

/-! ## Response-code decoder (src/errors.go)

`ResponseCode`, `CommandCode`, `ErrorCode` and `WarningCode` are 32-bit /
integer types in the source and are modelled as `Nat`.  The structured
errors `TPM1Error`, `TPMVendorError`, `TPMWarning`, `TPMError`,
`TPMParameterError`, `TPMSessionError` and `TPMHandleError` become the
constructors of `TPMErr`; the parameter/session/handle variants wrap a
`*TPMError` in the source, which is flattened into the carried command and
error codes (exactly the data reachable through `Unwrap`). -/

inductive TPMErr where
  | tpm1Error (command code : Nat)
  | vendorError (command code : Nat)
  | warning (command code : Nat)
  | tpmError (command code : Nat)
  | parameterError (index : Nat) (command code : Nat)
  | sessionError (index : Nat) (command code : Nat)
  | handleError (index : Nat) (command code : Nat)
deriving DecidableEq, Repr

/-- Modelled from the spec: the success response code is `0x00000000`
(spec section 8, error-decoding vectors). -/
def Success : Nat := 0

def formatMask : Nat := 1 <<< 7
def fmt0ErrorCodeMask : Nat := 0x7f
def fmt0VersionMask : Nat := 1 <<< 8
def fmt0VendorMask : Nat := 1 <<< 10
def fmt0SeverityMask : Nat := 1 <<< 11
def fmt1ErrorCodeMask : Nat := 0x3f
def fmt1IndexShift : Nat := 8
def fmt1ParameterIndexMask : Nat := 0xf <<< fmt1IndexShift
def fmt1HandleOrSessionIndexMask : Nat := 0x7 <<< fmt1IndexShift
def fmt1ParameterMask : Nat := 1 <<< 6
def fmt1SessionMask : Nat := 1 <<< 11

/-- Modelled from the spec: the fixed bias added to format-1 error codes so
that they do not collide with the 7-bit format-0 error codes (spec
section 4.2); the smallest such bias, `0x80`, is the TCG `RC_FMT1` value. -/
def errorCode1Start : Nat := 0x80

/-- Modelled from the spec: the `ECCPoint` error code — the format-1 code
`0x27` plus the bias, per the vector `0x000005E7 → ParameterError, index 5,
code ECCPoint` (spec section 8). -/
def ErrorECCPoint : Nat := 0x27 + errorCode1Start

/-- Modelled from the spec: the `handle` error code (TCG `RC_FMT1 + 0x00B`),
used by `CreateResourceContextFromTPM` to recognise an unavailable
resource. -/
def ErrorHandle : Nat := 0x0b + errorCode1Start

/-- Modelled from the spec: the `reference-h0` warning code
(TCG `TPM_RC_REFERENCE_H0` with the warning bits stripped, `0x10`). -/
def WarningReferenceH0 : Nat := 0x10

/-- `DecodeResponseCode` (src/errors.go:288-319).  `none` is the source's
nil error for `Success`. -/
def DecodeResponseCode (command resp : Nat) : Option TPMErr :=
  if resp = Success then none
  else if resp &&& formatMask = 0 then
    -- Format 0 error codes
    if resp &&& fmt0VersionMask = 0 then some (.tpm1Error command resp)
    else if resp &&& fmt0VendorMask > 0 then some (.vendorError command resp)
    else if resp &&& fmt0SeverityMask > 0 then some (.warning command (resp &&& fmt0ErrorCodeMask))
    else some (.tpmError command (resp &&& fmt0ErrorCodeMask))
  else
    -- Format 1 error codes
    let code := (resp &&& fmt1ErrorCodeMask) + errorCode1Start
    if resp &&& fmt1ParameterMask > 0 then
      some (.parameterError ((resp &&& fmt1ParameterIndexMask) >>> fmt1IndexShift) command code)
    else if resp &&& fmt1SessionMask > 0 then
      some (.sessionError ((resp &&& fmt1HandleOrSessionIndexMask) >>> fmt1IndexShift) command code)
    else if resp &&& fmt1HandleOrSessionIndexMask > 0 then
      some (.handleError ((resp &&& fmt1HandleOrSessionIndexMask) >>> fmt1IndexShift) command code)
    else some (.tpmError command code)

/-- The spec's taxonomy of response codes, written from the words of the
claim: success yields no error; with bit 7 clear (format 0) a clear bit 8
yields a TPM-1.2 error carrying the full code, an otherwise set vendor
bit 10 yields a vendor error carrying the full code, an otherwise set
severity bit 11 yields a warning with code equal to the low 7 bits, and
otherwise an error with code equal to the low 7 bits; with bit 7 set
(format 1) the error code is the low 6 bits plus the bias, a set parameter
flag (bit 6) yields a parameter error with index taken from bits 8-11, an
otherwise set session flag (bit 11) yields a session error with index from
bits 8-10, an otherwise nonzero value in bits 8-10 yields a handle error
with that index, and otherwise a plain error. -/
def specDecodeResponseCode (command resp : Nat) : Option TPMErr :=
  if resp = 0 then none
  else if resp.testBit 7 = false then
    if resp.testBit 8 = false then some (.tpm1Error command resp)
    else if resp.testBit 10 then some (.vendorError command resp)
    else if resp.testBit 11 then some (.warning command (resp % 128))
    else some (.tpmError command (resp % 128))
  else
    let code := resp % 64 + errorCode1Start
    if resp.testBit 6 then some (.parameterError (resp / 256 % 16) command code)
    else if resp.testBit 11 then some (.sessionError (resp / 256 % 8) command code)
    else if resp / 256 % 8 ≠ 0 then some (.handleError (resp / 256 % 8) command code)
    else some (.tpmError command code)

/-! ## Library error universe and matching predicates (src/errors.go) -/

inductive LibError where
  | tpm (e : TPMErr)
  | resourceUnavailable (handle : Nat)
  | invalidResponse (command : Nat) (msg : String)
  | otherErr (tag : Nat)
deriving DecidableEq, Repr

def AnyCommandCode : Nat := 0xc0000000
def AnyErrorCode : Nat := 0x100
def AnyWarningCode : Nat := 0x80
def AnyHandleIndex : Int := -1
def AnyParameterIndex : Int := -1
def AnySessionIndex : Int := -1

/-- `IsTPMError` (src/errors.go:233-236).  `xerrors.As` locates a
`*TPMError` either directly or through the `Unwrap` of a parameter,
session or handle error. -/
def IsTPMError (err : LibError) (code command : Nat) : Bool :=
  match err with
  | .tpm (.tpmError c k) =>
    (code = AnyErrorCode ∨ k = code) ∧ (command = AnyCommandCode ∨ c = command)
  | .tpm (.parameterError _ c k) =>
    (code = AnyErrorCode ∨ k = code) ∧ (command = AnyCommandCode ∨ c = command)
  | .tpm (.sessionError _ c k) =>
    (code = AnyErrorCode ∨ k = code) ∧ (command = AnyCommandCode ∨ c = command)
  | .tpm (.handleError _ c k) =>
    (code = AnyErrorCode ∨ k = code) ∧ (command = AnyCommandCode ∨ c = command)
  | _ => false

/-- `IsTPMHandleError` (src/errors.go:241-244). -/
def IsTPMHandleError (err : LibError) (code command : Nat) (handle : Int) : Bool :=
  match err with
  | .tpm (.handleError idx c k) =>
    (code = AnyErrorCode ∨ k = code) ∧ (command = AnyCommandCode ∨ c = command) ∧
      (handle = AnyHandleIndex ∨ handle = (idx : Int))
  | _ => false

/-- `IsTPMParameterError` (src/errors.go:249-252). -/
def IsTPMParameterError (err : LibError) (code command : Nat) (param : Int) : Bool :=
  match err with
  | .tpm (.parameterError idx c k) =>
    (code = AnyErrorCode ∨ k = code) ∧ (command = AnyCommandCode ∨ c = command) ∧
      (param = AnyParameterIndex ∨ param = (idx : Int))
  | _ => false

/-- `IsTPMSessionError` (src/errors.go:257-260). -/
def IsTPMSessionError (err : LibError) (code command : Nat) (session : Int) : Bool :=
  match err with
  | .tpm (.sessionError idx c k) =>
    (code = AnyErrorCode ∨ k = code) ∧ (command = AnyCommandCode ∨ c = command) ∧
      (session = AnySessionIndex ∨ session = (idx : Int))
  | _ => false

/-- `IsTPMWarning` (src/errors.go:264-267). -/
def IsTPMWarning (err : LibError) (code command : Nat) : Bool :=
  match err with
  | .tpm (.warning c k) =>
    (code = AnyWarningCode ∨ k = code) ∧ (command = AnyCommandCode ∨ c = command)
  | _ => false

/-! ## Handle-context registry model (src/resources.go)

Constants modelled from the spec (§3): the top byte of a handle is its
type; the reserved unassigned handle is `0xffffffff`; the TCG values for
session types, symmetric algorithms and the CFB mode identifier. -/

def HandleTypePCR : Nat := 0x00
def HandleTypeNVIndex : Nat := 0x01
def HandleTypeHMACSession : Nat := 0x02
def HandleTypePolicySession : Nat := 0x03
def HandleTypePermanent : Nat := 0x40
def HandleTypeTransient : Nat := 0x80
def HandleTypePersistent : Nat := 0x81
def HandleUnassigned : Nat := 0xffffffff

/-- Modelled from the spec: `Handle.Type()` — the top byte of the 32-bit
handle (spec section 3, data model). -/
def handleType (h : Nat) : Nat := (h >>> 24) % 256

def SessionTypeHMAC : Nat := 0x00
def SessionTypePolicy : Nat := 0x01
def SessionTypeTrial : Nat := 0x03

/-- Modelled from the spec: the largest legal `policyHMACType` value; the
source's internal enum has the three values no-auth, auth and password. -/
def policyHMACTypeMax : Nat := 2

def SymAlgorithmAES : Nat := 0x0006
def SymAlgorithmXOR : Nat := 0x000A
def SymAlgorithmNull : Nat := 0x0010
def SymAlgorithmSM4 : Nat := 0x0013
def SymAlgorithmCamellia : Nat := 0x0026
def SymModeCFB : Nat := 0x0043

def handleContextTypeDummy : Nat := 0
def handleContextTypePermanent : Nat := 1
def handleContextTypeObject : Nat := 2
def handleContextTypeNvIndex : Nat := 3
def handleContextTypeSession : Nat := 4

/-- Modelled from the spec: `SymDef` (TPMT_SYM_DEF) — algorithm id plus
key-size and mode unions selected by the algorithm.  `KeyBits` and `Mode`
are pointers to one-field union structures in the source; each is modelled
as the optional value of that field. -/
structure SymDef where
  Algorithm : Nat
  KeyBits : Option Nat
  Mode : Option Nat
deriving DecidableEq, Repr

/-- `sessionContextData` (src/resources.go:116-128). -/
structure sessionContextData where
  IsAudit : Bool
  IsExclusive : Bool
  HashAlg : Nat
  SessionType : Nat
  PolicyHMACType : Nat
  IsBound : Bool
  BoundEntity : List Nat
  SessionKey : List Nat
  NonceCaller : List Nat
  NonceTPM : List Nat
  Symmetric : Option SymDef
deriving DecidableEq, Repr

/-- Modelled from the spec (§3): the object public area — type, name
algorithm, attribute bitfield, authorization policy digest, and the
type-specific parameter and unique fields, the last two modelled as sized
buffers. -/
structure Public where
  Type' : Nat
  NameAlg : Nat
  Attrs : Nat
  AuthPolicy : List Nat
  Params : List Nat
  Unique : List Nat
deriving DecidableEq, Repr

/-- Modelled from the spec (§3): the NV public area — index handle, name
algorithm, NV attribute bitfield, authorization policy digest and data
size. -/
structure NVPublic where
  Index : Nat
  NameAlg : Nat
  Attrs : Nat
  AuthPolicy : List Nat
  Size : Nat
deriving DecidableEq, Repr

/-- The payload of `handleContextU` (src/resources.go:130-149).  The
union's `Select` method projects the `Type` selector to exactly one of the
three pointer fields; the sum captures the selected field (the source's
constructors never populate the others). -/
inductive handleContextData where
  | object (pub : Option Public)
  | nv (pub : Option NVPublic)
  | session (d : Option sessionContextData)
deriving DecidableEq, Repr

/-- `handleContext` (src/resources.go:151-156).  The Go struct's `Type`
field is written `Type'`. -/
structure handleContext where
  Type' : Nat
  H : Nat
  N : List Nat
  Data : Option handleContextData
deriving DecidableEq, Repr

/-! ### Wire schemas of the context types

These spell out, as `TpmType` values, the schemas the reflection engine
derives from the Go types at runtime: the field order of the structs, the
`u16`-prefixed buffers, the pointers, and the `selector:`-tagged unions. -/

def symKeyBitsVariants : Variants :=
  .vcons SymAlgorithmAES (.prim 2)
    (.vcons SymAlgorithmXOR (.prim 2)
      (.vcons SymAlgorithmSM4 (.prim 2)
        (.vcons SymAlgorithmCamellia (.prim 2)
          (.vnone SymAlgorithmNull .vnil))))

def symModeVariants : Variants :=
  .vcons SymAlgorithmAES (.prim 2)
    (.vcons SymAlgorithmSM4 (.prim 2)
      (.vcons SymAlgorithmCamellia (.prim 2)
        (.vnone SymAlgorithmXOR
          (.vnone SymAlgorithmNull .vnil))))

def symDefT : TpmType :=
  .struct (.fcons optsNone (.prim 2)
    (.fcons ⟨some 0, false, false⟩ (.ptr (.union symKeyBitsVariants))
      (.fcons ⟨some 0, false, false⟩ (.ptr (.union symModeVariants)) .fnil)))

def sessionDataT : TpmType :=
  .struct (.fcons optsNone (.prim 1)
    (.fcons optsNone (.prim 1)
      (.fcons optsNone (.prim 2)
        (.fcons optsNone (.prim 1)
          (.fcons optsNone (.prim 1)
            (.fcons optsNone (.prim 1)
              (.fcons optsNone .buffer
                (.fcons optsNone .buffer
                  (.fcons optsNone .buffer
                    (.fcons optsNone .buffer
                      (.fcons optsNone (.ptr symDefT) .fnil)))))))))))

def publicT : TpmType :=
  .struct (.fcons optsNone (.prim 2)
    (.fcons optsNone (.prim 2)
      (.fcons optsNone (.prim 4)
        (.fcons optsNone .buffer
          (.fcons optsNone .buffer
            (.fcons optsNone .buffer .fnil))))))

def nvPublicT : TpmType :=
  .struct (.fcons optsNone (.prim 4)
    (.fcons optsNone (.prim 2)
      (.fcons optsNone (.prim 4)
        (.fcons optsNone .buffer
          (.fcons optsNone (.prim 2) .fnil)))))

def handleContextVariants : Variants :=
  .vnone handleContextTypeDummy
    (.vnone handleContextTypePermanent
      (.vcons handleContextTypeObject (.ptr publicT)
        (.vcons handleContextTypeNvIndex (.ptr nvPublicT)
          (.vcons handleContextTypeSession (.ptr sessionDataT) .vnil))))

def handleContextT : TpmType :=
  .struct (.fcons optsNone (.prim 1)
    (.fcons optsNone (.prim 4)
      (.fcons optsNone .buffer
        (.fcons ⟨some 0, false, false⟩ (.ptr (.union handleContextVariants)) .fnil))))

/-! ### Embedding the typed contexts into the value universe -/

def boolByte (b : Bool) : Nat := if b then 1 else 0

def optPtr : Option Value → Value
  | none => .ptrN
  | some v => .ptrV v

def SymDef.toValue (s : SymDef) : Value :=
  .structV (.cons (.num s.Algorithm)
    (.cons (optPtr (s.KeyBits.map (fun k => .unionV (.num k))))
      (.cons (optPtr (s.Mode.map (fun m => .unionV (.num m)))) .nil)))

def sessionContextData.toValue (d : sessionContextData) : Value :=
  .structV (.cons (.num (boolByte d.IsAudit))
    (.cons (.num (boolByte d.IsExclusive))
      (.cons (.num d.HashAlg)
        (.cons (.num d.SessionType)
          (.cons (.num d.PolicyHMACType)
            (.cons (.num (boolByte d.IsBound))
              (.cons (.bytes d.BoundEntity)
                (.cons (.bytes d.SessionKey)
                  (.cons (.bytes d.NonceCaller)
                    (.cons (.bytes d.NonceTPM)
                      (.cons (optPtr (d.Symmetric.map SymDef.toValue)) .nil)))))))))))

def Public.toValue (p : Public) : Value :=
  .structV (.cons (.num p.Type')
    (.cons (.num p.NameAlg)
      (.cons (.num p.Attrs)
        (.cons (.bytes p.AuthPolicy)
          (.cons (.bytes p.Params)
            (.cons (.bytes p.Unique) .nil))))))

def NVPublic.toValue (p : NVPublic) : Value :=
  .structV (.cons (.num p.Index)
    (.cons (.num p.NameAlg)
      (.cons (.num p.Attrs)
        (.cons (.bytes p.AuthPolicy)
          (.cons (.num p.Size) .nil)))))

def handleContextData.toValue : handleContextData → Value
  | .object p => .unionV (optPtr (p.map Public.toValue))
  | .nv p => .unionV (optPtr (p.map NVPublic.toValue))
  | .session d => .unionV (optPtr (d.map sessionContextData.toValue))

def handleContext.toValue (h : handleContext) : Value :=
  .structV (.cons (.num h.Type')
    (.cons (.num h.H)
      (.cons (.bytes h.N)
        (.cons (optPtr (h.Data.map handleContextData.toValue)) .nil))))

/-! ### Parsing decoded values back into the typed contexts

Go unmarshals directly into the typed struct; the untyped embedding
decodes to a `Value` first and converts.  The conversions are partial only
because `Value` is untyped: on every value the codec can produce for the
schema they succeed.  A pointer to an allocated one-field union structure
whose payload was never written holds the field's zero value, so both
`ptrV unionN` and `ptrV (unionV (num k))` convert. -/

def ptrUnionNum : Value → Option (Option Nat)
  | .ptrN => some none
  | .ptrV .unionN => some (some 0)
  | .ptrV (.unionV (.num k)) => some (some k)
  | _ => none

def boolOfByte (n : Nat) : Bool := n ≠ 0

def SymDef.ofValue : Value → Option SymDef
  | .structV (.cons (.num alg) (.cons kb (.cons md .nil))) => do
    let kbv ← ptrUnionNum kb
    let mdv ← ptrUnionNum md
    some ⟨alg, kbv, mdv⟩
  | _ => none

def sessionContextData.ofValue : Value → Option sessionContextData
  | .structV (.cons (.num au) (.cons (.num ex) (.cons (.num alg) (.cons (.num ty)
      (.cons (.num ph) (.cons (.num bd) (.cons (.bytes be) (.cons (.bytes sk)
        (.cons (.bytes nc) (.cons (.bytes nt) (.cons sym .nil))))))))))) =>
    match sym with
    | .ptrN => some ⟨boolOfByte au, boolOfByte ex, alg, ty, ph, boolOfByte bd, be, sk, nc, nt, none⟩
    | .ptrV sv => do
      let s ← SymDef.ofValue sv
      some ⟨boolOfByte au, boolOfByte ex, alg, ty, ph, boolOfByte bd, be, sk, nc, nt, some s⟩
    | _ => none
  | _ => none

def Public.ofValue : Value → Option Public
  | .structV (.cons (.num ty) (.cons (.num alg) (.cons (.num attrs)
      (.cons (.bytes pol) (.cons (.bytes params) (.cons (.bytes uniq) .nil)))))) =>
    some ⟨ty, alg, attrs, pol, params, uniq⟩
  | _ => none

def NVPublic.ofValue : Value → Option NVPublic
  | .structV (.cons (.num idx) (.cons (.num alg) (.cons (.num attrs)
      (.cons (.bytes pol) (.cons (.num size) .nil))))) =>
    some ⟨idx, alg, attrs, pol, size⟩
  | _ => none

def handleContextDataOfValue (ty : Nat) (dataV : Value) : Option (Option handleContextData) :=
  match dataV with
  | .ptrN => some none
  | .ptrV u =>
    if ty = handleContextTypeObject then
      match u with
      | .unionN => some (some (.object none))
      | .unionV .ptrN => some (some (.object none))
      | .unionV (.ptrV pv) => (Public.ofValue pv).map (fun p => some (.object (some p)))
      | _ => none
    else if ty = handleContextTypeNvIndex then
      match u with
      | .unionN => some (some (.nv none))
      | .unionV .ptrN => some (some (.nv none))
      | .unionV (.ptrV pv) => (NVPublic.ofValue pv).map (fun p => some (.nv (some p)))
      | _ => none
    else if ty = handleContextTypeSession then
      match u with
      | .unionN => some (some (.session none))
      | .unionV .ptrN => some (some (.session none))
      | .unionV (.ptrV sv) => (sessionContextData.ofValue sv).map (fun d => some (.session (some d)))
      | _ => none
    else
      -- dummy / permanent: the union has no payload
      match u with
      | .unionN => some none
      | _ => none
  | _ => none

def handleContext.ofValue : Value → Option handleContext
  | .structV (.cons (.num ty) (.cons (.num h) (.cons (.bytes n) (.cons dataV .nil)))) => do
    let d ← handleContextDataOfValue ty dataV
    some ⟨ty, h, n, d⟩
  | _ => none

/-! ### Names and consistency checks -/

/-- `Name.IsHandle`: a name is a handle name when it is exactly four bytes
(the size of a `Handle`). -/
def nameIsHandle (n : List Nat) : Bool := n.length = 4

/-- `Name.Handle`: the big-endian 32-bit handle held in a handle name. -/
def nameHandle (n : List Nat) : Nat := beUint32 n

/-- Modelled from the spec (§3): an object's name is `algId || digest`
over the marshalled public area, computed with the name algorithm; an
unsupported name algorithm is an error (`Public.Name` in the library). -/
def Public.Name (p : Public) : Option (List Nat) :=
  if hashAlgSupported p.NameAlg then
    match MarshalToBytes [(publicT, p.toValue)] with
    | .ok bs => some (encBE 2 p.NameAlg ++ digestOf p.NameAlg bs)
    | .error _ => none
  else none

/-- `Public.compareName`: compare a name against the computed name;
a name that cannot be computed compares unequal. -/
def Public.compareName (p : Public) (n : List Nat) : Bool :=
  match p.Name with
  | some c => c = n
  | none => false

/-- Modelled from the spec (§3): the name of an NV index
(`NVPublic.Name` in the library). -/
def NVPublic.Name (p : NVPublic) : Option (List Nat) :=
  if hashAlgSupported p.NameAlg then
    match MarshalToBytes [(nvPublicT, p.toValue)] with
    | .ok bs => some (encBE 2 p.NameAlg ++ digestOf p.NameAlg bs)
    | .error _ => none
  else none

def NVPublic.compareName (p : NVPublic) (n : List Nat) : Bool :=
  match p.Name with
  | some c => c = n
  | none => false

/-- The result of `handleContext.checkConsistency`: `ok` is a nil error,
`errRes` an error with the source's message, and `panicked` a Go runtime
panic (a nil-pointer dereference of `h.Data`, `scData.Symmetric` or
`Symmetric.Mode`). -/
inductive CheckResult where
  | ok
  | errRes (msg : String)
  | panicked
deriving DecidableEq, Repr

/-- `handleContext.checkConsistency` (src/resources.go:197-281). -/
def checkConsistency (h : handleContext) : CheckResult :=
  if h.Type' = handleContextTypePermanent then
    if ¬(handleType h.H = HandleTypePCR ∨ handleType h.H = HandleTypePermanent) then
      .errRes "inconsistent handle type for permanent context"
    else if ¬(nameIsHandle h.N ∧ nameHandle h.N = h.H) then
      .errRes "name inconsistent with handle for permanent context"
    else .ok
  else if h.Type' = handleContextTypeObject then
    if ¬(handleType h.H = HandleTypeTransient ∨ handleType h.H = HandleTypePersistent) then
      .errRes "inconsistent handle type for object context"
    else
      match h.Data with
      | none => .panicked
      | some d =>
        match (match d with | .object p => p | _ => none) with
        | none => .errRes "no public area for object context"
        | some pub =>
          if ¬pub.compareName h.N then
            .errRes "name inconsistent with public area for object context"
          else .ok
  else if h.Type' = handleContextTypeNvIndex then
    if handleType h.H ≠ HandleTypeNVIndex then
      .errRes "inconsistent handle type for NV context"
    else
      match h.Data with
      | none => .panicked
      | some d =>
        match (match d with | .nv p => p | _ => none) with
        | none => .errRes "no public area for NV context"
        | some pub =>
          if ¬pub.compareName h.N then
            .errRes "name inconsistent with public area for NV context"
          else .ok
  else if h.Type' = handleContextTypeSession then
    if ¬(handleType h.H = HandleTypeHMACSession ∨ handleType h.H = HandleTypePolicySession) then
      .errRes "inconsistent handle type for session context"
    else if ¬(nameIsHandle h.N ∧ nameHandle h.N = h.H) then
      .errRes "name inconsistent with handle for session context"
    else
      match h.Data with
      | none => .panicked
      | some d =>
        match (match d with | .session sd => sd | _ => none) with
        | none => .ok
        | some sc =>
          if ¬sc.IsAudit ∧ sc.IsExclusive then
            .errRes "inconsistent audit attributes for session context"
          else if ¬hashAlgSupported sc.HashAlg then
            .errRes "invalid digest algorithm for session context"
          else if ¬(sc.SessionType = SessionTypeHMAC ∨ sc.SessionType = SessionTypePolicy ∨
              sc.SessionType = SessionTypeTrial) then
            .errRes "invalid session type for session context"
          else if sc.PolicyHMACType > policyHMACTypeMax then
            .errRes "invalid policy session HMAC type for session context"
          else if (sc.IsBound ∧ sc.BoundEntity.length = 0) ∨
              (¬sc.IsBound ∧ sc.BoundEntity.length > 0) then
            .errRes "invalid bind properties for session context"
          else
            let digestSize := hashAlgSize sc.HashAlg
            if sc.SessionKey.length ≠ digestSize ∧ sc.SessionKey.length ≠ 0 then
              .errRes "unexpected session key size for session context"
            else if sc.NonceCaller.length ≠ digestSize ∨ sc.NonceTPM.length ≠ digestSize then
              .errRes "unexpected nonce size for session context"
            else
              match sc.Symmetric with
              | none => .panicked
              | some sym =>
                if ¬(sym.Algorithm = SymAlgorithmAES ∨ sym.Algorithm = SymAlgorithmXOR ∨
                    sym.Algorithm = SymAlgorithmNull ∨ sym.Algorithm = SymAlgorithmSM4 ∨
                    sym.Algorithm = SymAlgorithmCamellia) then
                  .errRes "invalid symmetric algorithm for session context"
                else if sym.Algorithm = SymAlgorithmAES ∨ sym.Algorithm = SymAlgorithmSM4 ∨
                    sym.Algorithm = SymAlgorithmCamellia then
                  match sym.Mode with
                  | none => .panicked
                  | some m =>
                    if m ≠ SymModeCFB then
                      .errRes "invalid symmetric mode for session context"
                    else .ok
                else .ok
  else .errRes "unrecognized context type"

/-- The session branch of `checkConsistency` with session data present,
restated as a standalone chain (definitionally equal to the branch; used
to reason about the check without unfolding the digest computations of
the object/NV branches). -/
def checkConsistencySessionChain (hh : Nat) (n : List Nat) (sc : sessionContextData) :
    CheckResult :=
  if ¬(handleType hh = HandleTypeHMACSession ∨ handleType hh = HandleTypePolicySession) then
    .errRes "inconsistent handle type for session context"
  else if ¬(nameIsHandle n ∧ nameHandle n = hh) then
    .errRes "name inconsistent with handle for session context"
  else if ¬sc.IsAudit ∧ sc.IsExclusive then
    .errRes "inconsistent audit attributes for session context"
  else if ¬hashAlgSupported sc.HashAlg then
    .errRes "invalid digest algorithm for session context"
  else if ¬(sc.SessionType = SessionTypeHMAC ∨ sc.SessionType = SessionTypePolicy ∨
      sc.SessionType = SessionTypeTrial) then
    .errRes "invalid session type for session context"
  else if sc.PolicyHMACType > policyHMACTypeMax then
    .errRes "invalid policy session HMAC type for session context"
  else if (sc.IsBound ∧ sc.BoundEntity.length = 0) ∨
      (¬sc.IsBound ∧ sc.BoundEntity.length > 0) then
    .errRes "invalid bind properties for session context"
  else if sc.SessionKey.length ≠ hashAlgSize sc.HashAlg ∧ sc.SessionKey.length ≠ 0 then
    .errRes "unexpected session key size for session context"
  else if sc.NonceCaller.length ≠ hashAlgSize sc.HashAlg ∨
      sc.NonceTPM.length ≠ hashAlgSize sc.HashAlg then
    .errRes "unexpected nonce size for session context"
  else
    match sc.Symmetric with
    | none => .panicked
    | some sym =>
      if ¬(sym.Algorithm = SymAlgorithmAES ∨ sym.Algorithm = SymAlgorithmXOR ∨
          sym.Algorithm = SymAlgorithmNull ∨ sym.Algorithm = SymAlgorithmSM4 ∨
          sym.Algorithm = SymAlgorithmCamellia) then
        .errRes "invalid symmetric algorithm for session context"
      else if sym.Algorithm = SymAlgorithmAES ∨ sym.Algorithm = SymAlgorithmSM4 ∨
          sym.Algorithm = SymAlgorithmCamellia then
        match sym.Mode with
        | none => .panicked
        | some m =>
          if m ≠ SymModeCFB then
            .errRes "invalid symmetric mode for session context"
          else .ok
      else .ok

/-! ### Context constructors (src/resources.go) -/

/-- `makeDummyContext` (src/resources.go:299-307). -/
def makeDummyContext (handle : Nat) : handleContext :=
  ⟨handleContextTypeDummy, handle, encBE 4 handle, none⟩

/-- `makePermanentContext` (src/resources.go:328-337). -/
def makePermanentContext (handle : Nat) : handleContext :=
  ⟨handleContextTypePermanent, handle, encBE 4 handle, none⟩

/-- `makeObjectContext` (src/resources.go:347-355). -/
def makeObjectContext (handle : Nat) (name : List Nat) (pub : Public) : handleContext :=
  ⟨handleContextTypeObject, handle, name, some (.object (some pub))⟩

/-- `makeNVIndexContext` (src/resources.go:394-402): the handle is taken
from the public area's `Index`. -/
def makeNVIndexContext (name : List Nat) (pub : NVPublic) : handleContext :=
  ⟨handleContextTypeNvIndex, pub.Index, name, some (.nv (some pub))⟩

/-- `makeSessionContext` (src/resources.go:492-501). -/
def makeSessionContext (handle : Nat) (d : Option sessionContextData) : handleContext :=
  ⟨handleContextTypeSession, handle, encBE 4 handle, some (.session d)⟩

/-! ### Serialization and restore -/

/-- `handleContext.SerializeToBytes` (src/resources.go:166-178): marshal
the context, digest the marshalled bytes with SHA-256, and pack
`algId || digest || body` (the digest and body are `u16`-prefixed sized
buffers).  The source panics if marshalling fails; the model propagates
the error.  The context's authorization value is not an input: it is kept
outside `handleContext` (in `resourceContext`) and never serialized. -/
def SerializeToBytes (h : handleContext) : Except MuErr (List Nat) := do
  let data ← MarshalToBytes [(handleContextT, h.toValue)]
  MarshalToBytes
    [(.prim 2, .num HashAlgorithmSHA256), (.buffer, .bytes (sha256 data)), (.buffer, .bytes data)]

inductive RestoreErr where
  | unpackFailed (e : MuErr)
  | invalidChecksumAlg
  | invalidChecksum
  | unmarshalFailed (e : MuErr)
  | trailingBytes
  | permanentContext
  | inconsistentContext (msg : String)
  | shapeError
deriving DecidableEq, Repr

/-- `CreateHandleContextFromReader` (src/resources.go:632-679) applied to
a byte slice, i.e. `CreateHandleContextFromBytes` (resources.go:688-695).
On success the restored context is returned together with its
authorization value, which the source always leaves empty.  `none` models
a Go runtime panic (a `checkConsistency` nil dereference); `shapeError` is
an artifact of the untyped value universe and is unreachable for values
the codec produces for this schema. -/
def CreateHandleContextFromBytes (b : List Nat) :
    Option (Except RestoreErr (handleContext × List Nat)) :=
  match UnmarshalFromReader [(.prim 2, .num 0), (.buffer, .bytes []), (.buffer, .bytes [])] b with
  | .error e => some (.error (.unpackFailed e))
  | .ok ([.num integrityAlg, .bytes integrity, .bytes body], _) =>
    if ¬hashAlgSupported integrityAlg then some (.error .invalidChecksumAlg)
    else if digestOf integrityAlg body ≠ integrity then some (.error .invalidChecksum)
    else
      match UnmarshalFromBytes [(.ptr handleContextT, .ptrN)] body with
      | .error e => some (.error (.unmarshalFailed e))
      | .ok (n, [v]) =>
        if n < body.length then some (.error .trailingBytes)
        else
          match v with
          | .ptrV sv =>
            match handleContext.ofValue sv with
            | none => some (.error .shapeError)
            | some hc =>
              if hc.Type' = handleContextTypePermanent then some (.error .permanentContext)
              else
                match checkConsistency hc with
                | .panicked => none
                | .errRes m => some (.error (.inconsistentContext m))
                | .ok =>
                  if hc.Type' = handleContextTypeObject ∨ hc.Type' = handleContextTypeNvIndex ∨
                      hc.Type' = handleContextTypeSession then
                    some (.ok (hc, []))
                  else none
          | _ => some (.error .shapeError)
      | .ok (_, _) => some (.error .shapeError)
  | .ok (_, _) => some (.error .shapeError)

/-! ## Registry mutation of `Clear` (src/cmds_hierarchy.go)

This part of the source is an earlier vintage of the library in which the
registry `t.resources` maps handles to `*objectContext`, `*nvIndexContext`
and `*sessionContext` values (and any other `ResourceContext`
implementation falls through every case of the type switch).  Only the
data the sweep inspects is modelled: the context kind, its current handle
and — for NV indices — the public area's attribute bits. -/

inductive RegEntry where
  | objectE (handle : Nat)
  | nvIndexE (handle : Nat) (attrs : Nat)
  | sessionE (handle : Nat)
  | otherE (handle : Nat)
deriving DecidableEq, Repr

/-- Modelled from the spec: the `platform-created` NV attribute bit
(TPMA_NV_PLATFORMCREATE, bit 30). -/
def AttrNVPlatformCreate : Nat := 1 <<< 30

/-- The registry sweep at the end of `TPMContext.Clear`
(src/cmds_hierarchy.go:146-161): every tracked context is evicted unless
it is an object whose handle is in the freshly queried handle set, an NV
index whose `platform-created` attribute is set, or a session. -/
def clearSweep (handles : List Nat) : List RegEntry → List RegEntry
  | [] => []
  | rc :: rest =>
    let evict : Bool := match rc with
      | .objectE h => !(handles.contains h)
      | .nvIndexE _ attrs => decide (¬(attrs &&& AttrNVPlatformCreate > 0))
      | .sessionE _ => false
      | .otherE _ => true
    if evict then clearSweep handles rest else rc :: clearSweep handles rest

/-- `TPMContext.Clear` (src/cmds_hierarchy.go:103-164) reduced to its
registry effect.  `cmdOk` stands for the command round-trip (including
response processing) succeeding; `capTransient` and `capPersistent` are
the results of the two `GetCapabilityHandles` queries issued after the
command (`none` = query failed).  On any failure the function returns
before the sweep and the registry is unchanged; `none` models that error
return. -/
def ClearM (cmdOk : Bool) (capTransient capPersistent : Option (List Nat))
    (resources : List RegEntry) : Option (List RegEntry) :=
  if ¬cmdOk then none
  else
    match capTransient with
    | none => none
    | some ht =>
      match capPersistent with
      | none => none
      | some hp => some (clearSweep (ht ++ hp) resources)

/-- The survivors of `Clear` as the claim words them: exactly the session
contexts, the NV index contexts whose platform-created bit is set, and the
object contexts whose handle appears in the capability query results. -/
def clearKeepSpec (handles : List Nat) (rc : RegEntry) : Bool :=
  match rc with
  | .sessionE _ => true
  | .nvIndexE _ attrs => attrs &&& AttrNVPlatformCreate ≠ 0
  | .objectE h => handles.contains h
  | .otherE _ => false

/-! ## `CreateResourceContextFromTPM` (src/resources.go) -/

/-- Modelled from the spec: the TCG command code of `TPM2_ReadPublic`. -/
def CommandReadPublic : Nat := 0x173

/-- Modelled from the spec: the TCG command code of `TPM2_NV_ReadPublic`. -/
def CommandNVReadPublic : Nat := 0x169

/-- `TPMContext.makeObjectContextFromTPM` (src/resources.go:357-368) with
the TPM's `ReadPublic` response supplied as an oracle: either an error or
the returned public area and name.  The name computed from the returned
public area must equal the returned name. -/
def makeObjectContextFromTPM (readResult : Except LibError (Public × List Nat))
    (ctxHandle : Nat) : Except LibError handleContext :=
  match readResult with
  | .error e => .error e
  | .ok (pub, name) =>
    match pub.Name with
    | none => .error (.invalidResponse CommandReadPublic "cannot compute name of returned public area")
    | some n =>
      if n ≠ name then .error (.invalidResponse CommandReadPublic "name and public area don't match")
      else .ok (makeObjectContext ctxHandle name pub)

/-- `TPMContext.makeNVIndexContextFromTPM` (src/resources.go:404-418):
additionally the `Index` of the returned public area must equal the
queried handle. -/
def makeNVIndexContextFromTPM (readResult : Except LibError (NVPublic × List Nat))
    (ctxHandle : Nat) : Except LibError handleContext :=
  match readResult with
  | .error e => .error e
  | .ok (pub, name) =>
    match pub.Name with
    | none => .error (.invalidResponse CommandNVReadPublic "cannot compute name of returned public area")
    | some n =>
      if n ≠ name then .error (.invalidResponse CommandNVReadPublic "name and public area don't match")
      else if pub.Index ≠ ctxHandle then
        .error (.invalidResponse CommandNVReadPublic "unexpected index in public area")
      else .ok (makeNVIndexContext name pub)

/-- `TPMContext.CreateResourceContextFromTPM` (src/resources.go:516-549)
with the TPM responses supplied by per-attempt oracles (`objReads i` /
`nvReads i` is the response to the public-area read of iteration `i`).
The two-iteration loop is unrolled: without sessions it breaks after the
first read; with sessions the second read repeats with the sessions
attached.  A read error matching the `reference-h0` warning or a `handle`
error (any command code, any handle index) maps to
`ResourceUnavailableError` carrying the handle; other errors are returned
unchanged.  `none` models the panic on an invalid handle type. -/
def CreateResourceContextFromTPM (handle : Nat)
    (objReads : Nat → Except LibError (Public × List Nat))
    (nvReads : Nat → Except LibError (NVPublic × List Nat))
    (haveSessions : Bool) : Option (Except LibError handleContext) :=
  if ¬(handleType handle = HandleTypeNVIndex ∨ handleType handle = HandleTypeTransient ∨
      handleType handle = HandleTypePersistent) then none
  else
    let step := fun (i : Nat) (rcHandle : Nat) =>
      if handleType handle = HandleTypeNVIndex then makeNVIndexContextFromTPM (nvReads i) rcHandle
      else makeObjectContextFromTPM (objReads i) rcHandle
    let mapErr := fun (e : LibError) =>
      if IsTPMWarning e WarningReferenceH0 AnyCommandCode then
        (Except.error (.resourceUnavailable handle) : Except LibError handleContext)
      else if IsTPMHandleError e ErrorHandle AnyCommandCode AnyHandleIndex then
        .error (.resourceUnavailable handle)
      else .error e
    match step 0 (makeDummyContext handle).H with
    | .error e => some (mapErr e)
    | .ok rc0 =>
      if haveSessions = false then some (.ok rc0)
      else
        match step 1 rc0.H with
        | .error e => some (mapErr e)
        | .ok rc1 => some (.ok rc1)

/-- The claim's wording of the errors `CreateResourceContextFromTPM` maps
to `ResourceUnavailableError`: a `reference-h0` warning (for any command
code) or a `handle` error (for any command code and any handle index). -/
def specResourceUnavailableCond : LibError → Bool
  | .tpm (.warning _ k) => k = WarningReferenceH0
  | .tpm (.handleError _ _ k) => k = ErrorHandle
  | _ => false

/-! ## Resource contexts and canonical shapes -/

/-- `resourceContext` (src/resources.go:309-320): a handle context plus
the host-side authorization value.  The authorization value lives outside
`handleContext` and is therefore not an input of `SerializeToBytes`. -/
structure resourceContext where
  hc : handleContext
  authValue : List Nat
deriving DecidableEq, Repr

/-- `HandleContext.SerializeToBytes` on a resource context serializes only
the embedded `handleContext`; the authorization value is not an input. -/
def resourceContext.serialize (rc : resourceContext) : Except MuErr (List Nat) :=
  SerializeToBytes rc.hc

/-! Canonical shapes.  Unmarshalling allocates every pointer it reaches
and leaves a union's payload field at the field's zero value when the
selector has no body, so restore can only reproduce contexts in this
allocated form; the canonical predicates also record that every
machine-word field fits its wire width and every byte field is shorter
than a `u16` length prefix can express. -/

def SymDef.canonical (s : SymDef) : Bool :=
  if s.Algorithm = SymAlgorithmNull then s.KeyBits == some 0 && s.Mode == some 0
  else if s.Algorithm = SymAlgorithmXOR then
    (match s.KeyBits with | some k => decide (k < 65536) | none => false) && s.Mode == some 0
  else
    (match s.KeyBits with | some k => decide (k < 65536) | none => false) &&
      (match s.Mode with | some m => decide (m < 65536) | none => false)

def sessionContextData.canonical (d : sessionContextData) : Bool :=
  decide (d.HashAlg < 65536) && decide (d.SessionType < 256) &&
    decide (d.PolicyHMACType < 256) &&
    decide (d.BoundEntity.length < 65536) && decide (d.SessionKey.length < 65536) &&
    decide (d.NonceCaller.length < 65536) && decide (d.NonceTPM.length < 65536) &&
    (match d.Symmetric with | some s => s.canonical | none => false)

def Public.canonical (p : Public) : Bool :=
  decide (p.Type' < 65536) && decide (p.NameAlg < 65536) && decide (p.Attrs < 4294967296) &&
    decide (p.AuthPolicy.length < 65536) && decide (p.Params.length < 65536) &&
    decide (p.Unique.length < 65536)

def NVPublic.canonical (p : NVPublic) : Bool :=
  decide (p.Index < 4294967296) && decide (p.NameAlg < 65536) &&
    decide (p.Attrs < 4294967296) && decide (p.AuthPolicy.length < 65536) &&
    decide (p.Size < 65536)

/-- A handle context in the allocated form restore produces: the variant
payload is present, the fields fit their wire widths, and — for sessions —
the symmetric definition is present with its union pointers allocated. -/
def handleContext.canonical (h : handleContext) : Bool :=
  decide (h.Type' < 256) && decide (h.H < 4294967296) && decide (h.N.length < 65536) &&
    (match h.Data with
     | some (.object (some p)) => p.canonical
     | some (.nv (some p)) => p.canonical
     | some (.session (some d)) => d.canonical
     | _ => false)

/-! ## Concrete fixtures for witnesses and counterexamples -/

/-- A consistent, canonical HMAC session context. -/
def wSessionData : sessionContextData :=
  ⟨false, false, HashAlgorithmSHA256, SessionTypeHMAC, 0, false, [],
   List.replicate 32 1, List.replicate 32 2, List.replicate 32 3,
   some ⟨SymAlgorithmNull, some 0, some 0⟩⟩

def wSessionCtx : handleContext := makeSessionContext 0x02000000 (some wSessionData)

/-- A consistent session context whose symmetric key-bits union carries a
nonzero payload under the null algorithm: the payload is not marshalled,
so restoring the serialized context yields `KeyBits = some 0` instead. -/
def kbSessionData : sessionContextData :=
  ⟨false, false, HashAlgorithmSHA256, SessionTypeHMAC, 0, false, [],
   List.replicate 32 1, List.replicate 32 2, List.replicate 32 3,
   some ⟨SymAlgorithmNull, some 5, some 0⟩⟩

def kbCtx : handleContext := makeSessionContext 0x02000000 (some kbSessionData)

/-- What restoring `kbCtx` actually yields. -/
def kbRestoredCtx : handleContext := makeSessionContext 0x02000000 (some wSessionData)

/-- A consistent object context for the C3 fixtures. -/
def wPub : Public := ⟨1, HashAlgorithmSHA256, 0x32, [], [0, 1, 2], [9, 9]⟩

def wObjCtx : handleContext := makeObjectContext 0x80000001 ((Public.Name wPub).getD []) wPub

/-- A consistent permanent context (serializable, but restore must reject
it). -/
def wPermCtx : handleContext := makePermanentContext 0x40000001

/-- The serialized blob of `kbCtx` (evaluated; `SerializeToBytes` succeeds
on it, as the counterexample theorem checks). -/
def kbBlob : List Nat := (SerializeToBytes kbCtx).toOption.getD []

/-- The serialized blob of `wObjCtx`. -/
def wObjBlob : List Nat := (SerializeToBytes wObjCtx).toOption.getD []

/-- Flip the lowest bit of the byte at position `i`. -/
def flipByteAt (i : Nat) (bs : List Nat) : List Nat :=
  bs.take i ++ [(bs.getD i 0) ^^^ 1] ++ bs.drop (i + 1)

/-! # Theorems -/

/-! ## Bit-arithmetic helpers -/

theorem and_two_pow_eq_zero_iff (x k : Nat) : (x &&& 2 ^ k = 0) ↔ (x.testBit k = false) := by
  rw [Nat.and_two_pow]
  cases h : x.testBit k <;> simp [h]

theorem and_two_pow_pos_iff (x k : Nat) : (x &&& 2 ^ k > 0) ↔ (x.testBit k = true) := by
  rw [Nat.and_two_pow]
  cases h : x.testBit k <;> simp [h]

theorem and_shiftLeft_shiftRight (x m k : Nat) :
    (x &&& (m <<< k)) >>> k = (x >>> k) &&& m := by
  apply Nat.eq_of_testBit_eq
  intro i
  simp only [Nat.testBit_shiftRight, Nat.testBit_and, Nat.testBit_shiftLeft]
  have : k ≤ k + i := Nat.le_add_right k i
  simp [this, Nat.add_sub_cancel_left]

theorem and_shiftLeft_eq_shiftLeft (x m k : Nat) :
    x &&& (m <<< k) = ((x >>> k) &&& m) <<< k := by
  apply Nat.eq_of_testBit_eq
  intro i
  simp only [Nat.testBit_and, Nat.testBit_shiftLeft, Nat.testBit_shiftRight]
  rcases Nat.lt_or_ge i k with h | h
  · have h1 : ¬(k ≤ i) := by omega
    simp [h1]
  · have h1 : k ≤ i := h
    have h2 : k + (i - k) = i := by omega
    simp [h1, h2, Bool.and_comm, Bool.and_left_comm]

theorem idx_mask_eq (r m k : Nat) :
    (r &&& (m <<< k)) >>> k = r / 2 ^ k &&& m := by
  rw [and_shiftLeft_shiftRight, Nat.shiftRight_eq_div_pow]

/-! ## C1: the response-code decoder implements the spec's taxonomy -/

theorem decode_response_code_eq_spec (command resp : Nat) :
    DecodeResponseCode command resp = specDecodeResponseCode command resp := by
  unfold DecodeResponseCode specDecodeResponseCode
  have e7 : (resp &&& formatMask = 0) ↔ (resp.testBit 7 = false) := by
    rw [show formatMask = 2 ^ 7 by decide]
    exact and_two_pow_eq_zero_iff resp 7
  have e8 : (resp &&& fmt0VersionMask = 0) ↔ (resp.testBit 8 = false) := by
    rw [show fmt0VersionMask = 2 ^ 8 by decide]
    exact and_two_pow_eq_zero_iff resp 8
  have e10 : (resp &&& fmt0VendorMask > 0) ↔ (resp.testBit 10 = true) := by
    rw [show fmt0VendorMask = 2 ^ 10 by decide]
    exact and_two_pow_pos_iff resp 10
  have e11 : (resp &&& fmt0SeverityMask > 0) ↔ (resp.testBit 11 = true) := by
    rw [show fmt0SeverityMask = 2 ^ 11 by decide]
    exact and_two_pow_pos_iff resp 11
  have e6 : (resp &&& fmt1ParameterMask > 0) ↔ (resp.testBit 6 = true) := by
    rw [show fmt1ParameterMask = 2 ^ 6 by decide]
    exact and_two_pow_pos_iff resp 6
  have e11b : (resp &&& fmt1SessionMask > 0) ↔ (resp.testBit 11 = true) := by
    rw [show fmt1SessionMask = 2 ^ 11 by decide]
    exact and_two_pow_pos_iff resp 11
  have elow7 : resp &&& fmt0ErrorCodeMask = resp % 128 := by
    rw [show fmt0ErrorCodeMask = 2 ^ 7 - 1 by decide, Nat.and_pow_two_sub_one_eq_mod]
  have elow6 : resp &&& fmt1ErrorCodeMask = resp % 64 := by
    rw [show fmt1ErrorCodeMask = 2 ^ 6 - 1 by decide, Nat.and_pow_two_sub_one_eq_mod]
  have epidx : (resp &&& fmt1ParameterIndexMask) >>> fmt1IndexShift = resp / 256 % 16 := by
    rw [show fmt1ParameterIndexMask = (2 ^ 4 - 1) <<< 8 by decide,
      show fmt1IndexShift = 8 by rfl, idx_mask_eq, Nat.and_pow_two_sub_one_eq_mod]
    norm_num
  have ehidx : (resp &&& fmt1HandleOrSessionIndexMask) >>> fmt1IndexShift = resp / 256 % 8 := by
    rw [show fmt1HandleOrSessionIndexMask = (2 ^ 3 - 1) <<< 8 by decide,
      show fmt1IndexShift = 8 by rfl, idx_mask_eq, Nat.and_pow_two_sub_one_eq_mod]
    norm_num
  have ehpos : (resp &&& fmt1HandleOrSessionIndexMask > 0) ↔ (resp / 256 % 8 ≠ 0) := by
    rw [show fmt1HandleOrSessionIndexMask = (2 ^ 3 - 1) <<< 8 by decide,
      and_shiftLeft_eq_shiftLeft, Nat.shiftLeft_eq, Nat.shiftRight_eq_div_pow,
      Nat.and_pow_two_sub_one_eq_mod]
    constructor
    · intro h
      intro hz
      rw [show (2:Nat) ^ 8 = 256 by norm_num] at h
      rw [hz] at h
      simp at h
    · intro h
      have : resp / 2 ^ 8 % 2 ^ 3 ≠ 0 := by
        rw [show (2:Nat) ^ 8 = 256 by norm_num, show (2:Nat) ^ 3 = 8 by norm_num]
        exact h
      positivity
  rw [show Success = 0 from rfl]
  by_cases hz : resp = 0
  · simp [hz]
  · simp only [hz, if_false]
    by_cases h7 : resp.testBit 7 = false
    · have h7' : resp &&& formatMask = 0 := e7.mpr h7
      simp only [h7, h7', if_true, if_false, eq_self_iff_true]
      by_cases h8 : resp.testBit 8 = false
      · simp [e8.mpr h8, h8]
      · have h8' : ¬(resp &&& fmt0VersionMask = 0) := fun hc => h8 (e8.mp hc)
        simp only [h8, h8', if_false]
        by_cases h10 : resp.testBit 10 = true
        · simp [e10.mpr h10, h10]
        · have h10' : ¬(resp &&& fmt0VendorMask > 0) := fun hc => h10 (e10.mp hc)
          simp only [h10, h10', if_false]
          by_cases h11 : resp.testBit 11 = true
          · simp [e11.mpr h11, h11, elow7]
          · have h11' : ¬(resp &&& fmt0SeverityMask > 0) := fun hc => h11 (e11.mp hc)
            simp [h11, h11', elow7]
    · have h7' : ¬(resp &&& formatMask = 0) := fun hc => h7 (e7.mp hc)
      simp only [h7, h7', if_false]
      by_cases h6 : resp.testBit 6 = true
      · simp [e6.mpr h6, h6, elow6, epidx]
      · have h6' : ¬(resp &&& fmt1ParameterMask > 0) := fun hc => h6 (e6.mp hc)
        simp only [h6, h6', if_false]
        by_cases h11 : resp.testBit 11 = true
        · simp [e11b.mpr h11, h11, elow6, ehidx]
        · have h11' : ¬(resp &&& fmt1SessionMask > 0) := fun hc => h11 (e11b.mp hc)
          simp only [h11, h11', if_false]
          by_cases hh : resp / 256 % 8 ≠ 0
          · simp [ehpos.mpr hh, hh, elow6, ehidx]
          · have hh' : ¬(resp &&& fmt1HandleOrSessionIndexMask > 0) := fun hc => hh (ehpos.mp hc)
            simp [hh, hh', elow6]

/-- C1: For every command code and every response code,
`DecodeResponseCode` returns exactly the structured result of the spec's
taxonomy (`specDecodeResponseCode`, written from the claim's words: bit 7
selects the format; in format 0 a clear bit 8 gives a TPM-1.2 error, then
vendor bit 10, then severity bit 11 with the code in the low 7 bits; in
format 1 the code is the low 6 bits plus the bias, with a parameter flag
at bit 6 and index in bits 8-11, a session flag at bit 11 and index in
bits 8-10, then a nonzero handle index in bits 8-10); in particular
`0x000005E7` decodes to a parameter error with index 5 and code
`ECCPoint`. -/
theorem claim_C1_response_code_taxonomy :
    (∀ command resp, DecodeResponseCode command resp = specDecodeResponseCode command resp) ∧
    (∀ command, DecodeResponseCode command 0x000005E7 =
      some (.parameterError 5 command ErrorECCPoint)) :=
  ⟨decode_response_code_eq_spec, fun _ => rfl⟩

/-! ## C4: `UnmarshalFromBytes` and trailing bytes -/

/-- C4 counterexample: unmarshalling a `u16` out of a three-byte input
leaves one trailing byte, yet `UnmarshalFromBytes` succeeds, returning the
consumed count 2 — it does not fail with a trailing-bytes error. -/
theorem claim_C4_counterexample :
    UnmarshalFromBytes [(.prim 2, .num 0)] [0, 1, 2] = .ok (2, [.num 1]) ∧
      (2 : Nat) < [0, 1, 2].length := by
  refine ⟨by decide, by decide⟩

/-- C4 (amended): a top-level `UnmarshalFromBytes` whose destinations
decode successfully returns the number of bytes consumed and no error,
even when input bytes remain; trailing input is visible to callers only
through the returned count being smaller than the input length. -/
theorem claim_C4_amended (dests : List (TpmType × Value)) (b : List Nat)
    (vs : List Value) (rest : List Nat)
    (h : UnmarshalFromReader dests b = .ok (vs, rest)) :
    UnmarshalFromBytes dests b = .ok (b.length - rest.length, vs) := by
  simp [UnmarshalFromBytes, h]

theorem claim_C4_amended_witness :
    UnmarshalFromBytes [(.prim 2, .num 0)] [0, 1, 2] = .ok ([0, 1, 2].length - [2].length, [.num 1]) :=
  claim_C4_amended [(.prim 2, .num 0)] [0, 1, 2] [.num 1] [2] (by decide)

/-! ## Unfolding equations for the codec

The mutual structural recursions do not yield equation lemmas usable by
`simp`; these restate the defining equations (conditionally on the
sub-results where the definition binds them), each proved by `rfl` or by
rewriting with the hypotheses. -/

theorem marshalValue_prim (w n : Nat) (c : Option Values) (s : Option Nat) (r : Bool) :
    marshalValue (.prim w) (.num n) c ⟨s, false, r⟩ = .ok (encBE w n) := rfl

theorem marshalValue_buffer (bs : List Nat) (c : Option Values) (s : Option Nat) :
    marshalValue .buffer (.bytes bs) c ⟨s, false, false⟩ = .ok (encBE 2 bs.length ++ bs) := rfl

theorem marshalValue_ptrN (e : TpmType) (c : Option Values) (s : Option Nat) (r : Bool) :
    marshalValue (.ptr e) .ptrN c ⟨s, false, r⟩ =
      marshalValue e (zeroValue e) c ⟨s, false, r⟩ := rfl

theorem marshalValue_ptrV (e : TpmType) (x : Value) (c : Option Values) (s : Option Nat)
    (r : Bool) :
    marshalValue (.ptr e) (.ptrV x) c ⟨s, false, r⟩ = marshalValue e x c ⟨s, false, r⟩ := rfl

theorem marshalValue_struct (fs : Fields) (vs : Values) (c : Option Values) (s : Option Nat)
    (r : Bool) :
    marshalValue (.struct fs) (.structV vs) c ⟨s, false, r⟩ = marshalFields fs vs vs := rfl

theorem marshalValue_union (vars : Variants) (v : Value) (c : Option Values) (s : Option Nat)
    (r : Bool) (sel : Nat) (hsel : getSelector c ⟨s, false, r⟩ = .ok sel) :
    marshalValue (.union vars) v c ⟨s, false, r⟩ = marshalUnion vars sel v := by
  have e : marshalValue (.union vars) v c ⟨s, false, r⟩ =
      (getSelector c ⟨s, false, r⟩ >>= fun sel => marshalUnion vars sel v) := rfl
  rw [e, hsel]
  rfl

theorem marshalValue_sized_nil (fs : Fields) (c : Option Values) (s : Option Nat) (r : Bool) :
    marshalValue (.ptr (.struct fs)) .ptrN c ⟨s, true, r⟩ = .ok (encBE 2 0) := rfl

theorem marshalValue_sized_some (fs : Fields) (x : Value) (c : Option Values) (s : Option Nat)
    (r : Bool) (body : List Nat)
    (h : marshalValue (.struct fs) x c ⟨s, false, r⟩ = .ok body) :
    marshalValue (.ptr (.struct fs)) (.ptrV x) c ⟨s, true, r⟩ =
      .ok (encBE 2 body.length ++ body) := by
  have e : marshalValue (.ptr (.struct fs)) (.ptrV x) c ⟨s, true, r⟩ =
      (marshalValue (.struct fs) x c ⟨s, false, r⟩ >>= fun body =>
        pure (encBE 2 body.length ++ body)) := rfl
  rw [e, h]
  rfl

theorem marshalFields_fnil (vs all : Values) : marshalFields .fnil vs all = .ok [] := by
  cases vs <;> rfl

theorem marshalFields_fcons (o : FieldOpts) (t : TpmType) (rest : Fields) (v : Value)
    (vr all : Values) (out outs : List Nat)
    (h1 : marshalValue t v (some all) o = .ok out)
    (h2 : marshalFields rest vr all = .ok outs) :
    marshalFields (.fcons o t rest) (.cons v vr) all = .ok (out ++ outs) := by
  have e : marshalFields (.fcons o t rest) (.cons v vr) all =
      (marshalValue t v (some all) o >>= fun out =>
        marshalFields rest vr all >>= fun outs => pure (out ++ outs)) := rfl
  rw [e, h1]
  show (marshalFields rest vr all >>= fun outs => pure (out ++ outs)) = _
  rw [h2]
  rfl

theorem marshalUnion_vnil (sel : Nat) (v : Value) :
    marshalUnion .vnil sel v = .error .invalidSelector := rfl

theorem marshalUnion_vnone (s : Nat) (rest : Variants) (sel : Nat) (v : Value) :
    marshalUnion (.vnone s rest) sel v =
      if sel = s then .ok [] else marshalUnion rest sel v := rfl

theorem marshalUnion_vcons (s : Nat) (bt : TpmType) (rest : Variants) (sel : Nat) (v : Value) :
    marshalUnion (.vcons s bt rest) sel v =
      if sel = s then
        marshalValue bt (match v with | .unionV x => x | _ => zeroValue bt) none optsNone
      else marshalUnion rest sel v := by
  cases v <;> rfl

theorem unmarshalValue_prim (w : Nat) (d : Value) (c : Option Values) (s : Option Nat)
    (r : Bool) (inp : List Nat) :
    unmarshalValue (.prim w) d c ⟨s, false, r⟩ inp =
      match decBE w inp with
      | none => .error .shortRead
      | some (n, rest) => .ok (.num n, rest) := rfl

theorem unmarshalValue_buffer (ds : List Nat) (c : Option Values) (s : Option Nat)
    (inp : List Nat) :
    unmarshalValue .buffer (.bytes ds) c ⟨s, false, false⟩ inp =
      match decBE 2 inp with
      | none => .error .shortRead
      | some (l, rest) =>
        match readBytes l rest with
        | none => .error .shortRead
        | some (bs, rest') => .ok (.bytes bs, rest') := rfl

theorem unmarshalValue_ptrN (e : TpmType) (c : Option Values) (s : Option Nat) (r : Bool)
    (inp : List Nat) (v : Value) (rest : List Nat)
    (h : unmarshalValue e (zeroValue e) c ⟨s, false, r⟩ inp = .ok (v, rest)) :
    unmarshalValue (.ptr e) .ptrN c ⟨s, false, r⟩ inp = .ok (.ptrV v, rest) := by
  have e3 : unmarshalValue (.ptr e) .ptrN c ⟨s, false, r⟩ inp =
      (unmarshalValue e (zeroValue e) c ⟨s, false, r⟩ inp >>= fun p =>
        match p with | (v, rest) => pure (.ptrV v, rest)) := rfl
  rw [e3, h]
  rfl

theorem unmarshalValue_ptrN_err (e : TpmType) (c : Option Values) (s : Option Nat) (r : Bool)
    (inp : List Nat) (err : MuErr)
    (h : unmarshalValue e (zeroValue e) c ⟨s, false, r⟩ inp = .error err) :
    unmarshalValue (.ptr e) .ptrN c ⟨s, false, r⟩ inp = .error err := by
  have e3 : unmarshalValue (.ptr e) .ptrN c ⟨s, false, r⟩ inp =
      (unmarshalValue e (zeroValue e) c ⟨s, false, r⟩ inp >>= fun p =>
        match p with | (v, rest) => pure (.ptrV v, rest)) := rfl
  rw [e3, h]
  rfl

theorem unmarshalValue_struct (fs : Fields) (dvs : Values) (c : Option Values) (s : Option Nat)
    (r : Bool) (inp : List Nat) (vs : Values) (rest : List Nat)
    (h : unmarshalFields fs dvs .nil inp = .ok (vs, rest)) :
    unmarshalValue (.struct fs) (.structV dvs) c ⟨s, false, r⟩ inp = .ok (.structV vs, rest) := by
  have e3 : unmarshalValue (.struct fs) (.structV dvs) c ⟨s, false, r⟩ inp =
      (unmarshalFields fs dvs .nil inp >>= fun p =>
        match p with | (vs, rest) => pure (.structV vs, rest)) := rfl
  rw [e3, h]
  rfl

theorem unmarshalValue_union (vars : Variants) (d : Value) (c : Option Values) (s : Option Nat)
    (r : Bool) (inp : List Nat) (sel : Nat)
    (hsel : getSelector c ⟨s, false, r⟩ = .ok sel) :
    unmarshalValue (.union vars) d c ⟨s, false, r⟩ inp = unmarshalUnion vars sel d inp := by
  have e3 : unmarshalValue (.union vars) d c ⟨s, false, r⟩ inp =
      (getSelector c ⟨s, false, r⟩ >>= fun sel => unmarshalUnion vars sel d inp) := rfl
  rw [e3, hsel]
  rfl

theorem unmarshalValue_sized_zero (fs : Fields) (c : Option Values) (s : Option Nat)
    (r : Bool) (rest : List Nat) :
    unmarshalValue (.ptr (.struct fs)) .ptrN c ⟨s, true, r⟩ (0 :: 0 :: rest) =
      .ok (.ptrN, rest) := rfl

theorem unmarshalValue_sized_some (fs : Fields) (c : Option Values) (s : Option Nat)
    (r : Bool) (inp : List Nat) (size : Nat) (rest : List Nat) (v : Value)
    (leftover : List Nat)
    (hdec : decBE 2 inp = some (size, rest)) (hnz : size ≠ 0)
    (h : unmarshalValue (.struct fs) (zeroValue (.struct fs)) c ⟨s, false, r⟩ (rest.take size) =
      .ok (v, leftover)) :
    unmarshalValue (.ptr (.struct fs)) .ptrN c ⟨s, true, r⟩ inp =
      .ok (.ptrV v, rest.drop (size - leftover.length)) := by
  have e3 : unmarshalValue (.ptr (.struct fs)) .ptrN c ⟨s, true, r⟩ inp =
      (match decBE 2 inp with
       | none => .error .shortRead
       | some (size, rest) =>
         if size = 0 then .ok (.ptrN, rest)
         else
           (unmarshalValue (.struct fs) (zeroValue (.struct fs)) c ⟨s, false, r⟩ (rest.take size)
             >>= fun p =>
               match p with
               | (v, leftover) => pure (.ptrV v, rest.drop (size - leftover.length)))) := rfl
  rw [e3, hdec]
  simp only [hnz, if_false, h]
  rfl

theorem unmarshalFields_fnil (dvs acc : Values) (inp : List Nat) :
    unmarshalFields .fnil dvs acc inp = .ok (.nil, inp) := by
  cases dvs <;> rfl

theorem unmarshalFields_fcons (o : FieldOpts) (t : TpmType) (rest : Fields) (d : Value)
    (dr acc : Values) (inp : List Nat) (v : Value) (rest' : List Nat) (vs : Values)
    (rest'' : List Nat)
    (h1 : unmarshalValue t d (some (acc.append (.cons d dr))) o inp = .ok (v, rest'))
    (h2 : unmarshalFields rest dr (acc.append (.cons v .nil)) rest' = .ok (vs, rest'')) :
    unmarshalFields (.fcons o t rest) (.cons d dr) acc inp = .ok (.cons v vs, rest'') := by
  have e3 : unmarshalFields (.fcons o t rest) (.cons d dr) acc inp =
      (unmarshalValue t d (some (acc.append (.cons d dr))) o inp >>= fun p =>
        match p with
        | (v, rest') =>
          (unmarshalFields rest dr (acc.append (.cons v .nil)) rest' >>= fun q =>
            match q with
            | (vs, rest'') => pure (.cons v vs, rest''))) := rfl
  rw [e3, h1]
  show (unmarshalFields rest dr (acc.append (.cons v .nil)) rest' >>= fun q =>
    match q with
    | (vs, rest'') => pure (Values.cons v vs, rest'')) = _
  rw [h2]
  rfl

theorem unmarshalUnion_vnone (s : Nat) (rest : Variants) (sel : Nat) (d : Value)
    (inp : List Nat) :
    unmarshalUnion (.vnone s rest) sel d inp =
      if sel = s then .ok (d, inp) else unmarshalUnion rest sel d inp := rfl

theorem unmarshalUnion_vcons_hit_zero (s : Nat) (bt : TpmType) (rest : Variants)
    (inp : List Nat) (v : Value) (rest' : List Nat)
    (h : unmarshalValue bt (zeroValue bt) none optsNone inp = .ok (v, rest')) :
    unmarshalUnion (.vcons s bt rest) s .unionN inp = .ok (.unionV v, rest') := by
  have e3 : unmarshalUnion (.vcons s bt rest) s .unionN inp =
      (if s = s then
        (unmarshalValue bt (zeroValue bt) none optsNone inp
          >>= fun p => match p with | (v, rest') => pure (.unionV v, rest'))
      else unmarshalUnion rest s .unionN inp) := rfl
  rw [e3, if_pos rfl, h]
  rfl

theorem unmarshalUnion_vcons_miss (s : Nat) (bt : TpmType) (rest : Variants) (sel : Nat)
    (d : Value) (inp : List Nat) (hne : sel ≠ s) :
    unmarshalUnion (.vcons s bt rest) sel d inp = unmarshalUnion rest sel d inp := by
  have e3 : unmarshalUnion (.vcons s bt rest) sel d inp =
      (if sel = s then
        (unmarshalValue bt (match d with | .unionV x => x | _ => zeroValue bt) none optsNone inp
          >>= fun p => match p with | (v, rest') => pure (.unionV v, rest'))
      else unmarshalUnion rest sel d inp) := by
    cases d <;> rfl
  rw [e3, if_neg hne]

theorem unmarshalUnion_vnone_hit (s : Nat) (rest : Variants) (d : Value) (inp : List Nat) :
    unmarshalUnion (.vnone s rest) s d inp = .ok (d, inp) := by
  rw [unmarshalUnion_vnone, if_pos rfl]

/-! ## C5: sized fields -/

/-- C5: for a field marked `sized` (a pointer to a struct): marshalling a
nil pointer emits exactly the two bytes `0x00 0x00`; marshalling a non-nil
pointer emits the `u16` byte length of the encoded body followed by the
body; and unmarshalling a zero `u16` length prefix into a nil destination
consumes exactly the two prefix bytes and leaves the destination absent. -/
theorem claim_C5_sized_fields :
    (∀ fs container opts, opts.sized = true →
      marshalValue (.ptr (.struct fs)) .ptrN container opts = .ok [0, 0]) ∧
    (∀ fs x container opts body, opts.sized = true →
      marshalValue (.struct fs) x container ⟨opts.selector, false, opts.raw⟩ = .ok body →
      marshalValue (.ptr (.struct fs)) (.ptrV x) container opts =
        .ok (encBE 2 body.length ++ body)) ∧
    (∀ fs container opts rest, opts.sized = true →
      unmarshalValue (.ptr (.struct fs)) .ptrN container opts (0 :: 0 :: rest) =
        .ok (.ptrN, rest)) := by
  refine ⟨?_, ?_, ?_⟩
  · rintro fs container ⟨s, sz, r⟩ h
    cases h
    exact marshalValue_sized_nil fs container s r
  · rintro fs x container ⟨s, sz, r⟩ body h hbody
    cases h
    exact marshalValue_sized_some fs x container s r body hbody
  · rintro fs container ⟨s, sz, r⟩ rest h
    cases h
    exact unmarshalValue_sized_zero fs container s r rest

theorem claim_C5_sized_fields_witness :
    marshalValue (.ptr (.struct .fnil)) .ptrN none ⟨none, true, false⟩ = .ok [0, 0] ∧
    marshalValue (.ptr (.struct (.fcons optsNone (.prim 1) .fnil)))
      (.ptrV (.structV (.cons (.num 7) .nil))) none ⟨none, true, false⟩ = .ok [0, 1, 7] ∧
    unmarshalValue (.ptr (.struct .fnil)) .ptrN none ⟨none, true, false⟩ [0, 0, 9] =
      .ok (.ptrN, [9]) := by
  refine ⟨claim_C5_sized_fields.1 .fnil none ⟨none, true, false⟩ rfl, ?_, ?_⟩
  · have h := claim_C5_sized_fields.2.1 (.fcons optsNone (.prim 1) .fnil)
      (.structV (.cons (.num 7) .nil)) none ⟨none, true, false⟩ [7] rfl (by decide)
    simpa using h
  · exact claim_C5_sized_fields.2.2 .fnil none ⟨none, true, false⟩ [9] rfl

/-! ## C10: nil non-sized pointers marshal as the zero value -/

/-- C10: for every pointer field that is not marked `sized`, marshalling a
nil pointer produces exactly the bytes of marshalling a freshly allocated
zero value of the pointed-to type, so the two are indistinguishable on the
wire. -/
theorem claim_C10_nil_ptr_zero_value (elem : TpmType) (container : Option Values)
    (opts : FieldOpts) (h : opts.sized = false) :
    marshalValue (.ptr elem) .ptrN container opts =
      marshalValue (.ptr elem) (.ptrV (zeroValue elem)) container opts := by
  rcases opts with ⟨s, sz, r⟩
  cases h
  rw [marshalValue_ptrN, marshalValue_ptrV]

theorem claim_C10_nil_ptr_zero_value_witness :
    optsNone.sized = false ∧
    marshalValue (.ptr sessionDataT) .ptrN none optsNone =
      marshalValue (.ptr sessionDataT) (.ptrV (zeroValue sessionDataT)) none optsNone :=
  ⟨rfl, claim_C10_nil_ptr_zero_value sessionDataT none optsNone rfl⟩

/-! ## C7: invariants enforced on session contexts -/

theorem checkConsistency_session_eq (hh : Nat) (n : List Nat) (d : sessionContextData) :
    checkConsistency ⟨handleContextTypeSession, hh, n, some (.session (some d))⟩ =
      checkConsistencySessionChain hh n d := rfl

set_option maxHeartbeats 1000000 in
/-- C7: every session context carrying session data that the registry
consistency check accepts satisfies: exclusive implies audit; both nonces
have the digest size of the session's hash algorithm; the session key has
that digest size or is empty; and the bound-entity name is non-empty iff
the bound flag is set. -/
theorem claim_C7_session_invariants (h : handleContext) (d : sessionContextData)
    (hty : h.Type' = handleContextTypeSession)
    (hdata : h.Data = some (.session (some d)))
    (hok : checkConsistency h = .ok) :
    (d.IsExclusive = true → d.IsAudit = true) ∧
    d.NonceCaller.length = hashAlgSize d.HashAlg ∧
    d.NonceTPM.length = hashAlgSize d.HashAlg ∧
    (d.SessionKey.length = hashAlgSize d.HashAlg ∨ d.SessionKey.length = 0) ∧
    (d.BoundEntity ≠ [] ↔ d.IsBound = true) := by
  obtain ⟨ty, hh, n, data⟩ := h
  simp only at hty hdata
  subst hty
  subst hdata
  rw [checkConsistency_session_eq] at hok
  unfold checkConsistencySessionChain at hok
  by_cases h1 : ¬(handleType hh = HandleTypeHMACSession ∨ handleType hh = HandleTypePolicySession)
  · rw [if_pos h1] at hok
    exact CheckResult.noConfusion hok
  rw [if_neg h1] at hok
  by_cases h2 : ¬(nameIsHandle n = true ∧ nameHandle n = hh)
  · rw [if_pos h2] at hok
    exact CheckResult.noConfusion hok
  rw [if_neg h2] at hok
  by_cases h3 : ¬(d.IsAudit = true) ∧ d.IsExclusive = true
  · rw [if_pos h3] at hok
    exact CheckResult.noConfusion hok
  rw [if_neg h3] at hok
  by_cases h4 : ¬(hashAlgSupported d.HashAlg = true)
  · rw [if_pos h4] at hok
    exact CheckResult.noConfusion hok
  rw [if_neg h4] at hok
  by_cases h5 : ¬(d.SessionType = SessionTypeHMAC ∨ d.SessionType = SessionTypePolicy ∨
      d.SessionType = SessionTypeTrial)
  · rw [if_pos h5] at hok
    exact CheckResult.noConfusion hok
  rw [if_neg h5] at hok
  by_cases h6 : d.PolicyHMACType > policyHMACTypeMax
  · rw [if_pos h6] at hok
    exact CheckResult.noConfusion hok
  rw [if_neg h6] at hok
  by_cases h7 : (d.IsBound = true ∧ d.BoundEntity.length = 0) ∨
      (¬(d.IsBound = true) ∧ d.BoundEntity.length > 0)
  · rw [if_pos h7] at hok
    exact CheckResult.noConfusion hok
  rw [if_neg h7] at hok
  by_cases h8 : d.SessionKey.length ≠ hashAlgSize d.HashAlg ∧ d.SessionKey.length ≠ 0
  · rw [if_pos h8] at hok
    exact CheckResult.noConfusion hok
  rw [if_neg h8] at hok
  by_cases h9 : d.NonceCaller.length ≠ hashAlgSize d.HashAlg ∨
      d.NonceTPM.length ≠ hashAlgSize d.HashAlg
  · rw [if_pos h9] at hok
    exact CheckResult.noConfusion hok
  push_neg at h7 h8 h9
  refine ⟨?_, h9.1, h9.2, ?_, ?_⟩
  · intro hex
    by_contra haud
    exact h3 ⟨haud, hex⟩
  · by_cases hk : d.SessionKey.length = hashAlgSize d.HashAlg
    · exact Or.inl hk
    · exact Or.inr (h8 hk)
  · constructor
    · intro hne
      by_contra hnb
      have hpos : d.BoundEntity.length > 0 := List.length_pos.mpr hne
      exact absurd hpos (by simpa [hnb] using (h7.2 : _))
    · intro hb hnil
      have h0 : d.BoundEntity.length = 0 := by simp [hnil]
      exact absurd h0 (h7.1 hb)

theorem claim_C7_session_invariants_witness :
    (wSessionCtx.Type' = handleContextTypeSession ∧
     wSessionCtx.Data = some (.session (some wSessionData)) ∧
     checkConsistency wSessionCtx = .ok) ∧
    ((wSessionData.IsExclusive = true → wSessionData.IsAudit = true) ∧
     wSessionData.NonceCaller.length = hashAlgSize wSessionData.HashAlg ∧
     wSessionData.NonceTPM.length = hashAlgSize wSessionData.HashAlg ∧
     (wSessionData.SessionKey.length = hashAlgSize wSessionData.HashAlg ∨
      wSessionData.SessionKey.length = 0) ∧
     (wSessionData.BoundEntity ≠ [] ↔ wSessionData.IsBound = true)) :=
  ⟨⟨by decide, by decide, by decide⟩,
   claim_C7_session_invariants wSessionCtx wSessionData (by decide) (by decide) (by decide)⟩

/-! ## C6: the registry effect of Clear -/

theorem clearSweep_eq_filter (handles : List Nat) (res : List RegEntry) :
    clearSweep handles res = res.filter (clearKeepSpec handles) := by
  induction res with
  | nil => rfl
  | cons rc rest ih =>
    cases rc with
    | objectE h =>
      by_cases hc : handles.contains h <;>
        simp [clearSweep, clearKeepSpec, List.filter_cons, hc, ih]
    | nvIndexE h a =>
      by_cases hc : a &&& AttrNVPlatformCreate = 0 <;>
        simp [clearSweep, clearKeepSpec, List.filter_cons, hc, ih, Nat.pos_iff_ne_zero]
    | sessionE h => simp [clearSweep, clearKeepSpec, List.filter_cons, ih]
    | otherE h => simp [clearSweep, clearKeepSpec, List.filter_cons, ih]

/-- C6: whenever `Clear` returns successfully, the registry afterwards is
exactly the sublist of its prior entries kept by the claim's rule — every
session context, every NV index context with the platform-created
attribute bit set, and every object context whose handle appears in the
post-command capability queries; every other prior entry is evicted and
the kept entries are unchanged. A `none` result models the early error
returns, on which the registry is untouched. -/
theorem claim_C6_clear_registry (cmdOk : Bool) (capT capP : Option (List Nat))
    (res out : List RegEntry) (h : ClearM cmdOk capT capP res = some out) :
    ∃ ht hp, capT = some ht ∧ capP = some hp ∧
      out = res.filter (clearKeepSpec (ht ++ hp)) := by
  unfold ClearM at h
  by_cases hcmd : cmdOk
  · rw [if_neg (by simpa using hcmd)] at h
    match capT, capP, h with
    | some ht, some hp, h =>
      refine ⟨ht, hp, rfl, rfl, ?_⟩
      simp only [Option.some.injEq] at h
      rw [← h, clearSweep_eq_filter]
  · rw [if_pos (by simpa using hcmd)] at h
    exact Option.noConfusion h

theorem claim_C6_clear_registry_witness :
    ClearM true (some [0x80000001]) (some [0x81000001])
        [.objectE 0x80000001, .objectE 0x80000002, .objectE 0x81000001,
         .nvIndexE 0x01000001 AttrNVPlatformCreate, .nvIndexE 0x01000002 0,
         .sessionE 0x02000001, .otherE 0x40000007] =
      some [.objectE 0x80000001, .objectE 0x81000001,
            .nvIndexE 0x01000001 AttrNVPlatformCreate, .sessionE 0x02000001] ∧
    ∃ ht hp, (some [0x80000001] : Option (List Nat)) = some ht ∧
      (some [0x81000001] : Option (List Nat)) = some hp ∧
      [RegEntry.objectE 0x80000001, .objectE 0x81000001,
       .nvIndexE 0x01000001 AttrNVPlatformCreate, .sessionE 0x02000001] =
        List.filter (clearKeepSpec (ht ++ hp))
          [.objectE 0x80000001, .objectE 0x80000002, .objectE 0x81000001,
           .nvIndexE 0x01000001 AttrNVPlatformCreate, .nvIndexE 0x01000002 0,
           .sessionE 0x02000001, .otherE 0x40000007] :=
  ⟨by decide,
   claim_C6_clear_registry true (some [0x80000001]) (some [0x81000001]) _ _ (by decide)⟩

/-! ## C8: the ResourceUnavailable mapping -/

theorem isRU_eq (e : LibError) :
    (IsTPMWarning e WarningReferenceH0 AnyCommandCode ||
     IsTPMHandleError e ErrorHandle AnyCommandCode AnyHandleIndex) =
      specResourceUnavailableCond e := by
  cases e with
  | tpm t =>
    cases t <;>
      simp [IsTPMWarning, IsTPMHandleError, specResourceUnavailableCond,
        AnyWarningCode, AnyErrorCode, AnyCommandCode, AnyHandleIndex,
        WarningReferenceH0, ErrorHandle, errorCode1Start]
  | resourceUnavailable h =>
    simp [IsTPMWarning, IsTPMHandleError, specResourceUnavailableCond]
  | invalidResponse c m =>
    simp [IsTPMWarning, IsTPMHandleError, specResourceUnavailableCond]
  | otherErr t =>
    simp [IsTPMWarning, IsTPMHandleError, specResourceUnavailableCond]

/-- C8: for every NV-index, transient or persistent handle, when the
public-area read of the first iteration fails with an error `e`,
`CreateResourceContextFromTPM` returns no context and exactly
`ResourceUnavailableError` carrying the queried handle when `e` is a
`reference-h0` warning or a `handle` error (any command code, any handle
index), and `e` itself otherwise; the same mapping applies to the
second-iteration read performed when sessions are supplied. -/
theorem claim_C8_resource_unavailable :
    (∀ (handle : Nat) (objReads : Nat → Except LibError (Public × List Nat))
        (nvReads : Nat → Except LibError (NVPublic × List Nat))
        (haveSessions : Bool) (e : LibError),
      (handleType handle = HandleTypeNVIndex ∨ handleType handle = HandleTypeTransient ∨
        handleType handle = HandleTypePersistent) →
      (if handleType handle = HandleTypeNVIndex then nvReads 0 = Except.error e
       else objReads 0 = Except.error e) →
      CreateResourceContextFromTPM handle objReads nvReads haveSessions =
        some (Except.error
          (if specResourceUnavailableCond e then LibError.resourceUnavailable handle else e))) ∧
    (∀ (handle : Nat) (objReads : Nat → Except LibError (Public × List Nat))
        (nvReads : Nat → Except LibError (NVPublic × List Nat))
        (e : LibError) (rc0 : handleContext),
      (handleType handle = HandleTypeNVIndex ∨ handleType handle = HandleTypeTransient ∨
        handleType handle = HandleTypePersistent) →
      (if handleType handle = HandleTypeNVIndex then
        makeNVIndexContextFromTPM (nvReads 0) (makeDummyContext handle).H = Except.ok rc0 ∧
          nvReads 1 = Except.error e
       else
        makeObjectContextFromTPM (objReads 0) (makeDummyContext handle).H = Except.ok rc0 ∧
          objReads 1 = Except.error e) →
      CreateResourceContextFromTPM handle objReads nvReads true =
        some (Except.error
          (if specResourceUnavailableCond e then LibError.resourceUnavailable handle else e))) := by
  have hmap : ∀ (handle : Nat) (e : LibError),
      (if IsTPMWarning e WarningReferenceH0 AnyCommandCode then
        (Except.error (LibError.resourceUnavailable handle) : Except LibError handleContext)
       else if IsTPMHandleError e ErrorHandle AnyCommandCode AnyHandleIndex then
        Except.error (.resourceUnavailable handle)
       else Except.error e) =
      Except.error (if specResourceUnavailableCond e then .resourceUnavailable handle else e) := by
    intro handle e
    rw [← isRU_eq e]
    by_cases h1 : IsTPMWarning e WarningReferenceH0 AnyCommandCode <;>
      by_cases h2 : IsTPMHandleError e ErrorHandle AnyCommandCode AnyHandleIndex <;>
        simp [h1, h2]
  constructor
  · intro handle objReads nvReads haveSessions e hty hfail
    unfold CreateResourceContextFromTPM
    rw [if_neg (not_not_intro hty)]
    by_cases hnv : handleType handle = HandleTypeNVIndex
    · rw [if_pos hnv] at hfail
      simp only [hnv, if_true, hfail, makeNVIndexContextFromTPM]
      rw [hmap handle e]
    · rw [if_neg hnv] at hfail
      simp only [hnv, if_false, hfail, makeObjectContextFromTPM]
      rw [hmap handle e]
  · intro handle objReads nvReads e rc0 hty hchain
    unfold CreateResourceContextFromTPM
    rw [if_neg (not_not_intro hty)]
    by_cases hnv : handleType handle = HandleTypeNVIndex
    · rw [if_pos hnv] at hchain
      obtain ⟨hok, hfail⟩ := hchain
      simp only [hnv, if_true]
      rw [hok]
      simp only [hfail, makeNVIndexContextFromTPM]
      rw [hmap handle e]
      simp
    · rw [if_neg hnv] at hchain
      obtain ⟨hok, hfail⟩ := hchain
      simp only [hnv, if_false]
      rw [hok]
      simp only [hfail, makeObjectContextFromTPM]
      rw [hmap handle e]
      simp

theorem claim_C8_resource_unavailable_witness :
    CreateResourceContextFromTPM 0x01000001
        (fun _ => Except.error (LibError.otherErr 0))
        (fun _ => Except.error (LibError.tpm (.warning 0x169 WarningReferenceH0)))
        false =
      some (Except.error
        (if specResourceUnavailableCond (LibError.tpm (.warning 0x169 WarningReferenceH0)) then
          LibError.resourceUnavailable 0x01000001
         else LibError.tpm (.warning 0x169 WarningReferenceH0))) :=
  claim_C8_resource_unavailable.1 0x01000001
    (fun _ => Except.error (LibError.otherErr 0))
    (fun _ => Except.error (LibError.tpm (.warning 0x169 WarningReferenceH0)))
    false (LibError.tpm (.warning 0x169 WarningReferenceH0)) (by decide) (by decide)

/-! ## C9: the name/index cross-checks on public areas read back from the TPM -/

/-- C9: when the public-area read succeeds, `makeObjectContextFromTPM`
returns a context exactly when the name computed from the returned public
area equals the returned name, and otherwise an `InvalidResponseError`
and no context; `makeNVIndexContextFromTPM` additionally requires the
index field of the returned public area to equal the queried handle. -/
theorem claim_C9_readback_cross_checks :
    (∀ (pub : Public) (name : List Nat) (h : Nat),
      (makeObjectContextFromTPM (.ok (pub, name)) h =
          .ok (makeObjectContext h name pub) ↔ pub.Name = some name) ∧
      ((∃ msg, makeObjectContextFromTPM (.ok (pub, name)) h =
          .error (.invalidResponse CommandReadPublic msg)) ↔ ¬pub.Name = some name)) ∧
    (∀ (pub : NVPublic) (name : List Nat) (h : Nat),
      (makeNVIndexContextFromTPM (.ok (pub, name)) h =
          .ok (makeNVIndexContext name pub) ↔ (pub.Name = some name ∧ pub.Index = h)) ∧
      ((∃ msg, makeNVIndexContextFromTPM (.ok (pub, name)) h =
          .error (.invalidResponse CommandNVReadPublic msg)) ↔
        ¬(pub.Name = some name ∧ pub.Index = h))) := by
  constructor
  · intro pub name h
    cases hn : pub.Name with
    | none => simp [makeObjectContextFromTPM, hn]
    | some n =>
      by_cases hne : n = name
      · subst hne
        simp [makeObjectContextFromTPM, hn]
      · simp [makeObjectContextFromTPM, hn, hne, Ne.symm hne]
  · intro pub name h
    cases hn : pub.Name with
    | none => simp [makeNVIndexContextFromTPM, hn]
    | some n =>
      by_cases hne : n = name
      · subst hne
        by_cases hix : pub.Index = h
        · simp [makeNVIndexContextFromTPM, hn, hix]
        · simp [makeNVIndexContextFromTPM, hn, hix]
      · simp [makeNVIndexContextFromTPM, hn, hne, Ne.symm hne]

/-! ## Byte-level round-trip lemmas -/

theorem encBE_length (w : Nat) : ∀ n, (encBE w n).length = w := by
  induction w with
  | zero => intro n; rfl
  | succ w ih =>
    intro n
    show (encBE w (n / 256) ++ [n % 256]).length = w + 1
    rw [List.length_append, ih]
    rfl

theorem decBEgo_encBE_append (v : Nat) : ∀ (u acc m : Nat) (rest : List Nat),
    decBEgo (v + u) acc (encBE v m ++ rest) =
      decBEgo u (acc * 256 ^ v + m % 256 ^ v) rest := by
  induction v with
  | zero =>
    intro u acc m rest
    simp [encBE, decBEgo, Nat.mod_one]
  | succ v ih =>
    intro u acc m rest
    show decBEgo (v + 1 + u) acc ((encBE v (m / 256) ++ [m % 256]) ++ rest) = _
    rw [List.append_assoc]
    have hw : v + 1 + u = v + (u + 1) := by omega
    rw [hw, ih (u + 1) acc (m / 256) ([m % 256] ++ rest)]
    show decBEgo u ((acc * 256 ^ v + m / 256 % 256 ^ v) * 256 + m % 256) rest = _
    have hmod : m % 256 ^ (v + 1) = m % 256 + 256 * (m / 256 % 256 ^ v) := by
      have h2 : m % (256 * 256 ^ v) = m % 256 + 256 * (m / 256 % 256 ^ v) := Nat.mod_mul
      rw [pow_succ, mul_comm (256 ^ v) 256]
      exact h2
    rw [hmod, pow_succ]
    ring_nf

theorem decBE_encBE (w n : Nat) (suf : List Nat) :
    decBE w (encBE w n ++ suf) = some (n % 256 ^ w, suf) := by
  have h := decBEgo_encBE_append w 0 0 n suf
  rw [Nat.add_zero] at h
  rw [decBE, h]
  simp [decBEgo]

theorem decBE_encBE_of_lt (w n : Nat) (suf : List Nat) (h : n < 256 ^ w) :
    decBE w (encBE w n ++ suf) = some (n, suf) := by
  rw [decBE_encBE, Nat.mod_eq_of_lt h]

theorem readBytes_append (bs suf : List Nat) :
    readBytes bs.length (bs ++ suf) = some (bs, suf) := by
  rw [readBytes, if_pos (by simp)]
  rw [List.take_left, List.drop_left]

theorem wordsToBytesBE_length (ws : List Nat) : (wordsToBytesBE ws).length = 4 * ws.length := by
  induction ws with
  | nil => rfl
  | cons w rest ih =>
    show ((w >>> 24 % 256) :: (w >>> 16 % 256) :: (w >>> 8 % 256) :: (w % 256) ::
      wordsToBytesBE rest).length = 4 * (rest.length + 1)
    simp [ih]
    ring

theorem sha256Block_length (h bs : List Nat) (hh : h.length = 8) :
    (sha256Block h bs).length = 8 := by
  rcases h with _ | ⟨a0, h⟩
  · simp at hh
  rcases h with _ | ⟨a1, h⟩
  · simp at hh
  rcases h with _ | ⟨a2, h⟩
  · simp at hh
  rcases h with _ | ⟨a3, h⟩
  · simp at hh
  rcases h with _ | ⟨a4, h⟩
  · simp at hh
  rcases h with _ | ⟨a5, h⟩
  · simp at hh
  rcases h with _ | ⟨a6, h⟩
  · simp at hh
  rcases h with _ | ⟨a7, h⟩
  · simp at hh
  rcases h with _ | ⟨a8, h⟩
  · rfl
  · simp at hh

theorem sha256ChunksGo_length (fuel : Nat) : ∀ (h bs : List Nat), h.length = 8 →
    (sha256ChunksGo fuel h bs).length = 8 := by
  induction fuel with
  | zero => intro h bs hh; simpa [sha256ChunksGo] using hh
  | succ fuel ih =>
    intro h bs hh
    cases bs with
    | nil => simpa [sha256ChunksGo] using hh
    | cons b rest =>
      show (sha256ChunksGo fuel (sha256Block h ((b :: rest).take 64)) ((b :: rest).drop 64)).length = 8
      exact ih _ _ (sha256Block_length h _ hh)

theorem sha256_length (msg : List Nat) : (sha256 msg).length = 32 := by
  show (wordsToBytesBE (sha256ChunksGo (mdPad64 msg).length sha256IV (mdPad64 msg))).length = 32
  rw [wordsToBytesBE_length, sha256ChunksGo_length _ _ _ (by rfl)]

theorem digestOf_sha256 (msg : List Nat) : digestOf HashAlgorithmSHA256 msg = sha256 msg := rfl

theorem hashAlgSupported_sha256 : hashAlgSupported HashAlgorithmSHA256 = true := rfl

/-! ## Round-trip lemmas for the codec primitives -/

theorem unm_prim_enc (w n : Nat) (d : Value) (c : Option Values) (s : Option Nat) (r : Bool)
    (suf : List Nat) (h : n < 256 ^ w) :
    unmarshalValue (.prim w) d c ⟨s, false, r⟩ (encBE w n ++ suf) = .ok (.num n, suf) := by
  rw [unmarshalValue_prim, decBE_encBE_of_lt w n suf h]

theorem unm_buffer_enc (bs : List Nat) (ds : List Nat) (c : Option Values) (s : Option Nat)
    (suf : List Nat) (h : bs.length < 65536) :
    unmarshalValue .buffer (.bytes ds) c ⟨s, false, false⟩ ((encBE 2 bs.length ++ bs) ++ suf) =
      .ok (.bytes bs, suf) := by
  rw [List.append_assoc, unmarshalValue_buffer,
    decBE_encBE_of_lt 2 bs.length (bs ++ suf) (by norm_num at h ⊢; omega)]
  show (match readBytes bs.length (bs ++ suf) with
        | none => (Except.error MuErr.shortRead : Except MuErr (Value × List Nat))
        | some (bs2, rest') => .ok (.bytes bs2, rest')) = .ok (.bytes bs, suf)
  rw [readBytes_append]

theorem MarshalToBytes_nil : MarshalToBytes [] = .ok [] := rfl

theorem MarshalToBytes_cons (t : TpmType) (v : Value) (rest : List (TpmType × Value))
    (out outs : List Nat)
    (h1 : marshalValue t v none optsNone = .ok out)
    (h2 : MarshalToBytes rest = .ok outs) :
    MarshalToBytes ((t, v) :: rest) = .ok (out ++ outs) := by
  have e3 : MarshalToBytes ((t, v) :: rest) =
      (marshalValue t v none optsNone >>= fun out =>
        MarshalToBytes rest >>= fun outs => pure (out ++ outs)) := rfl
  rw [e3, h1]
  show (MarshalToBytes rest >>= fun outs => pure (out ++ outs)) = _
  rw [h2]
  rfl

theorem UnmarshalFromReader_nil (input : List Nat) :
    UnmarshalFromReader [] input = .ok ([], input) := rfl

theorem UnmarshalFromReader_cons (t : TpmType) (d : Value) (rest : List (TpmType × Value))
    (input : List Nat) (v : Value) (input' : List Nat) (vs : List Value) (input'' : List Nat)
    (h1 : unmarshalValue t d none optsNone input = .ok (v, input'))
    (h2 : UnmarshalFromReader rest input' = .ok (vs, input'')) :
    UnmarshalFromReader ((t, d) :: rest) input = .ok (v :: vs, input'') := by
  have e3 : UnmarshalFromReader ((t, d) :: rest) input =
      (unmarshalValue t d none optsNone input >>= fun p =>
        match p with
        | (v, input') =>
          (UnmarshalFromReader rest input' >>= fun q =>
            match q with
            | (vs, input'') => pure (v :: vs, input''))) := rfl
  rw [e3, h1]
  show (UnmarshalFromReader rest input' >>= fun q =>
    match q with
    | (vs, input'') => pure (v :: vs, input'')) = _
  rw [h2]
  rfl

/-! ## Round trip of the symmetric definition schema -/

theorem rt_symDef_core (alg k m : Nat) (kbBs mdBs : List Nat) (kv mv : Value)
    (c c' : Option Values) (so so' : Option Nat) (rr rr' : Bool) (suf : List Nat)
    (halg : alg < 65536)
    (hmk : marshalUnion symKeyBitsVariants alg (.unionV (.num k)) = .ok kbBs)
    (hmm : marshalUnion symModeVariants alg (.unionV (.num m)) = .ok mdBs)
    (humk : ∀ tail : List Nat,
      unmarshalUnion symKeyBitsVariants alg .unionN (kbBs ++ tail) = .ok (kv, tail))
    (humm : ∀ tail : List Nat,
      unmarshalUnion symModeVariants alg .unionN (mdBs ++ tail) = .ok (mv, tail)) :
    marshalValue symDefT (SymDef.toValue ⟨alg, some k, some m⟩) c ⟨so, false, rr⟩ =
      .ok (encBE 2 alg ++ (kbBs ++ (mdBs ++ []))) ∧
    unmarshalValue symDefT (zeroValue symDefT) c' ⟨so', false, rr'⟩
        ((encBE 2 alg ++ (kbBs ++ (mdBs ++ []))) ++ suf) =
      .ok (.structV (.cons (.num alg) (.cons (.ptrV kv) (.cons (.ptrV mv) .nil))), suf) := by
  constructor
  · -- marshal
    have m0 : marshalValue (.prim 2) (.num alg)
        (some (Values.cons (.num alg) (.cons (.ptrV (.unionV (.num k)))
          (.cons (.ptrV (.unionV (.num m))) .nil)))) optsNone = .ok (encBE 2 alg) :=
      marshalValue_prim 2 alg _ none false
    have m1 : marshalValue (.ptr (.union symKeyBitsVariants)) (.ptrV (.unionV (.num k)))
        (some (Values.cons (.num alg) (.cons (.ptrV (.unionV (.num k)))
          (.cons (.ptrV (.unionV (.num m))) .nil)))) ⟨some 0, false, false⟩ = .ok kbBs := by
      have e1 : marshalValue (.ptr (.union symKeyBitsVariants)) (.ptrV (.unionV (.num k)))
          (some (Values.cons (.num alg) (.cons (.ptrV (.unionV (.num k)))
            (.cons (.ptrV (.unionV (.num m))) .nil)))) ⟨some 0, false, false⟩ =
          marshalUnion symKeyBitsVariants alg (.unionV (.num k)) := by
        rw [marshalValue_ptrV]
        exact marshalValue_union _ _ _ _ _ alg rfl
      rw [e1]
      exact hmk
    have m2 : marshalValue (.ptr (.union symModeVariants)) (.ptrV (.unionV (.num m)))
        (some (Values.cons (.num alg) (.cons (.ptrV (.unionV (.num k)))
          (.cons (.ptrV (.unionV (.num m))) .nil)))) ⟨some 0, false, false⟩ = .ok mdBs := by
      have e1 : marshalValue (.ptr (.union symModeVariants)) (.ptrV (.unionV (.num m)))
          (some (Values.cons (.num alg) (.cons (.ptrV (.unionV (.num k)))
            (.cons (.ptrV (.unionV (.num m))) .nil)))) ⟨some 0, false, false⟩ =
          marshalUnion symModeVariants alg (.unionV (.num m)) := by
        rw [marshalValue_ptrV]
        exact marshalValue_union _ _ _ _ _ alg rfl
      rw [e1]
      exact hmm
    exact marshalFields_fcons _ _ _ _ _ _ _ _ m0
      (marshalFields_fcons _ _ _ _ _ _ _ _ m1
        (marshalFields_fcons _ _ _ _ _ _ _ _ m2
          (marshalFields_fnil _ _)))
  · -- unmarshal: reassociate the input, then walk the three fields
    have hre : (encBE 2 alg ++ (kbBs ++ (mdBs ++ []))) ++ suf =
        encBE 2 alg ++ (kbBs ++ (mdBs ++ suf)) := by
      simp [List.append_assoc]
    rw [hre]
    have u0 : unmarshalValue (.prim 2) (.num 0)
        (some (Values.cons (.num 0) (.cons .ptrN (.cons .ptrN .nil)))) optsNone
        (encBE 2 alg ++ (kbBs ++ (mdBs ++ suf))) = .ok (.num alg, kbBs ++ (mdBs ++ suf)) :=
      unm_prim_enc 2 alg _ _ none false _ (by norm_num at halg ⊢; omega)
    have u1 : unmarshalValue (.ptr (.union symKeyBitsVariants)) .ptrN
        (some (Values.cons (.num alg) (.cons .ptrN (.cons .ptrN .nil)))) ⟨some 0, false, false⟩
        (kbBs ++ (mdBs ++ suf)) = .ok (.ptrV kv, mdBs ++ suf) := by
      refine unmarshalValue_ptrN _ _ _ _ _ _ _ ?_
      have hu : unmarshalValue (.union symKeyBitsVariants) (.unionN : Value)
          (some (Values.cons (.num alg) (.cons .ptrN (.cons .ptrN .nil)))) ⟨some 0, false, false⟩
          (kbBs ++ (mdBs ++ suf)) =
          unmarshalUnion symKeyBitsVariants alg .unionN (kbBs ++ (mdBs ++ suf)) :=
        unmarshalValue_union _ _ _ _ _ _ alg rfl
      show unmarshalValue (.union symKeyBitsVariants) (.unionN : Value)
          (some (Values.cons (.num alg) (.cons .ptrN (.cons .ptrN .nil)))) ⟨some 0, false, false⟩
          (kbBs ++ (mdBs ++ suf)) = .ok (kv, mdBs ++ suf)
      rw [hu]
      exact humk (mdBs ++ suf)
    have u2 : unmarshalValue (.ptr (.union symModeVariants)) .ptrN
        (some (Values.cons (.num alg) (.cons (.ptrV kv) (.cons .ptrN .nil))))
        ⟨some 0, false, false⟩ (mdBs ++ suf) = .ok (.ptrV mv, suf) := by
      refine unmarshalValue_ptrN _ _ _ _ _ _ _ ?_
      have hu : unmarshalValue (.union symModeVariants) (.unionN : Value)
          (some (Values.cons (.num alg) (.cons (.ptrV kv) (.cons .ptrN .nil))))
          ⟨some 0, false, false⟩ (mdBs ++ suf) =
          unmarshalUnion symModeVariants alg .unionN (mdBs ++ suf) :=
        unmarshalValue_union _ _ _ _ _ _ alg rfl
      show unmarshalValue (.union symModeVariants) (.unionN : Value)
          (some (Values.cons (.num alg) (.cons (.ptrV kv) (.cons .ptrN .nil))))
          ⟨some 0, false, false⟩ (mdBs ++ suf) = .ok (mv, suf)
      rw [hu]
      exact humm suf
    exact unmarshalValue_struct _ _ _ _ _ _ _ _
      (unmarshalFields_fcons _ _ _ _ _ _ _ _ _ _ _ u0
        (unmarshalFields_fcons _ _ _ _ _ _ _ _ _ _ _ u1
          (unmarshalFields_fcons _ _ _ _ _ _ _ _ _ _ _ u2
            (unmarshalFields_fnil _ _ _))))

theorem unmUnion_prim2_hit (vars : Variants) (alg k : Nat) (hk : k < 65536)
    (he : ∀ inp : List Nat, unmarshalUnion vars alg .unionN inp =
      (unmarshalValue (.prim 2) (.num 0) none optsNone inp >>= fun p =>
        match p with | (v, r) => pure (.unionV v, r))) :
    ∀ tail : List Nat,
      unmarshalUnion vars alg .unionN (encBE 2 k ++ tail) = .ok (.unionV (.num k), tail) := by
  intro tail
  have e0 : (optsNone : FieldOpts) = ⟨none, false, false⟩ := rfl
  rw [he, e0, unm_prim_enc 2 k _ none none false tail (by norm_num at hk ⊢; omega)]
  rfl

theorem rt_symDef (s : SymDef) (hcan : s.canonical = true)
    (halg : s.Algorithm = SymAlgorithmAES ∨ s.Algorithm = SymAlgorithmXOR ∨
      s.Algorithm = SymAlgorithmNull ∨ s.Algorithm = SymAlgorithmSM4 ∨
      s.Algorithm = SymAlgorithmCamellia)
    (c c' : Option Values) (so so' : Option Nat) (rr rr' : Bool) (suf : List Nat) :
    ∃ bs sv, marshalValue symDefT (SymDef.toValue s) c ⟨so, false, rr⟩ = .ok bs ∧
      unmarshalValue symDefT (zeroValue symDefT) c' ⟨so', false, rr'⟩ (bs ++ suf) =
        .ok (sv, suf) ∧
      SymDef.ofValue sv = some s := by
  obtain ⟨alg, kb, md⟩ := s
  rcases halg with h | h | h | h | h <;> subst h
  · -- AES
    rcases kb with _ | k
    · simp [SymDef.canonical, SymAlgorithmAES, SymAlgorithmXOR, SymAlgorithmNull] at hcan
    rcases md with _ | m
    · simp [SymDef.canonical, SymAlgorithmAES, SymAlgorithmXOR, SymAlgorithmNull] at hcan
    simp [SymDef.canonical, SymAlgorithmAES, SymAlgorithmXOR, SymAlgorithmNull] at hcan
    obtain ⟨hk, hm⟩ := hcan
    have hcore := rt_symDef_core SymAlgorithmAES k m (encBE 2 k) (encBE 2 m)
      (.unionV (.num k)) (.unionV (.num m)) c c' so so' rr rr' suf (by decide) rfl rfl
      (unmUnion_prim2_hit _ _ k hk (fun inp => rfl))
      (unmUnion_prim2_hit _ _ m hm (fun inp => rfl))
    exact ⟨_, _, hcore.1, hcore.2, rfl⟩
  · -- XOR
    rcases kb with _ | k
    · simp [SymDef.canonical, SymAlgorithmAES, SymAlgorithmXOR, SymAlgorithmNull] at hcan
    simp [SymDef.canonical, SymAlgorithmAES, SymAlgorithmXOR, SymAlgorithmNull] at hcan
    obtain ⟨hk, hm⟩ := hcan
    subst hm
    have hcore := rt_symDef_core SymAlgorithmXOR k 0 (encBE 2 k) []
      (.unionV (.num k)) .unionN c c' so so' rr rr' suf (by decide) rfl rfl
      (unmUnion_prim2_hit _ _ k hk (fun inp => rfl))
      (fun tail => rfl)
    exact ⟨_, _, hcore.1, hcore.2, rfl⟩
  · -- Null
    rcases kb with _ | k
    · simp [SymDef.canonical, SymAlgorithmNull] at hcan
    rcases md with _ | m
    · simp [SymDef.canonical, SymAlgorithmNull] at hcan
    simp [SymDef.canonical, SymAlgorithmNull] at hcan
    obtain ⟨hk, hm⟩ := hcan
    subst hk
    subst hm
    have hcore := rt_symDef_core SymAlgorithmNull 0 0 [] []
      .unionN .unionN c c' so so' rr rr' suf (by decide) rfl rfl
      (fun tail => rfl) (fun tail => rfl)
    exact ⟨_, _, hcore.1, hcore.2, rfl⟩
  · -- SM4
    rcases kb with _ | k
    · simp [SymDef.canonical, SymAlgorithmSM4, SymAlgorithmXOR, SymAlgorithmNull] at hcan
    rcases md with _ | m
    · simp [SymDef.canonical, SymAlgorithmSM4, SymAlgorithmXOR, SymAlgorithmNull] at hcan
    simp [SymDef.canonical, SymAlgorithmSM4, SymAlgorithmXOR, SymAlgorithmNull] at hcan
    obtain ⟨hk, hm⟩ := hcan
    have hcore := rt_symDef_core SymAlgorithmSM4 k m (encBE 2 k) (encBE 2 m)
      (.unionV (.num k)) (.unionV (.num m)) c c' so so' rr rr' suf (by decide) rfl rfl
      (unmUnion_prim2_hit _ _ k hk (fun inp => rfl))
      (unmUnion_prim2_hit _ _ m hm (fun inp => rfl))
    exact ⟨_, _, hcore.1, hcore.2, rfl⟩
  · -- Camellia
    rcases kb with _ | k
    · simp [SymDef.canonical, SymAlgorithmCamellia, SymAlgorithmXOR, SymAlgorithmNull] at hcan
    rcases md with _ | m
    · simp [SymDef.canonical, SymAlgorithmCamellia, SymAlgorithmXOR, SymAlgorithmNull] at hcan
    simp [SymDef.canonical, SymAlgorithmCamellia, SymAlgorithmXOR, SymAlgorithmNull] at hcan
    obtain ⟨hk, hm⟩ := hcan
    have hcore := rt_symDef_core SymAlgorithmCamellia k m (encBE 2 k) (encBE 2 m)
      (.unionV (.num k)) (.unionV (.num m)) c c' so so' rr rr' suf (by decide) rfl rfl
      (unmUnion_prim2_hit _ _ k hk (fun inp => rfl))
      (unmUnion_prim2_hit _ _ m hm (fun inp => rfl))
    exact ⟨_, _, hcore.1, hcore.2, rfl⟩

theorem rt_public (p : Public) (hcan : p.canonical = true)
    (c c' : Option Values) (so so' : Option Nat) (rr rr' : Bool) (suf : List Nat) :
    ∃ bs sv, marshalValue publicT (Public.toValue p) c ⟨so, false, rr⟩ = .ok bs ∧
      unmarshalValue publicT (zeroValue publicT) c' ⟨so', false, rr'⟩ (bs ++ suf) =
        .ok (sv, suf) ∧
      Public.ofValue sv = some p := by
  obtain ⟨ty, alg, attrs, pol, params, uniq⟩ := p
  simp only [Public.canonical, Bool.and_eq_true, decide_eq_true_eq] at hcan
  obtain ⟨⟨⟨⟨⟨h1, h2⟩, h3⟩, h4⟩, h5⟩, h6⟩ := hcan
  refine ⟨encBE 2 ty ++ (encBE 2 alg ++ (encBE 4 attrs ++ ((encBE 2 pol.length ++ pol) ++
    ((encBE 2 params.length ++ params) ++ ((encBE 2 uniq.length ++ uniq) ++ []))))),
    .structV (.cons (.num ty) (.cons (.num alg) (.cons (.num attrs) (.cons (.bytes pol)
      (.cons (.bytes params) (.cons (.bytes uniq) .nil)))))), ?_, ?_, rfl⟩
  · exact marshalFields_fcons _ _ _ _ _ _ _ _ (marshalValue_prim 2 ty _ none false)
      (marshalFields_fcons _ _ _ _ _ _ _ _ (marshalValue_prim 2 alg _ none false)
        (marshalFields_fcons _ _ _ _ _ _ _ _ (marshalValue_prim 4 attrs _ none false)
          (marshalFields_fcons _ _ _ _ _ _ _ _ (marshalValue_buffer pol _ none)
            (marshalFields_fcons _ _ _ _ _ _ _ _ (marshalValue_buffer params _ none)
              (marshalFields_fcons _ _ _ _ _ _ _ _ (marshalValue_buffer uniq _ none)
                (marshalFields_fnil _ _))))))
  · have hre : (encBE 2 ty ++ (encBE 2 alg ++ (encBE 4 attrs ++ ((encBE 2 pol.length ++ pol) ++
        ((encBE 2 params.length ++ params) ++ ((encBE 2 uniq.length ++ uniq) ++ [])))))) ++ suf =
        encBE 2 ty ++ (encBE 2 alg ++ (encBE 4 attrs ++ ((encBE 2 pol.length ++ pol) ++
        ((encBE 2 params.length ++ params) ++ ((encBE 2 uniq.length ++ uniq) ++ suf))))) := by
      simp
    rw [hre]
    exact unmarshalValue_struct _ _ _ _ _ _ _ _
      (unmarshalFields_fcons _ _ _ _ _ _ _ _ _ _ _
        (unm_prim_enc 2 ty _ _ none false _ (by norm_num at h1 ⊢; omega))
        (unmarshalFields_fcons _ _ _ _ _ _ _ _ _ _ _
          (unm_prim_enc 2 alg _ _ none false _ (by norm_num at h2 ⊢; omega))
          (unmarshalFields_fcons _ _ _ _ _ _ _ _ _ _ _
            (unm_prim_enc 4 attrs _ _ none false _ (by norm_num at h3 ⊢; omega))
            (unmarshalFields_fcons _ _ _ _ _ _ _ _ _ _ _
              (unm_buffer_enc pol _ _ none _ h4)
              (unmarshalFields_fcons _ _ _ _ _ _ _ _ _ _ _
                (unm_buffer_enc params _ _ none _ h5)
                (unmarshalFields_fcons _ _ _ _ _ _ _ _ _ _ _
                  (unm_buffer_enc uniq _ _ none _ h6)
                  (unmarshalFields_fnil _ _ _)))))))

theorem rt_nvpublic (p : NVPublic) (hcan : p.canonical = true)
    (c c' : Option Values) (so so' : Option Nat) (rr rr' : Bool) (suf : List Nat) :
    ∃ bs sv, marshalValue nvPublicT (NVPublic.toValue p) c ⟨so, false, rr⟩ = .ok bs ∧
      unmarshalValue nvPublicT (zeroValue nvPublicT) c' ⟨so', false, rr'⟩ (bs ++ suf) =
        .ok (sv, suf) ∧
      NVPublic.ofValue sv = some p := by
  obtain ⟨idx, alg, attrs, pol, size⟩ := p
  simp only [NVPublic.canonical, Bool.and_eq_true, decide_eq_true_eq] at hcan
  obtain ⟨⟨⟨⟨h1, h2⟩, h3⟩, h4⟩, h5⟩ := hcan
  refine ⟨encBE 4 idx ++ (encBE 2 alg ++ (encBE 4 attrs ++ ((encBE 2 pol.length ++ pol) ++
    (encBE 2 size ++ [])))),
    .structV (.cons (.num idx) (.cons (.num alg) (.cons (.num attrs) (.cons (.bytes pol)
      (.cons (.num size) .nil))))), ?_, ?_, rfl⟩
  · exact marshalFields_fcons _ _ _ _ _ _ _ _ (marshalValue_prim 4 idx _ none false)
      (marshalFields_fcons _ _ _ _ _ _ _ _ (marshalValue_prim 2 alg _ none false)
        (marshalFields_fcons _ _ _ _ _ _ _ _ (marshalValue_prim 4 attrs _ none false)
          (marshalFields_fcons _ _ _ _ _ _ _ _ (marshalValue_buffer pol _ none)
            (marshalFields_fcons _ _ _ _ _ _ _ _ (marshalValue_prim 2 size _ none false)
              (marshalFields_fnil _ _)))))
  · have hre : (encBE 4 idx ++ (encBE 2 alg ++ (encBE 4 attrs ++ ((encBE 2 pol.length ++ pol) ++
        (encBE 2 size ++ []))))) ++ suf =
        encBE 4 idx ++ (encBE 2 alg ++ (encBE 4 attrs ++ ((encBE 2 pol.length ++ pol) ++
        (encBE 2 size ++ suf)))) := by
      simp
    rw [hre]
    exact unmarshalValue_struct _ _ _ _ _ _ _ _
      (unmarshalFields_fcons _ _ _ _ _ _ _ _ _ _ _
        (unm_prim_enc 4 idx _ _ none false _ (by norm_num at h1 ⊢; omega))
        (unmarshalFields_fcons _ _ _ _ _ _ _ _ _ _ _
          (unm_prim_enc 2 alg _ _ none false _ (by norm_num at h2 ⊢; omega))
          (unmarshalFields_fcons _ _ _ _ _ _ _ _ _ _ _
            (unm_prim_enc 4 attrs _ _ none false _ (by norm_num at h3 ⊢; omega))
            (unmarshalFields_fcons _ _ _ _ _ _ _ _ _ _ _
              (unm_buffer_enc pol _ _ none _ h4)
              (unmarshalFields_fcons _ _ _ _ _ _ _ _ _ _ _
                (unm_prim_enc 2 size _ _ none false _ (by norm_num at h5 ⊢; omega))
                (unmarshalFields_fnil _ _ _))))))

theorem boolOfByte_boolByte (b : Bool) : boolOfByte (boolByte b) = b := by
  cases b <;> rfl

theorem boolByte_lt (b : Bool) : boolByte b < 256 := by
  cases b <;> decide

theorem rt_sessionData (d : sessionContextData) (hcan : d.canonical = true)
    (halg : ∀ sym : SymDef, d.Symmetric = some sym →
      sym.Algorithm = SymAlgorithmAES ∨ sym.Algorithm = SymAlgorithmXOR ∨
      sym.Algorithm = SymAlgorithmNull ∨ sym.Algorithm = SymAlgorithmSM4 ∨
      sym.Algorithm = SymAlgorithmCamellia)
    (c c' : Option Values) (so so' : Option Nat) (rr rr' : Bool) (suf : List Nat) :
    ∃ bs sv, marshalValue sessionDataT (sessionContextData.toValue d) c ⟨so, false, rr⟩ =
        .ok bs ∧
      unmarshalValue sessionDataT (zeroValue sessionDataT) c' ⟨so', false, rr'⟩ (bs ++ suf) =
        .ok (sv, suf) ∧
      sessionContextData.ofValue sv = some d := by
  obtain ⟨au, ex, hg, st, ph, bd, be, sk, nc, nt, symo⟩ := d
  simp only [sessionContextData.canonical, Bool.and_eq_true, decide_eq_true_eq] at hcan
  obtain ⟨⟨⟨⟨⟨⟨⟨hc1, hc2⟩, hc3⟩, hc4⟩, hc5⟩, hc6⟩, hc7⟩, hsymc⟩ := hcan
  rcases symo with _ | sym
  · exact absurd hsymc (by simp)
  have halg' := halg sym rfl
  obtain ⟨sbs, ssv, hms, hus, hofs⟩ := rt_symDef sym hsymc halg'
    (some (Values.cons (.num (boolByte au)) (.cons (.num (boolByte ex)) (.cons (.num hg)
      (.cons (.num st) (.cons (.num ph) (.cons (.num (boolByte bd)) (.cons (.bytes be)
        (.cons (.bytes sk) (.cons (.bytes nc) (.cons (.bytes nt)
          (.cons (.ptrV (SymDef.toValue sym)) .nil))))))))))))
    (some (Values.cons (.num (boolByte au)) (.cons (.num (boolByte ex)) (.cons (.num hg)
      (.cons (.num st) (.cons (.num ph) (.cons (.num (boolByte bd)) (.cons (.bytes be)
        (.cons (.bytes sk) (.cons (.bytes nc) (.cons (.bytes nt)
          (.cons .ptrN .nil))))))))))))
    none none false false suf
  refine ⟨encBE 1 (boolByte au) ++ (encBE 1 (boolByte ex) ++ (encBE 2 hg ++ (encBE 1 st ++
      (encBE 1 ph ++ (encBE 1 (boolByte bd) ++ ((encBE 2 be.length ++ be) ++
        ((encBE 2 sk.length ++ sk) ++ ((encBE 2 nc.length ++ nc) ++
          ((encBE 2 nt.length ++ nt) ++ (sbs ++ [])))))))))),
    .structV (.cons (.num (boolByte au)) (.cons (.num (boolByte ex)) (.cons (.num hg)
      (.cons (.num st) (.cons (.num ph) (.cons (.num (boolByte bd)) (.cons (.bytes be)
        (.cons (.bytes sk) (.cons (.bytes nc) (.cons (.bytes nt)
          (.cons (.ptrV ssv) .nil))))))))))), ?_, ?_, ?_⟩
  · have m10 : marshalValue (.ptr symDefT) (.ptrV (SymDef.toValue sym))
        (some (Values.cons (.num (boolByte au)) (.cons (.num (boolByte ex)) (.cons (.num hg)
          (.cons (.num st) (.cons (.num ph) (.cons (.num (boolByte bd)) (.cons (.bytes be)
            (.cons (.bytes sk) (.cons (.bytes nc) (.cons (.bytes nt)
              (.cons (.ptrV (SymDef.toValue sym)) .nil)))))))))))) optsNone = .ok sbs := hms
    exact marshalFields_fcons _ _ _ _ _ _ _ _ (marshalValue_prim 1 (boolByte au) _ none false)
      (marshalFields_fcons _ _ _ _ _ _ _ _ (marshalValue_prim 1 (boolByte ex) _ none false)
        (marshalFields_fcons _ _ _ _ _ _ _ _ (marshalValue_prim 2 hg _ none false)
          (marshalFields_fcons _ _ _ _ _ _ _ _ (marshalValue_prim 1 st _ none false)
            (marshalFields_fcons _ _ _ _ _ _ _ _ (marshalValue_prim 1 ph _ none false)
              (marshalFields_fcons _ _ _ _ _ _ _ _
                  (marshalValue_prim 1 (boolByte bd) _ none false)
                (marshalFields_fcons _ _ _ _ _ _ _ _ (marshalValue_buffer be _ none)
                  (marshalFields_fcons _ _ _ _ _ _ _ _ (marshalValue_buffer sk _ none)
                    (marshalFields_fcons _ _ _ _ _ _ _ _ (marshalValue_buffer nc _ none)
                      (marshalFields_fcons _ _ _ _ _ _ _ _ (marshalValue_buffer nt _ none)
                        (marshalFields_fcons _ _ _ _ _ _ _ _ m10
                          (marshalFields_fnil _ _)))))))))))
  · have hre : (encBE 1 (boolByte au) ++ (encBE 1 (boolByte ex) ++ (encBE 2 hg ++ (encBE 1 st ++
        (encBE 1 ph ++ (encBE 1 (boolByte bd) ++ ((encBE 2 be.length ++ be) ++
          ((encBE 2 sk.length ++ sk) ++ ((encBE 2 nc.length ++ nc) ++
            ((encBE 2 nt.length ++ nt) ++ (sbs ++ []))))))))))) ++ suf =
        encBE 1 (boolByte au) ++ (encBE 1 (boolByte ex) ++ (encBE 2 hg ++ (encBE 1 st ++
        (encBE 1 ph ++ (encBE 1 (boolByte bd) ++ ((encBE 2 be.length ++ be) ++
          ((encBE 2 sk.length ++ sk) ++ ((encBE 2 nc.length ++ nc) ++
            ((encBE 2 nt.length ++ nt) ++ (sbs ++ suf)))))))))) := by
      simp
    rw [hre]
    have u10 : unmarshalValue (.ptr symDefT) .ptrN
        (some (Values.cons (.num (boolByte au)) (.cons (.num (boolByte ex)) (.cons (.num hg)
          (.cons (.num st) (.cons (.num ph) (.cons (.num (boolByte bd)) (.cons (.bytes be)
            (.cons (.bytes sk) (.cons (.bytes nc) (.cons (.bytes nt)
              (.cons .ptrN .nil)))))))))))) optsNone (sbs ++ suf) = .ok (.ptrV ssv, suf) :=
      unmarshalValue_ptrN _ _ _ _ _ _ _ hus
    exact unmarshalValue_struct _ _ _ _ _ _ _ _
      (unmarshalFields_fcons _ _ _ _ _ _ _ _ _ _ _
        (unm_prim_enc 1 (boolByte au) _ _ none false _ (by have := boolByte_lt au; norm_num; omega))
        (unmarshalFields_fcons _ _ _ _ _ _ _ _ _ _ _
          (unm_prim_enc 1 (boolByte ex) _ _ none false _ (by have := boolByte_lt ex; norm_num; omega))
          (unmarshalFields_fcons _ _ _ _ _ _ _ _ _ _ _
            (unm_prim_enc 2 hg _ _ none false _ (by norm_num at hc1 ⊢; omega))
            (unmarshalFields_fcons _ _ _ _ _ _ _ _ _ _ _
              (unm_prim_enc 1 st _ _ none false _ (by norm_num at hc2 ⊢; omega))
              (unmarshalFields_fcons _ _ _ _ _ _ _ _ _ _ _
                (unm_prim_enc 1 ph _ _ none false _ (by norm_num at hc3 ⊢; omega))
                (unmarshalFields_fcons _ _ _ _ _ _ _ _ _ _ _
                  (unm_prim_enc 1 (boolByte bd) _ _ none false _
                    (by have := boolByte_lt bd; norm_num; omega))
                  (unmarshalFields_fcons _ _ _ _ _ _ _ _ _ _ _
                    (unm_buffer_enc be _ _ none _ hc4)
                    (unmarshalFields_fcons _ _ _ _ _ _ _ _ _ _ _
                      (unm_buffer_enc sk _ _ none _ hc5)
                      (unmarshalFields_fcons _ _ _ _ _ _ _ _ _ _ _
                        (unm_buffer_enc nc _ _ none _ hc6)
                        (unmarshalFields_fcons _ _ _ _ _ _ _ _ _ _ _
                          (unm_buffer_enc nt _ _ none _ hc7)
                          (unmarshalFields_fcons _ _ _ _ _ _ _ _ _ _ _ u10
                            (unmarshalFields_fnil _ _ _))))))))))))
  · have e1 : sessionContextData.ofValue
        (.structV (.cons (.num (boolByte au)) (.cons (.num (boolByte ex)) (.cons (.num hg)
          (.cons (.num st) (.cons (.num ph) (.cons (.num (boolByte bd)) (.cons (.bytes be)
            (.cons (.bytes sk) (.cons (.bytes nc) (.cons (.bytes nt)
              (.cons (.ptrV ssv) .nil)))))))))))) =
        (SymDef.ofValue ssv >>= fun s =>
          some ⟨boolOfByte (boolByte au), boolOfByte (boolByte ex), hg, st, ph,
            boolOfByte (boolByte bd), be, sk, nc, nt, some s⟩) := rfl
    rw [e1, hofs]
    show some (⟨boolOfByte (boolByte au), boolOfByte (boolByte ex), hg, st, ph,
      boolOfByte (boolByte bd), be, sk, nc, nt, some sym⟩ : sessionContextData) = _
    simp [boolOfByte_boolByte]

theorem rt_handleContext (h : handleContext)
    (hvariant :
      (h.Type' = handleContextTypeObject ∧ ∃ p, h.Data = some (.object (some p))) ∨
      (h.Type' = handleContextTypeNvIndex ∧ ∃ p, h.Data = some (.nv (some p))) ∨
      (h.Type' = handleContextTypeSession ∧ ∃ d, h.Data = some (.session (some d))))
    (hcan : h.canonical = true)
    (halg : ∀ (d : sessionContextData) (sym : SymDef),
      h.Data = some (.session (some d)) → d.Symmetric = some sym →
      sym.Algorithm = SymAlgorithmAES ∨ sym.Algorithm = SymAlgorithmXOR ∨
      sym.Algorithm = SymAlgorithmNull ∨ sym.Algorithm = SymAlgorithmSM4 ∨
      sym.Algorithm = SymAlgorithmCamellia)
    (c c' : Option Values) (so so' : Option Nat) (rr rr' : Bool) (suf : List Nat) :
    ∃ bs sv, marshalValue handleContextT (handleContext.toValue h) c ⟨so, false, rr⟩ = .ok bs ∧
      unmarshalValue handleContextT (zeroValue handleContextT) c' ⟨so', false, rr'⟩ (bs ++ suf) =
        .ok (sv, suf) ∧
      handleContext.ofValue sv = some h := by
  obtain ⟨ty, hh, n, dato⟩ := h
  simp only [handleContext.canonical, Bool.and_eq_true, decide_eq_true_eq] at hcan
  obtain ⟨⟨⟨hty, hH⟩, hN⟩, hdat⟩ := hcan
  rcases hvariant with ⟨htyEq, p, hdEq⟩ | ⟨htyEq, p, hdEq⟩ | ⟨htyEq, d, hdEq⟩ <;>
    simp only at htyEq hdEq <;> subst htyEq <;> subst hdEq
  · -- object context
    have hpc : p.canonical = true := hdat
    obtain ⟨pbs, pv, hmp, hup, hofp⟩ := rt_public p hpc none none none none false false suf
    refine ⟨encBE 1 handleContextTypeObject ++ (encBE 4 hh ++ ((encBE 2 n.length ++ n) ++
        (pbs ++ []))),
      .structV (.cons (.num handleContextTypeObject) (.cons (.num hh) (.cons (.bytes n)
        (.cons (.ptrV (.unionV (.ptrV pv))) .nil)))), ?_, ?_, ?_⟩
    · have m3 : marshalValue (.ptr (.union handleContextVariants))
          (.ptrV (.unionV (.ptrV (Public.toValue p))))
          (some (Values.cons (.num handleContextTypeObject) (.cons (.num hh) (.cons (.bytes n)
            (.cons (.ptrV (.unionV (.ptrV (Public.toValue p)))) .nil)))))
          ⟨some 0, false, false⟩ = .ok pbs := by
        have e1 : marshalValue (.ptr (.union handleContextVariants))
            (.ptrV (.unionV (.ptrV (Public.toValue p))))
            (some (Values.cons (.num handleContextTypeObject) (.cons (.num hh) (.cons (.bytes n)
              (.cons (.ptrV (.unionV (.ptrV (Public.toValue p)))) .nil)))))
            ⟨some 0, false, false⟩ =
            marshalUnion handleContextVariants handleContextTypeObject
              (.unionV (.ptrV (Public.toValue p))) := by
          rw [marshalValue_ptrV]
          exact marshalValue_union _ _ _ _ _ handleContextTypeObject rfl
        have e2 : marshalUnion handleContextVariants handleContextTypeObject
            (.unionV (.ptrV (Public.toValue p))) =
            marshalValue publicT (Public.toValue p) none optsNone := rfl
        rw [e1, e2]
        exact hmp
      exact marshalFields_fcons _ _ _ _ _ _ _ _
        (marshalValue_prim 1 handleContextTypeObject _ none false)
        (marshalFields_fcons _ _ _ _ _ _ _ _ (marshalValue_prim 4 hh _ none false)
          (marshalFields_fcons _ _ _ _ _ _ _ _ (marshalValue_buffer n _ none)
            (marshalFields_fcons _ _ _ _ _ _ _ _ m3
              (marshalFields_fnil _ _))))
    · have hre : (encBE 1 handleContextTypeObject ++ (encBE 4 hh ++ ((encBE 2 n.length ++ n) ++
          (pbs ++ [])))) ++ suf =
          encBE 1 handleContextTypeObject ++ (encBE 4 hh ++ ((encBE 2 n.length ++ n) ++
          (pbs ++ suf))) := by
        simp
      rw [hre]
      have u3 : unmarshalValue (.ptr (.union handleContextVariants)) .ptrN
          (some (Values.cons (.num handleContextTypeObject) (.cons (.num hh) (.cons (.bytes n)
            (.cons .ptrN .nil))))) ⟨some 0, false, false⟩ (pbs ++ suf) =
          .ok (.ptrV (.unionV (.ptrV pv)), suf) := by
        refine unmarshalValue_ptrN _ _ _ _ _ _ _ ?_
        have e1 : unmarshalValue (.union handleContextVariants) (.unionN : Value)
            (some (Values.cons (.num handleContextTypeObject) (.cons (.num hh) (.cons (.bytes n)
              (.cons .ptrN .nil))))) ⟨some 0, false, false⟩ (pbs ++ suf) =
            unmarshalUnion handleContextVariants handleContextTypeObject .unionN (pbs ++ suf) :=
          unmarshalValue_union _ _ _ _ _ _ handleContextTypeObject rfl
        have e2 : unmarshalUnion handleContextVariants handleContextTypeObject .unionN
            (pbs ++ suf) =
            (unmarshalValue (.ptr publicT) .ptrN none optsNone (pbs ++ suf) >>= fun q =>
              match q with | (v, r) => pure (.unionV v, r)) := rfl
        have e3 : unmarshalValue (.ptr publicT) .ptrN none optsNone (pbs ++ suf) =
            .ok (.ptrV pv, suf) := unmarshalValue_ptrN _ _ _ _ _ _ _ hup
        show unmarshalValue (.union handleContextVariants) (.unionN : Value)
            (some (Values.cons (.num handleContextTypeObject) (.cons (.num hh) (.cons (.bytes n)
              (.cons .ptrN .nil))))) ⟨some 0, false, false⟩ (pbs ++ suf) =
            .ok (.unionV (.ptrV pv), suf)
        rw [e1, e2, e3]
        rfl
      exact unmarshalValue_struct _ _ _ _ _ _ _ _
        (unmarshalFields_fcons _ _ _ _ _ _ _ _ _ _ _
          (unm_prim_enc 1 handleContextTypeObject _ _ none false _ (by decide))
          (unmarshalFields_fcons _ _ _ _ _ _ _ _ _ _ _
            (unm_prim_enc 4 hh _ _ none false _ (by norm_num at hH ⊢; omega))
            (unmarshalFields_fcons _ _ _ _ _ _ _ _ _ _ _
              (unm_buffer_enc n _ _ none _ hN)
              (unmarshalFields_fcons _ _ _ _ _ _ _ _ _ _ _ u3
                (unmarshalFields_fnil _ _ _)))))
    · have e1 : handleContext.ofValue
          (.structV (.cons (.num handleContextTypeObject) (.cons (.num hh) (.cons (.bytes n)
            (.cons (.ptrV (.unionV (.ptrV pv))) .nil))))) =
          ((Public.ofValue pv).map (fun q => some (handleContextData.object (some q))) >>=
            fun dd => some ⟨handleContextTypeObject, hh, n, dd⟩) := rfl
      rw [e1, hofp]
      rfl
  · -- NV index context
    have hpc : p.canonical = true := hdat
    obtain ⟨pbs, pv, hmp, hup, hofp⟩ := rt_nvpublic p hpc none none none none false false suf
    refine ⟨encBE 1 handleContextTypeNvIndex ++ (encBE 4 hh ++ ((encBE 2 n.length ++ n) ++
        (pbs ++ []))),
      .structV (.cons (.num handleContextTypeNvIndex) (.cons (.num hh) (.cons (.bytes n)
        (.cons (.ptrV (.unionV (.ptrV pv))) .nil)))), ?_, ?_, ?_⟩
    · have m3 : marshalValue (.ptr (.union handleContextVariants))
          (.ptrV (.unionV (.ptrV (NVPublic.toValue p))))
          (some (Values.cons (.num handleContextTypeNvIndex) (.cons (.num hh) (.cons (.bytes n)
            (.cons (.ptrV (.unionV (.ptrV (NVPublic.toValue p)))) .nil)))))
          ⟨some 0, false, false⟩ = .ok pbs := by
        have e1 : marshalValue (.ptr (.union handleContextVariants))
            (.ptrV (.unionV (.ptrV (NVPublic.toValue p))))
            (some (Values.cons (.num handleContextTypeNvIndex) (.cons (.num hh) (.cons (.bytes n)
              (.cons (.ptrV (.unionV (.ptrV (NVPublic.toValue p)))) .nil)))))
            ⟨some 0, false, false⟩ =
            marshalUnion handleContextVariants handleContextTypeNvIndex
              (.unionV (.ptrV (NVPublic.toValue p))) := by
          rw [marshalValue_ptrV]
          exact marshalValue_union _ _ _ _ _ handleContextTypeNvIndex rfl
        have e2 : marshalUnion handleContextVariants handleContextTypeNvIndex
            (.unionV (.ptrV (NVPublic.toValue p))) =
            marshalValue nvPublicT (NVPublic.toValue p) none optsNone := rfl
        rw [e1, e2]
        exact hmp
      exact marshalFields_fcons _ _ _ _ _ _ _ _
        (marshalValue_prim 1 handleContextTypeNvIndex _ none false)
        (marshalFields_fcons _ _ _ _ _ _ _ _ (marshalValue_prim 4 hh _ none false)
          (marshalFields_fcons _ _ _ _ _ _ _ _ (marshalValue_buffer n _ none)
            (marshalFields_fcons _ _ _ _ _ _ _ _ m3
              (marshalFields_fnil _ _))))
    · have hre : (encBE 1 handleContextTypeNvIndex ++ (encBE 4 hh ++ ((encBE 2 n.length ++ n) ++
          (pbs ++ [])))) ++ suf =
          encBE 1 handleContextTypeNvIndex ++ (encBE 4 hh ++ ((encBE 2 n.length ++ n) ++
          (pbs ++ suf))) := by
        simp
      rw [hre]
      have u3 : unmarshalValue (.ptr (.union handleContextVariants)) .ptrN
          (some (Values.cons (.num handleContextTypeNvIndex) (.cons (.num hh) (.cons (.bytes n)
            (.cons .ptrN .nil))))) ⟨some 0, false, false⟩ (pbs ++ suf) =
          .ok (.ptrV (.unionV (.ptrV pv)), suf) := by
        refine unmarshalValue_ptrN _ _ _ _ _ _ _ ?_
        have e1 : unmarshalValue (.union handleContextVariants) (.unionN : Value)
            (some (Values.cons (.num handleContextTypeNvIndex) (.cons (.num hh) (.cons (.bytes n)
              (.cons .ptrN .nil))))) ⟨some 0, false, false⟩ (pbs ++ suf) =
            unmarshalUnion handleContextVariants handleContextTypeNvIndex .unionN (pbs ++ suf) :=
          unmarshalValue_union _ _ _ _ _ _ handleContextTypeNvIndex rfl
        have e2 : unmarshalUnion handleContextVariants handleContextTypeNvIndex .unionN
            (pbs ++ suf) =
            (unmarshalValue (.ptr nvPublicT) .ptrN none optsNone (pbs ++ suf) >>= fun q =>
              match q with | (v, r) => pure (.unionV v, r)) := rfl
        have e3 : unmarshalValue (.ptr nvPublicT) .ptrN none optsNone (pbs ++ suf) =
            .ok (.ptrV pv, suf) := unmarshalValue_ptrN _ _ _ _ _ _ _ hup
        show unmarshalValue (.union handleContextVariants) (.unionN : Value)
            (some (Values.cons (.num handleContextTypeNvIndex) (.cons (.num hh) (.cons (.bytes n)
              (.cons .ptrN .nil))))) ⟨some 0, false, false⟩ (pbs ++ suf) =
            .ok (.unionV (.ptrV pv), suf)
        rw [e1, e2, e3]
        rfl
      exact unmarshalValue_struct _ _ _ _ _ _ _ _
        (unmarshalFields_fcons _ _ _ _ _ _ _ _ _ _ _
          (unm_prim_enc 1 handleContextTypeNvIndex _ _ none false _ (by decide))
          (unmarshalFields_fcons _ _ _ _ _ _ _ _ _ _ _
            (unm_prim_enc 4 hh _ _ none false _ (by norm_num at hH ⊢; omega))
            (unmarshalFields_fcons _ _ _ _ _ _ _ _ _ _ _
              (unm_buffer_enc n _ _ none _ hN)
              (unmarshalFields_fcons _ _ _ _ _ _ _ _ _ _ _ u3
                (unmarshalFields_fnil _ _ _)))))
    · have e1 : handleContext.ofValue
          (.structV (.cons (.num handleContextTypeNvIndex) (.cons (.num hh) (.cons (.bytes n)
            (.cons (.ptrV (.unionV (.ptrV pv))) .nil))))) =
          ((NVPublic.ofValue pv).map (fun q => some (handleContextData.nv (some q))) >>=
            fun dd => some ⟨handleContextTypeNvIndex, hh, n, dd⟩) := rfl
      rw [e1, hofp]
      rfl
  · -- session context
    have hdc : d.canonical = true := hdat
    have halg' : ∀ sym : SymDef, d.Symmetric = some sym →
        sym.Algorithm = SymAlgorithmAES ∨ sym.Algorithm = SymAlgorithmXOR ∨
        sym.Algorithm = SymAlgorithmNull ∨ sym.Algorithm = SymAlgorithmSM4 ∨
        sym.Algorithm = SymAlgorithmCamellia := fun sym hs => halg d sym rfl hs
    obtain ⟨dbs, dv, hmd, hud, hofd⟩ := rt_sessionData d hdc halg' none none none none false false suf
    refine ⟨encBE 1 handleContextTypeSession ++ (encBE 4 hh ++ ((encBE 2 n.length ++ n) ++
        (dbs ++ []))),
      .structV (.cons (.num handleContextTypeSession) (.cons (.num hh) (.cons (.bytes n)
        (.cons (.ptrV (.unionV (.ptrV dv))) .nil)))), ?_, ?_, ?_⟩
    · have m3 : marshalValue (.ptr (.union handleContextVariants))
          (.ptrV (.unionV (.ptrV (sessionContextData.toValue d))))
          (some (Values.cons (.num handleContextTypeSession) (.cons (.num hh) (.cons (.bytes n)
            (.cons (.ptrV (.unionV (.ptrV (sessionContextData.toValue d)))) .nil)))))
          ⟨some 0, false, false⟩ = .ok dbs := by
        have e1 : marshalValue (.ptr (.union handleContextVariants))
            (.ptrV (.unionV (.ptrV (sessionContextData.toValue d))))
            (some (Values.cons (.num handleContextTypeSession) (.cons (.num hh) (.cons (.bytes n)
              (.cons (.ptrV (.unionV (.ptrV (sessionContextData.toValue d)))) .nil)))))
            ⟨some 0, false, false⟩ =
            marshalUnion handleContextVariants handleContextTypeSession
              (.unionV (.ptrV (sessionContextData.toValue d))) := by
          rw [marshalValue_ptrV]
          exact marshalValue_union _ _ _ _ _ handleContextTypeSession rfl
        have e2 : marshalUnion handleContextVariants handleContextTypeSession
            (.unionV (.ptrV (sessionContextData.toValue d))) =
            marshalValue sessionDataT (sessionContextData.toValue d) none optsNone := rfl
        rw [e1, e2]
        exact hmd
      exact marshalFields_fcons _ _ _ _ _ _ _ _
        (marshalValue_prim 1 handleContextTypeSession _ none false)
        (marshalFields_fcons _ _ _ _ _ _ _ _ (marshalValue_prim 4 hh _ none false)
          (marshalFields_fcons _ _ _ _ _ _ _ _ (marshalValue_buffer n _ none)
            (marshalFields_fcons _ _ _ _ _ _ _ _ m3
              (marshalFields_fnil _ _))))
    · have hre : (encBE 1 handleContextTypeSession ++ (encBE 4 hh ++ ((encBE 2 n.length ++ n) ++
          (dbs ++ [])))) ++ suf =
          encBE 1 handleContextTypeSession ++ (encBE 4 hh ++ ((encBE 2 n.length ++ n) ++
          (dbs ++ suf))) := by
        simp
      rw [hre]
      have u3 : unmarshalValue (.ptr (.union handleContextVariants)) .ptrN
          (some (Values.cons (.num handleContextTypeSession) (.cons (.num hh) (.cons (.bytes n)
            (.cons .ptrN .nil))))) ⟨some 0, false, false⟩ (dbs ++ suf) =
          .ok (.ptrV (.unionV (.ptrV dv)), suf) := by
        refine unmarshalValue_ptrN _ _ _ _ _ _ _ ?_
        have e1 : unmarshalValue (.union handleContextVariants) (.unionN : Value)
            (some (Values.cons (.num handleContextTypeSession) (.cons (.num hh) (.cons (.bytes n)
              (.cons .ptrN .nil))))) ⟨some 0, false, false⟩ (dbs ++ suf) =
            unmarshalUnion handleContextVariants handleContextTypeSession .unionN (dbs ++ suf) :=
          unmarshalValue_union _ _ _ _ _ _ handleContextTypeSession rfl
        have e2 : unmarshalUnion handleContextVariants handleContextTypeSession .unionN
            (dbs ++ suf) =
            (unmarshalValue (.ptr sessionDataT) .ptrN none optsNone (dbs ++ suf) >>= fun q =>
              match q with | (v, r) => pure (.unionV v, r)) := rfl
        have e3 : unmarshalValue (.ptr sessionDataT) .ptrN none optsNone (dbs ++ suf) =
            .ok (.ptrV dv, suf) := unmarshalValue_ptrN _ _ _ _ _ _ _ hud
        show unmarshalValue (.union handleContextVariants) (.unionN : Value)
            (some (Values.cons (.num handleContextTypeSession) (.cons (.num hh) (.cons (.bytes n)
              (.cons .ptrN .nil))))) ⟨some 0, false, false⟩ (dbs ++ suf) =
            .ok (.unionV (.ptrV dv), suf)
        rw [e1, e2, e3]
        rfl
      exact unmarshalValue_struct _ _ _ _ _ _ _ _
        (unmarshalFields_fcons _ _ _ _ _ _ _ _ _ _ _
          (unm_prim_enc 1 handleContextTypeSession _ _ none false _ (by decide))
          (unmarshalFields_fcons _ _ _ _ _ _ _ _ _ _ _
            (unm_prim_enc 4 hh _ _ none false _ (by norm_num at hH ⊢; omega))
            (unmarshalFields_fcons _ _ _ _ _ _ _ _ _ _ _
              (unm_buffer_enc n _ _ none _ hN)
              (unmarshalFields_fcons _ _ _ _ _ _ _ _ _ _ _ u3
                (unmarshalFields_fnil _ _ _)))))
    · have e1 : handleContext.ofValue
          (.structV (.cons (.num handleContextTypeSession) (.cons (.num hh) (.cons (.bytes n)
            (.cons (.ptrV (.unionV (.ptrV dv))) .nil))))) =
          ((sessionContextData.ofValue dv).map
              (fun q => some (handleContextData.session (some q))) >>=
            fun dd => some ⟨handleContextTypeSession, hh, n, dd⟩) := rfl
      rw [e1, hofd]
      rfl

theorem sym_algs_of_checkConsistency_ok (h : handleContext) (d : sessionContextData)
    (sym : SymDef) (hty : h.Type' = handleContextTypeSession)
    (hdata : h.Data = some (.session (some d))) (hs : d.Symmetric = some sym)
    (hok : checkConsistency h = .ok) :
    sym.Algorithm = SymAlgorithmAES ∨ sym.Algorithm = SymAlgorithmXOR ∨
    sym.Algorithm = SymAlgorithmNull ∨ sym.Algorithm = SymAlgorithmSM4 ∨
    sym.Algorithm = SymAlgorithmCamellia := by
  obtain ⟨ty, hh, n, data⟩ := h
  simp only at hty hdata
  subst hty
  subst hdata
  rw [checkConsistency_session_eq] at hok
  unfold checkConsistencySessionChain at hok
  by_cases h1 : ¬(handleType hh = HandleTypeHMACSession ∨ handleType hh = HandleTypePolicySession)
  · rw [if_pos h1] at hok
    exact CheckResult.noConfusion hok
  rw [if_neg h1] at hok
  by_cases h2 : ¬(nameIsHandle n = true ∧ nameHandle n = hh)
  · rw [if_pos h2] at hok
    exact CheckResult.noConfusion hok
  rw [if_neg h2] at hok
  by_cases h3 : ¬(d.IsAudit = true) ∧ d.IsExclusive = true
  · rw [if_pos h3] at hok
    exact CheckResult.noConfusion hok
  rw [if_neg h3] at hok
  by_cases h4 : ¬(hashAlgSupported d.HashAlg = true)
  · rw [if_pos h4] at hok
    exact CheckResult.noConfusion hok
  rw [if_neg h4] at hok
  by_cases h5 : ¬(d.SessionType = SessionTypeHMAC ∨ d.SessionType = SessionTypePolicy ∨
      d.SessionType = SessionTypeTrial)
  · rw [if_pos h5] at hok
    exact CheckResult.noConfusion hok
  rw [if_neg h5] at hok
  by_cases h6 : d.PolicyHMACType > policyHMACTypeMax
  · rw [if_pos h6] at hok
    exact CheckResult.noConfusion hok
  rw [if_neg h6] at hok
  by_cases h7 : (d.IsBound = true ∧ d.BoundEntity.length = 0) ∨
      (¬(d.IsBound = true) ∧ d.BoundEntity.length > 0)
  · rw [if_pos h7] at hok
    exact CheckResult.noConfusion hok
  rw [if_neg h7] at hok
  by_cases h8 : d.SessionKey.length ≠ hashAlgSize d.HashAlg ∧ d.SessionKey.length ≠ 0
  · rw [if_pos h8] at hok
    exact CheckResult.noConfusion hok
  rw [if_neg h8] at hok
  by_cases h9 : d.NonceCaller.length ≠ hashAlgSize d.HashAlg ∨
      d.NonceTPM.length ≠ hashAlgSize d.HashAlg
  · rw [if_pos h9] at hok
    exact CheckResult.noConfusion hok
  rw [if_neg h9] at hok
  rw [hs] at hok
  have hok2 : (if ¬(sym.Algorithm = SymAlgorithmAES ∨ sym.Algorithm = SymAlgorithmXOR ∨
        sym.Algorithm = SymAlgorithmNull ∨ sym.Algorithm = SymAlgorithmSM4 ∨
        sym.Algorithm = SymAlgorithmCamellia) then
      (CheckResult.errRes "invalid symmetric algorithm for session context")
    else if sym.Algorithm = SymAlgorithmAES ∨ sym.Algorithm = SymAlgorithmSM4 ∨
        sym.Algorithm = SymAlgorithmCamellia then
      match sym.Mode with
      | none => CheckResult.panicked
      | some m =>
        if m ≠ SymModeCFB then CheckResult.errRes "invalid symmetric mode for session context"
        else CheckResult.ok
    else CheckResult.ok) = CheckResult.ok := hok
  by_cases hA : sym.Algorithm = SymAlgorithmAES ∨ sym.Algorithm = SymAlgorithmXOR ∨
      sym.Algorithm = SymAlgorithmNull ∨ sym.Algorithm = SymAlgorithmSM4 ∨
      sym.Algorithm = SymAlgorithmCamellia
  · exact hA
  · rw [if_pos hA] at hok2
    exact CheckResult.noConfusion hok2

theorem except_bind_ok {α β : Type} (a : α) (f : α → Except MuErr β) :
    (Except.ok a >>= f) = f a := rfl

theorem SerializeToBytes_eq (h : handleContext) (data : List Nat)
    (hm : MarshalToBytes [(handleContextT, handleContext.toValue h)] = .ok data) :
    SerializeToBytes h = MarshalToBytes
      [(.prim 2, .num HashAlgorithmSHA256), (.buffer, .bytes (sha256 data)),
        (.buffer, .bytes data)] := by
  have e : SerializeToBytes h =
      (MarshalToBytes [(handleContextT, handleContext.toValue h)] >>= fun data =>
        MarshalToBytes [(.prim 2, .num HashAlgorithmSHA256), (.buffer, .bytes (sha256 data)),
          (.buffer, .bytes data)]) := rfl
  rw [e, hm, except_bind_ok]

theorem CreateHandleContextFromBytes_eq (b : List Nat) (alg : Nat)
    (integ body rest : List Nat)
    (hu : UnmarshalFromReader [(.prim 2, .num 0), (.buffer, .bytes []), (.buffer, .bytes [])] b =
      .ok ([.num alg, .bytes integ, .bytes body], rest)) :
    CreateHandleContextFromBytes b =
      (if ¬hashAlgSupported alg then some (.error .invalidChecksumAlg)
       else if digestOf alg body ≠ integ then some (.error .invalidChecksum)
       else
        match UnmarshalFromBytes [(.ptr handleContextT, .ptrN)] body with
        | .error e => some (.error (.unmarshalFailed e))
        | .ok (n, [v]) =>
          if n < body.length then some (.error .trailingBytes)
          else
            match v with
            | .ptrV sv =>
              match handleContext.ofValue sv with
              | none => some (.error .shapeError)
              | some hc =>
                if hc.Type' = handleContextTypePermanent then some (.error .permanentContext)
                else
                  match checkConsistency hc with
                  | .panicked => none
                  | .errRes m => some (.error (.inconsistentContext m))
                  | .ok =>
                    if hc.Type' = handleContextTypeObject ∨ hc.Type' = handleContextTypeNvIndex ∨
                        hc.Type' = handleContextTypeSession then
                      some (.ok (hc, []))
                    else none
            | _ => some (.error .shapeError)
        | .ok (_, _) => some (.error .shapeError)) := by
  have e : CreateHandleContextFromBytes b =
      (match UnmarshalFromReader [(.prim 2, .num 0), (.buffer, .bytes []), (.buffer, .bytes [])]
          b with
       | .error e => some (.error (.unpackFailed e))
       | .ok ([.num integrityAlg, .bytes integrity, .bytes body], _) =>
         if ¬hashAlgSupported integrityAlg then some (.error .invalidChecksumAlg)
         else if digestOf integrityAlg body ≠ integrity then some (.error .invalidChecksum)
         else
           match UnmarshalFromBytes [(.ptr handleContextT, .ptrN)] body with
           | .error e => some (.error (.unmarshalFailed e))
           | .ok (n, [v]) =>
             if n < body.length then some (.error .trailingBytes)
             else
               match v with
               | .ptrV sv =>
                 match handleContext.ofValue sv with
                 | none => some (.error .shapeError)
                 | some hc =>
                   if hc.Type' = handleContextTypePermanent then some (.error .permanentContext)
                   else
                     match checkConsistency hc with
                     | .panicked => none
                     | .errRes m => some (.error (.inconsistentContext m))
                     | .ok =>
                       if hc.Type' = handleContextTypeObject ∨
                           hc.Type' = handleContextTypeNvIndex ∨
                           hc.Type' = handleContextTypeSession then
                         some (.ok (hc, []))
                       else none
               | _ => some (.error .shapeError)
           | .ok (_, _) => some (.error .shapeError)
       | .ok (_, _) => some (.error .shapeError)) := rfl
  rw [e, hu]

/-! ## C2: the serialize/restore round trip -/

/-- C2 (amended): for every object, NV-index or session handle context in
the canonical allocated form, passing the registry consistency checks, and
whose marshalled body fits a `u16` length prefix, `SerializeToBytes`
produces `algId || digest || body` (each of the digest and the body behind
a `u16` length, with the authorization value nowhere an input) and
restoring that blob succeeds and returns the identical context together
with an empty authorization value. -/
theorem claim_C2_roundtrip_canonical (h : handleContext)
    (hvariant :
      (h.Type' = handleContextTypeObject ∧ ∃ p, h.Data = some (.object (some p))) ∨
      (h.Type' = handleContextTypeNvIndex ∧ ∃ p, h.Data = some (.nv (some p))) ∨
      (h.Type' = handleContextTypeSession ∧ ∃ d, h.Data = some (.session (some d))))
    (hcan : h.canonical = true)
    (hok : checkConsistency h = .ok)
    (hlen : ∀ data, MarshalToBytes [(handleContextT, handleContext.toValue h)] = .ok data →
      data.length < 65536) :
    ∃ data bs, MarshalToBytes [(handleContextT, handleContext.toValue h)] = .ok data ∧
      SerializeToBytes h = .ok bs ∧
      bs = encBE 2 HashAlgorithmSHA256 ++ ((encBE 2 (sha256 data).length ++ sha256 data) ++
        ((encBE 2 data.length ++ data) ++ [])) ∧
      CreateHandleContextFromBytes bs = some (.ok (h, [])) := by
  have halg : ∀ (d : sessionContextData) (sym : SymDef),
      h.Data = some (.session (some d)) → d.Symmetric = some sym →
      sym.Algorithm = SymAlgorithmAES ∨ sym.Algorithm = SymAlgorithmXOR ∨
      sym.Algorithm = SymAlgorithmNull ∨ sym.Algorithm = SymAlgorithmSM4 ∨
      sym.Algorithm = SymAlgorithmCamellia := by
    intro d sym hd hs
    rcases hvariant with ⟨hty, p, hdd⟩ | ⟨hty, p, hdd⟩ | ⟨hty, d', hdd⟩
    · rw [hd] at hdd
      exact absurd hdd (by simp)
    · rw [hd] at hdd
      exact absurd hdd (by simp)
    · exact sym_algs_of_checkConsistency_ok h d sym hty hd hs hok
  have hTyNe : h.Type' ≠ handleContextTypePermanent := by
    rcases hvariant with ⟨hty, _, _⟩ | ⟨hty, _, _⟩ | ⟨hty, _, _⟩ <;> rw [hty] <;> decide
  have hTy3 : h.Type' = handleContextTypeObject ∨ h.Type' = handleContextTypeNvIndex ∨
      h.Type' = handleContextTypeSession := by
    rcases hvariant with ⟨hty, _, _⟩ | ⟨hty, _, _⟩ | ⟨hty, _, _⟩
    · exact Or.inl hty
    · exact Or.inr (Or.inl hty)
    · exact Or.inr (Or.inr hty)
  obtain ⟨bs0, sv, hm0, hu0, hof⟩ :=
    rt_handleContext h hvariant hcan halg none none none none false false []
  have hdata : MarshalToBytes [(handleContextT, handleContext.toValue h)] = .ok (bs0 ++ []) :=
    MarshalToBytes_cons _ _ _ _ _ hm0 MarshalToBytes_nil
  have hdlen : (bs0 ++ []).length < 65536 := hlen _ hdata
  have hdig : (sha256 (bs0 ++ [])).length = 32 := sha256_length _
  have hser : SerializeToBytes h = .ok (encBE 2 HashAlgorithmSHA256 ++
      ((encBE 2 (sha256 (bs0 ++ [])).length ++ sha256 (bs0 ++ [])) ++
        ((encBE 2 (bs0 ++ []).length ++ (bs0 ++ [])) ++ []))) := by
    rw [SerializeToBytes_eq h _ hdata]
    exact MarshalToBytes_cons _ _ _ _ _ (marshalValue_prim 2 HashAlgorithmSHA256 none none false)
      (MarshalToBytes_cons _ _ _ _ _ (marshalValue_buffer (sha256 (bs0 ++ [])) none none)
        (MarshalToBytes_cons _ _ _ _ _ (marshalValue_buffer (bs0 ++ []) none none)
          MarshalToBytes_nil))
  have hour : UnmarshalFromReader [(.prim 2, .num 0), (.buffer, .bytes []), (.buffer, .bytes [])]
      (encBE 2 HashAlgorithmSHA256 ++
        ((encBE 2 (sha256 (bs0 ++ [])).length ++ sha256 (bs0 ++ [])) ++
          ((encBE 2 (bs0 ++ []).length ++ (bs0 ++ [])) ++ []))) =
      .ok ([.num HashAlgorithmSHA256, .bytes (sha256 (bs0 ++ [])), .bytes (bs0 ++ [])], []) :=
    UnmarshalFromReader_cons _ _ _ _ _ _ _ _
      (unm_prim_enc 2 HashAlgorithmSHA256 _ _ none false _ (by decide))
      (UnmarshalFromReader_cons _ _ _ _ _ _ _ _
        (unm_buffer_enc (sha256 (bs0 ++ [])) _ _ none _ (by rw [hdig]; omega))
        (UnmarshalFromReader_cons _ _ _ _ _ _ _ _
          (unm_buffer_enc (bs0 ++ []) _ _ none _ hdlen)
          (UnmarshalFromReader_nil [])))
  have hinner : UnmarshalFromBytes [(.ptr handleContextT, .ptrN)] (bs0 ++ []) =
      .ok ((bs0 ++ []).length, [.ptrV sv]) := by
    have hr : UnmarshalFromReader [(.ptr handleContextT, .ptrN)] (bs0 ++ []) =
        .ok ([.ptrV sv], []) :=
      UnmarshalFromReader_cons _ _ _ _ _ _ _ _
        (unmarshalValue_ptrN _ _ _ _ _ _ _ hu0) (UnmarshalFromReader_nil [])
    have e : UnmarshalFromBytes [(.ptr handleContextT, .ptrN)] (bs0 ++ []) =
        (match UnmarshalFromReader [(.ptr handleContextT, .ptrN)] (bs0 ++ []) with
         | .error e => .error e
         | .ok (vs, rest) => .ok ((bs0 ++ []).length - rest.length, vs)) := rfl
    rw [e, hr]
    simp
  refine ⟨bs0 ++ [], _, hdata, hser, rfl, ?_⟩
  rw [CreateHandleContextFromBytes_eq _ _ _ _ _ hour]
  rw [if_neg (by decide : ¬¬(hashAlgSupported HashAlgorithmSHA256 = true))]
  rw [if_neg (by rw [digestOf_sha256]; simp : ¬(digestOf HashAlgorithmSHA256 (bs0 ++ []) ≠
    sha256 (bs0 ++ [])))]
  rw [hinner]
  simp only [lt_irrefl, if_false, hof, hok]
  rw [if_neg hTyNe, if_pos hTy3]

theorem claim_C2_roundtrip_canonical_witness :
    ∃ data bs,
      MarshalToBytes [(handleContextT, handleContext.toValue wSessionCtx)] = .ok data ∧
      SerializeToBytes wSessionCtx = .ok bs ∧
      bs = encBE 2 HashAlgorithmSHA256 ++ ((encBE 2 (sha256 data).length ++ sha256 data) ++
        ((encBE 2 data.length ++ data) ++ [])) ∧
      CreateHandleContextFromBytes bs = some (.ok (wSessionCtx, [])) :=
  claim_C2_roundtrip_canonical wSessionCtx
    (Or.inr (Or.inr ⟨rfl, wSessionData, rfl⟩))
    (by decide) (by decide)
    (fun data hdata => by
      have key : (match MarshalToBytes [(handleContextT, handleContext.toValue wSessionCtx)] with
          | .ok l => decide (l.length < 65536)
          | .error _ => true) = true := by decide
      rw [hdata] at key
      simpa using key)

/-- C2 counterexample: `kbCtx` is a session context that passes the
registry consistency checks, yet restoring its serialized form yields a
context whose symmetric key-bits payload differs (`some 0` instead of
`some 5`): the union does not marshal a payload under the null selector,
so the round trip is not the identity on every consistent context. -/
theorem claim_C2_counterexample :
    checkConsistency kbCtx = .ok ∧
    SerializeToBytes kbCtx = .ok kbBlob ∧
    CreateHandleContextFromBytes kbBlob = some (.ok (kbRestoredCtx, [])) ∧
    kbRestoredCtx ≠ kbCtx :=
  ⟨by decide, by decide, by decide, by decide⟩

/-! ## C3: the error conditions of restore -/

theorem restore_err_invalidAlg (b : List Nat) (alg : Nat) (integ body rest : List Nat)
    (hu : UnmarshalFromReader [(.prim 2, .num 0), (.buffer, .bytes []), (.buffer, .bytes [])] b =
      .ok ([.num alg, .bytes integ, .bytes body], rest))
    (hunsup : hashAlgSupported alg = false) :
    CreateHandleContextFromBytes b = some (.error .invalidChecksumAlg) := by
  rw [CreateHandleContextFromBytes_eq _ _ _ _ _ hu, if_pos (by simp [hunsup])]

theorem restore_err_checksum (b : List Nat) (alg : Nat) (integ body rest : List Nat)
    (hu : UnmarshalFromReader [(.prim 2, .num 0), (.buffer, .bytes []), (.buffer, .bytes [])] b =
      .ok ([.num alg, .bytes integ, .bytes body], rest))
    (hsup : hashAlgSupported alg = true) (hdig : digestOf alg body ≠ integ) :
    CreateHandleContextFromBytes b = some (.error .invalidChecksum) := by
  rw [CreateHandleContextFromBytes_eq _ _ _ _ _ hu, if_neg (by simp [hsup]), if_pos hdig]

theorem restore_err_trailing (b : List Nat) (alg : Nat) (integ body rest : List Nat)
    (n : Nat) (v : Value)
    (hu : UnmarshalFromReader [(.prim 2, .num 0), (.buffer, .bytes []), (.buffer, .bytes [])] b =
      .ok ([.num alg, .bytes integ, .bytes body], rest))
    (hsup : hashAlgSupported alg = true) (hdig : digestOf alg body = integ)
    (hinner : UnmarshalFromBytes [(.ptr handleContextT, .ptrN)] body = .ok (n, [v]))
    (htr : n < body.length) :
    CreateHandleContextFromBytes b = some (.error .trailingBytes) := by
  rw [CreateHandleContextFromBytes_eq _ _ _ _ _ hu, if_neg (by simp [hsup]),
    if_neg (by simp [hdig]), hinner]
  simp [htr]

theorem restore_err_permanent (b : List Nat) (alg : Nat) (integ body rest : List Nat)
    (n : Nat) (sv : Value) (hc : handleContext)
    (hu : UnmarshalFromReader [(.prim 2, .num 0), (.buffer, .bytes []), (.buffer, .bytes [])] b =
      .ok ([.num alg, .bytes integ, .bytes body], rest))
    (hsup : hashAlgSupported alg = true) (hdig : digestOf alg body = integ)
    (hinner : UnmarshalFromBytes [(.ptr handleContextT, .ptrN)] body = .ok (n, [.ptrV sv]))
    (hnt : ¬n < body.length)
    (hof : handleContext.ofValue sv = some hc)
    (hperm : hc.Type' = handleContextTypePermanent) :
    CreateHandleContextFromBytes b = some (.error .permanentContext) := by
  rw [CreateHandleContextFromBytes_eq _ _ _ _ _ hu, if_neg (by simp [hsup]),
    if_neg (by simp [hdig]), hinner]
  simp [hnt, hof, hperm]

theorem restore_err_inconsistent (b : List Nat) (alg : Nat) (integ body rest : List Nat)
    (n : Nat) (sv : Value) (hc : handleContext) (m : String)
    (hu : UnmarshalFromReader [(.prim 2, .num 0), (.buffer, .bytes []), (.buffer, .bytes [])] b =
      .ok ([.num alg, .bytes integ, .bytes body], rest))
    (hsup : hashAlgSupported alg = true) (hdig : digestOf alg body = integ)
    (hinner : UnmarshalFromBytes [(.ptr handleContextT, .ptrN)] body = .ok (n, [.ptrV sv]))
    (hnt : ¬n < body.length)
    (hof : handleContext.ofValue sv = some hc)
    (hnperm : hc.Type' ≠ handleContextTypePermanent)
    (hcc : checkConsistency hc = .errRes m) :
    CreateHandleContextFromBytes b = some (.error (.inconsistentContext m)) := by
  rw [CreateHandleContextFromBytes_eq _ _ _ _ _ hu, if_neg (by simp [hsup]),
    if_neg (by simp [hdig]), hinner]
  simp [hnt, hof, hnperm, hcc]

theorem restore_success_inversion (b : List Nat) (hc : handleContext) (auth : List Nat)
    (hsucc : CreateHandleContextFromBytes b = some (.ok (hc, auth))) :
    auth = [] ∧ hc.Type' ≠ handleContextTypePermanent ∧ checkConsistency hc = .ok ∧
    (hc.Type' = handleContextTypeObject ∨ hc.Type' = handleContextTypeNvIndex ∨
      hc.Type' = handleContextTypeSession) ∧
    ∃ alg integ body rest,
      UnmarshalFromReader [(.prim 2, .num 0), (.buffer, .bytes []), (.buffer, .bytes [])] b =
        .ok ([.num alg, .bytes integ, .bytes body], rest) ∧
      hashAlgSupported alg = true ∧ digestOf alg body = integ ∧
      ∃ n sv, UnmarshalFromBytes [(.ptr handleContextT, .ptrN)] body = .ok (n, [.ptrV sv]) ∧
        ¬n < body.length ∧ handleContext.ofValue sv = some hc := by
  unfold CreateHandleContextFromBytes at hsucc
  split at hsucc
  · exact absurd hsucc (by simp)
  case _ alg integ body rest heq =>
    by_cases hsup : hashAlgSupported alg = true
    case neg =>
      rw [if_pos (by simp [hsup])] at hsucc
      exact absurd hsucc (by simp)
    rw [if_neg (by simp [hsup])] at hsucc
    by_cases hdig : digestOf alg body = integ
    case neg =>
      rw [if_pos hdig] at hsucc
      exact absurd hsucc (by simp)
    rw [if_neg (by simp [hdig])] at hsucc
    split at hsucc
    · exact absurd hsucc (by simp)
    case _ n v heq2 =>
      by_cases htr : n < body.length
      case pos =>
        rw [if_pos htr] at hsucc
        exact absurd hsucc (by simp)
      rw [if_neg htr] at hsucc
      split at hsucc
      case _ sv =>
        split at hsucc
        · exact absurd hsucc (by simp)
        case _ hc' heq3 =>
          by_cases hperm : hc'.Type' = handleContextTypePermanent
          case pos =>
            rw [if_pos hperm] at hsucc
            exact absurd hsucc (by simp)
          rw [if_neg hperm] at hsucc
          split at hsucc
          · exact absurd hsucc (by simp)
          · exact absurd hsucc (by simp)
          case _ heq4 =>
            by_cases h3 : hc'.Type' = handleContextTypeObject ∨
                hc'.Type' = handleContextTypeNvIndex ∨ hc'.Type' = handleContextTypeSession
            case neg =>
              rw [if_neg h3] at hsucc
              exact absurd hsucc (by simp)
            rw [if_pos h3] at hsucc
            simp only [Option.some.injEq, Except.ok.injEq, Prod.mk.injEq] at hsucc
            obtain ⟨rfl, rfl⟩ := hsucc
            exact ⟨rfl, hperm, heq4, h3, alg, integ, body, rest, heq, hsup, hdig,
              n, sv, heq2, htr, heq3⟩
      all_goals exact absurd hsucc (by simp)
    case _ => exact absurd hsucc (by simp)
  case _ => exact absurd hsucc (by simp)

/-- C3: restore (`CreateHandleContextFromReader` applied to a byte slice)
returns an error and no context whenever: the checksum algorithm of the
blob is unsupported; the recorded digest differs from the digest of the
body; bytes remain after unmarshalling the body; the restored context is
the permanent variant; or the consistency check rejects the body.  A
context is returned only when none of these hold (the success inversion),
and it always carries an empty authorization value.  Concretely, flipping
one body byte of the serialized `wObjCtx` fails the checksum
verification. -/
theorem claim_C3_restore_error_conditions :
    (∀ (b : List Nat) (alg : Nat) (integ body rest : List Nat),
      UnmarshalFromReader [(.prim 2, .num 0), (.buffer, .bytes []), (.buffer, .bytes [])] b =
        .ok ([.num alg, .bytes integ, .bytes body], rest) →
      hashAlgSupported alg = false →
      CreateHandleContextFromBytes b = some (.error .invalidChecksumAlg)) ∧
    (∀ (b : List Nat) (alg : Nat) (integ body rest : List Nat),
      UnmarshalFromReader [(.prim 2, .num 0), (.buffer, .bytes []), (.buffer, .bytes [])] b =
        .ok ([.num alg, .bytes integ, .bytes body], rest) →
      hashAlgSupported alg = true → digestOf alg body ≠ integ →
      CreateHandleContextFromBytes b = some (.error .invalidChecksum)) ∧
    (∀ (b : List Nat) (alg : Nat) (integ body rest : List Nat) (n : Nat) (v : Value),
      UnmarshalFromReader [(.prim 2, .num 0), (.buffer, .bytes []), (.buffer, .bytes [])] b =
        .ok ([.num alg, .bytes integ, .bytes body], rest) →
      hashAlgSupported alg = true → digestOf alg body = integ →
      UnmarshalFromBytes [(.ptr handleContextT, .ptrN)] body = .ok (n, [v]) →
      n < body.length →
      CreateHandleContextFromBytes b = some (.error .trailingBytes)) ∧
    (∀ (b : List Nat) (alg : Nat) (integ body rest : List Nat) (n : Nat) (sv : Value)
        (hc : handleContext),
      UnmarshalFromReader [(.prim 2, .num 0), (.buffer, .bytes []), (.buffer, .bytes [])] b =
        .ok ([.num alg, .bytes integ, .bytes body], rest) →
      hashAlgSupported alg = true → digestOf alg body = integ →
      UnmarshalFromBytes [(.ptr handleContextT, .ptrN)] body = .ok (n, [.ptrV sv]) →
      ¬n < body.length → handleContext.ofValue sv = some hc →
      hc.Type' = handleContextTypePermanent →
      CreateHandleContextFromBytes b = some (.error .permanentContext)) ∧
    (∀ (b : List Nat) (alg : Nat) (integ body rest : List Nat) (n : Nat) (sv : Value)
        (hc : handleContext) (m : String),
      UnmarshalFromReader [(.prim 2, .num 0), (.buffer, .bytes []), (.buffer, .bytes [])] b =
        .ok ([.num alg, .bytes integ, .bytes body], rest) →
      hashAlgSupported alg = true → digestOf alg body = integ →
      UnmarshalFromBytes [(.ptr handleContextT, .ptrN)] body = .ok (n, [.ptrV sv]) →
      ¬n < body.length → handleContext.ofValue sv = some hc →
      hc.Type' ≠ handleContextTypePermanent → checkConsistency hc = .errRes m →
      CreateHandleContextFromBytes b = some (.error (.inconsistentContext m))) ∧
    (∀ (b : List Nat) (hc : handleContext) (auth : List Nat),
      CreateHandleContextFromBytes b = some (.ok (hc, auth)) →
      auth = [] ∧ hc.Type' ≠ handleContextTypePermanent ∧ checkConsistency hc = .ok ∧
      (hc.Type' = handleContextTypeObject ∨ hc.Type' = handleContextTypeNvIndex ∨
        hc.Type' = handleContextTypeSession) ∧
      ∃ alg integ body rest,
        UnmarshalFromReader [(.prim 2, .num 0), (.buffer, .bytes []), (.buffer, .bytes [])] b =
          .ok ([.num alg, .bytes integ, .bytes body], rest) ∧
        hashAlgSupported alg = true ∧ digestOf alg body = integ ∧
        ∃ n sv, UnmarshalFromBytes [(.ptr handleContextT, .ptrN)] body = .ok (n, [.ptrV sv]) ∧
          ¬n < body.length ∧ handleContext.ofValue sv = some hc) ∧
    (SerializeToBytes wObjCtx = .ok wObjBlob ∧
      CreateHandleContextFromBytes (flipByteAt (wObjBlob.length - 1) wObjBlob) =
        some (.error .invalidChecksum)) :=
  ⟨restore_err_invalidAlg, restore_err_checksum, restore_err_trailing, restore_err_permanent,
    restore_err_inconsistent, restore_success_inversion, by decide, by decide⟩
